import Mathlib

/-! # Request execution, error decoding and client operations of edgegrid

Shallow embedding of `pkg/session/request.go` (`Exec`, `Sign`),
`pkg/session/errors.go` (`NewAPIError`, `APIError.Is`), `pkg/imaging/policy.go`
(request validation, policy outputs, the six policy operations) and the
operations of `pkg/appsec` (eval groups, eval rules, IP/Geo protection,
hostname coverage).

Modelling conventions

* A Go `map[string][]string` (`http.Header`) is a partial function from keys to
  value lists; a missing key is `none`.  `Header.Get` and `Header.Set` are only
  called by `Exec` with the literal keys `User-Agent` and `Content-Type`, which
  are already in canonical MIME form, so key canonicalisation is the identity
  at every call site and is not modelled.  The request's header map is assumed
  allocated, as `http.NewRequest` leaves it.
* A byte slice that is handed to `encoding/json` is represented by what the
  decoder sees: either text that is not valid JSON, or the JSON value it spells.
* Collaborators outside the repository (the credential signer, the HTTP client,
  `json.Marshal` / `json.Unmarshal` on caller types, the text written by the
  `httputil` dumpers) are parameters.  Error values they produce are
  `Error.external`: they are not this package's sentinels or API errors and do
  not wrap them.
* A response body is a stream: the bytes it yields and the error its reading
  ends with, if any.  The dumpers are called with the body: they drain it and
  put back a reader over the same bytes, unless the read fails, in which case
  the stream is left where the read stopped.
* Effects are recorded in an event list, one event per call site, in program
  order; the record returned by `Exec` also carries the final state of the
  mutable arguments `r` and `out` and the `return` statement that was taken.
* Rules of `ozzo-validation` and the decoding rules of `encoding/json` follow
  the documented behaviour of those libraries.  Types and functions of the
  repository whose source is not in `src` are type parameters or fields of an
  environment record.
* In `Error.wrap inner text`, `text` is what the format adds around the wrapped
  error; message texts play no part in any statement.
-/

namespace session

/-! ## Errors -/

/-- Struct `APIError`; `StatusCode` carries the tag `json:"-"` and is never decoded. -/
structure APIError where
  Type_ : String
  Title : String
  Detail : String
  StatusCode : Int
deriving DecidableEq, Repr

/-- Go error values: a package-level `errors.New` sentinel (identified by its
qualified variable name), an error built by `fmt.Errorf` with one `%w` verb
(`inner` is what `Unwrap` returns, `text` the formatted remainder), an error
value coming from a library call, or a `*APIError` (the address stands for the
pointer, `val` for what it points to). -/
inductive Error where
  | sentinel (name : String)
  | wrap (inner : Error) (text : String)
  | external (text : String)
  | api (addr : Nat) (val : APIError)
deriving DecidableEq, Repr

/-- Method `APIError.Error` (errors.go:39-41). -/
def APIError.Error (e : APIError) : String :=
  "Title: " ++ e.Title ++ "; Type: " ++ e.Type_ ++ "; Details: " ++ e.Detail

/-- The `Unwrap` chain of an error, the error itself first. -/
def Error.chain : Error → List Error
  | .wrap inner text => .wrap inner text :: Error.chain inner
  | e => [e]

/-- The call `errors.As(target, &t)` with `t` of type `*APIError`: the first
`*APIError` on the `Unwrap` chain of the target, when there is one. -/
def Error.asAPIError : Error → Option (Nat × APIError)
  | .wrap inner _ => Error.asAPIError inner
  | .api addr val => some (addr, val)
  | _ => none

/-- Method `(*APIError).Is` (errors.go:44-59) on the pointer `addr` to `e`. -/
def APIError.Is (addr : Nat) (e : APIError) (target : session.Error) : Bool :=
  match Error.asAPIError target with
  | none => false
  | some (taddr, t) =>
    if addr = taddr then true
    else if e.StatusCode ≠ t.StatusCode then false
    else APIError.Error e == APIError.Error t

/-- The call `errors.Is(e, target)`: walk the `Unwrap` chain of `e`, comparing
each error with `==` and asking its `Is` method when it has one. -/
def Error.Is : Error → Error → Bool
  | .wrap inner text, target =>
      decide (Error.wrap inner text = target) || Error.Is inner target
  | .api addr val, target =>
      decide (Error.api addr val = target) || APIError.Is addr val target
  | e, target => decide (e = target)

/-- Sentinel `ErrInvalidArgument = errors.New("invalid arguments provided")`. -/
def ErrInvalidArgument : Error := .sentinel "session.ErrInvalidArgument"

/-- Sentinel `ErrMarshaling = errors.New("marshaling input")`. -/
def ErrMarshaling : Error := .sentinel "session.ErrMarshaling"

/-- Sentinel `ErrUnmarshaling = errors.New("unmarshaling output")`. -/
def ErrUnmarshaling : Error := .sentinel "session.ErrUnmarshaling"

/-! ## JSON text -/

/-- A JSON value as `encoding/json` tokenises it; object members keep their
textual order. -/
inductive JSON where
  | null
  | bool (b : Bool)
  | number (n : Int)
  | string (s : String)
  | array (items : List JSON)
  | object (members : List (String × JSON))

/-- A byte slice as seen by a JSON decoder. -/
inductive Bytes where
  | malformed (raw : String)
  | json (value : JSON)

/-! ## HTTP messages -/

/-- Go `http.Header`. -/
abbrev Header := String → Option (List String)

/-- Go `Header.Get`: first value stored under the key, or the empty string. -/
def Header.Get (h : Header) (key : String) : String :=
  match h key with
  | some (v :: _) => v
  | _ => ""

/-- Go `Header.Set`: replace the entry of the key by the single value. -/
def Header.Set (h : Header) (key value : String) : Header :=
  fun k => if k = key then some [value] else h k

/-- The fields of `url.URL` that `Exec` touches, and the path. -/
structure URL where
  Scheme : String
  Host : String
  Path : String
deriving DecidableEq, Repr

/-- Modelled from the spec: the declaration of `contextOptions` is missing from
src; only its `header` field, ranged over at request.go:28, is modelled. -/
structure contextOptions where
  header : Header

/-- Go `http.Request`: `Body` is `none` for a nil body; `options` is the result of
`r.Context().Value(contextOptionKey).(*contextOptions)` (`none` when the type
assertion fails). -/
structure Request where
  Method : String
  URL : URL
  Header : Header
  Body : Option Bytes
  options : Option contextOptions

/-- Go `Request.UserAgent`: the `User-Agent` header. -/
def Request.UserAgent (r : Request) : String := Header.Get r.Header "User-Agent"

/-- A response body stream: `ioutil.ReadAll` yields `data` and `readErr`. -/
structure Body where
  data : Bytes
  readErr : Option String

/-- Go `http.Response`. -/
structure Response where
  StatusCode : Int
  Body : Body

/-! ## Session -/

/-- The fields of `edgegrid.Config` used by the session: `SignRequest` mutates
the request in place and is opaque. -/
structure Config where
  Host : String
  SignRequest : Request → Request

/-- Modelled from the spec: the declaration of the `session` struct is missing
from src; these are the fields `Exec` and `Sign` read.  `client` is
`s.client.Do`. -/
structure Session where
  userAgent : String
  config : Config
  trace : Bool
  client : Request → Except String Response

/-- Library calls made by `Exec` on caller-chosen types `α` (the `in` value)
and `β` (what `out` points to).  `Unmarshal` returns the possibly modified
target together with the error, as the Go decoder may write before failing.
`DumpRequestOut` and `DumpResponse` give what the `httputil` dumper writes, or
its error, once it has buffered the body of the message; the reading of the
body by the dumper is modelled by the functions `DumpRequestOut` and
`DumpResponse` below.  `Reread` is what is left of a body stream after a read
of it has failed, which the reader contract leaves open. -/
structure Lib (α β : Type) where
  Marshal : α → Except String Bytes
  Unmarshal : Bytes → β → β × Option String
  DumpRequestOut : Request → Except String String
  DumpResponse : Response → Except String String
  Reread : Body → Body

/-- One entry per effectful call site of `Exec`, with the argument it saw. -/
inductive Event where
  | sign (r : Request)
  | dumpRequestOut (r : Request)
  | logError (msg : String)
  | logDebug (msg : String)
  | clientDo (r : Request)
  | dumpResponse (resp : Response)
  | readAll (body : Body)
  | unmarshal (data : Bytes)

/-- The `return` statements of `Exec`, by what made them fire. -/
inductive ReturnSite where
  | invalidArgument
  | marshalFailed
  | signFailed
  | transportFailed
  | readFailed
  | unmarshalFailed
  | done
deriving DecidableEq, Repr

/-- What a call of `Exec` leaves behind: the returned pair, the final state of
`*r` and `*out`, the effects in order, and the return statement taken. -/
structure Result (β : Type) where
  resp : Option Response
  err : Option Error
  r : Request
  out : Option β
  events : List Event
  site : ReturnSite

/-- Method `Sign` (request.go:101-104): calls `s.config.SignRequest(r)` and returns nil. -/
def Sign (s : Session) (r : Request) : Request × Option Error :=
  (s.config.SignRequest r, none)

/-- Lines 62-69 and 76-83: the events of one trace block. -/
def traceEvents (trace : Bool) (dump : Except String String) (failMsg : String)
    (mk : Event) : List Event :=
  if trace then
    match dump with
    | .error _ => [mk, .logError failMsg]
    | .ok data => [mk, .logDebug data]
  else []

/-- Lines 85-97 of `Exec`: read and decode the body when `out` is non-nil. -/
def receive {α β : Type} (lib : Lib α β) (r : Request) (resp : Response)
    (out : Option β) (evs : List Event) : Result β :=
  match out with
  | none => ⟨some resp, none, r, none, evs, .done⟩
  | some o =>
    let data := resp.Body.data
    let err := resp.Body.readErr
    let resp := { resp with Body := { data := data, readErr := none } }
    let evs := evs ++ [.readAll ⟨data, err⟩]
    match err with
    | some e => ⟨none, some (.external e), r, some o, evs, .readFailed⟩
    | none =>
      match lib.Unmarshal data o with
      | (o, some e) =>
        ⟨none, some (.wrap ErrUnmarshaling e), r, some o, evs ++ [.unmarshal data],
          .unmarshalFailed⟩
      | (o, none) => ⟨some resp, none, r, some o, evs ++ [.unmarshal data], .done⟩

/-- Function `httputil.DumpRequestOut(r, true)`: the request after the call and
what the call returns.  The dumper drains the request body and puts back a
reader over the same bytes; the body of a request is an in-memory byte slice
here, so the request after the call is the request before it. -/
def DumpRequestOut {α β : Type} (lib : Lib α β) (r : Request) :
    Request × Except String String :=
  (r, lib.DumpRequestOut r)

/-- Function `httputil.DumpResponse(resp, true)`: the response after the call
and what the call returns.  The dumper drains the response body.  When the
body is read to its end, it puts back a reader over the same bytes and writes
the dump; when the read fails, it returns the read error and leaves the stream
where the read stopped. -/
def DumpResponse {α β : Type} (lib : Lib α β) (resp : Response) :
    Response × Except String String :=
  match resp.Body.readErr with
  | none => (resp, lib.DumpResponse resp)
  | some err => ({ resp with Body := lib.Reread resp.Body }, .error err)

/-- Lines 58-83 of `Exec`: sign, optionally dump, send, optionally dump.  The
events `dumpRequestOut` and `dumpResponse` stand for the calls of the dumpers,
each of which reads the body of its message. -/
def send {α β : Type} (lib : Lib α β) (s : Session) (r : Request)
    (out : Option β) : Result β :=
  let evs := [Event.sign r]
  match Sign s r with
  | (r, some err) => ⟨none, some err, r, out, evs, .signFailed⟩
  | (r, none) =>
    let evs := evs ++ traceEvents s.trace (DumpRequestOut lib r).2 "Failed to dump request"
      (.dumpRequestOut r)
    let r := if s.trace then (DumpRequestOut lib r).1 else r
    let evs := evs ++ [.clientDo r]
    match s.client r with
    | .error err => ⟨none, some (.external err), r, out, evs, .transportFailed⟩
    | .ok resp =>
      let evs := evs ++ traceEvents s.trace (DumpResponse lib resp).2 "Failed to dump response"
        (.dumpResponse resp)
      let resp := if s.trace then (DumpResponse lib resp).1 else resp
      receive lib r resp out evs

/-- Method `Exec` (request.go:20-98). -/
def Exec {α β : Type} (lib : Lib α β) (s : Session) (r : Request)
    (out : Option β) (ins : List α) : Result β :=
  if ins.length > 1 then
    ⟨none, some (.wrap ErrInvalidArgument "'in' argument must have 0 or 1 value"),
      r, out, [], .invalidArgument⟩
  else
    let r :=
      match r.options with
      | some o =>
        { r with Header := fun k => match o.header k with
                                    | some v => some v
                                    | none => r.Header k }
      | none => r
    let r :=
      if r.UserAgent = "" then { r with Header := Header.Set r.Header "User-Agent" s.userAgent }
      else r
    let r :=
      if Header.Get r.Header "Content-Type" = "" then
        { r with Header := Header.Set r.Header "Content-Type" "application/json" }
      else r
    let r := if r.URL.Scheme = "" then { r with URL := { r.URL with Scheme := "https" } } else r
    let r := if r.URL.Host = "" then { r with URL := { r.URL with Host := s.config.Host } } else r
    match ins with
    | [] => send lib s r out
    | x :: _ =>
      match lib.Marshal x with
      | .error err => ⟨none, some (.wrap ErrMarshaling err), r, out, [], .marshalFailed⟩
      | .ok data => send lib s { r with Body := some data } out

/-! ## The preparation steps, as the interface describes them -/

/-- Context header overrides: every key carried by the context options takes
the context's value list. -/
def applyContextHeaders (r : Request) : Request :=
  match r.options with
  | none => r
  | some o =>
    { r with Header := fun k => match o.header k with
                                | some v => some v
                                | none => r.Header k }

/-- Default headers: the session's user agent and the JSON content type, each
only where the request has none. -/
def applyDefaultHeaders (s : Session) (r : Request) : Request :=
  let h := r.Header
  let h := if Header.Get h "User-Agent" = "" then Header.Set h "User-Agent" s.userAgent else h
  let h := if Header.Get h "Content-Type" = "" then Header.Set h "Content-Type" "application/json"
    else h
  { r with Header := h }

/-- Default scheme and host. -/
def applyDefaultURL (s : Session) (r : Request) : Request :=
  { r with URL :=
      { Scheme := if r.URL.Scheme = "" then "https" else r.URL.Scheme
        Host := if r.URL.Host = "" then s.config.Host else r.URL.Host
        Path := r.URL.Path } }

/-- The request before the body is attached (request.go:26-47). -/
def prepared (s : Session) (r : Request) : Request :=
  applyDefaultURL s (applyDefaultHeaders s (applyContextHeaders r))

/-- Encoded body: with one `in` value the body becomes its JSON encoding, with
none the request is kept; `none` when the encoding fails. -/
def attachBody {α β : Type} (lib : Lib α β) (ins : List α) (r : Request) : Option Request :=
  match ins with
  | [] => some r
  | x :: _ =>
    match lib.Marshal x with
    | .ok data => some { r with Body := some data }
    | .error _ => none

/-- The requests handed to the HTTP client, in order. -/
def sentRequests : List Event → List Request
  | [] => []
  | .clientDo r :: evs => r :: sentRequests evs
  | _ :: evs => sentRequests evs

/-- The requests handed to `Sign`, in order. -/
def signedRequests : List Event → List Request
  | [] => []
  | .sign r :: evs => r :: signedRequests evs
  | _ :: evs => signedRequests evs

/-- The response bodies read, in order: by `ioutil.ReadAll` and by the
response dump. -/
def bodiesRead : List Event → List Body
  | [] => []
  | .readAll b :: evs => b :: bodiesRead evs
  | .dumpResponse resp :: evs => resp.Body :: bodiesRead evs
  | _ :: evs => bodiesRead evs

/-- The byte slices handed to `json.Unmarshal`, in order. -/
def decoded : List Event → List Bytes
  | [] => []
  | .unmarshal d :: evs => d :: decoded evs
  | _ :: evs => decoded evs

/-! ## Error responses (errors.go) -/

/-- Member names match struct fields up to ASCII case, as `encoding/json`
does for the names `type`, `title` and `detail`. -/
def equalFold (a b : String) : Bool :=
  a.data.map Char.toLower == b.data.map Char.toLower

/-- Package `encoding/json` storing one JSON value into a Go `string`: a string is
stored, `null` leaves the field alone, anything else is a type error that
leaves the field alone.  The flag reports the type error. -/
def decodeStringField (cur : String) : JSON → String × Bool
  | .string v => (v, false)
  | .null => (cur, false)
  | _ => (cur, true)

/-- One object member decoded into an `APIError`; the flag accumulates type
errors, after which the decoder carries on with the next member. -/
def decodeMember (acc : APIError × Bool) (m : String × JSON) : APIError × Bool :=
  if equalFold m.1 "type" then
    ({ acc.1 with Type_ := (decodeStringField acc.1.Type_ m.2).1 },
      acc.2 || (decodeStringField acc.1.Type_ m.2).2)
  else if equalFold m.1 "title" then
    ({ acc.1 with Title := (decodeStringField acc.1.Title m.2).1 },
      acc.2 || (decodeStringField acc.1.Title m.2).2)
  else if equalFold m.1 "detail" then
    ({ acc.1 with Detail := (decodeStringField acc.1.Detail m.2).1 },
      acc.2 || (decodeStringField acc.1.Detail m.2).2)
  else acc

/-- The call `json.Unmarshal(body, &apiError)`: text that is not JSON is rejected before
anything is written; `null` is a no-op; an object is decoded member by member
in order; any other value is a type error. -/
def unmarshalAPIError (data : Bytes) (e : APIError) : APIError × Option String :=
  match data with
  | .malformed _ => (e, some "invalid character looking for beginning of value")
  | .json .null => (e, none)
  | .json (.object members) =>
    let res := members.foldl decodeMember (e, false)
    (res.1, if res.2 then some "json: cannot unmarshal value into Go struct field" else none)
  | .json _ => (e, some "json: cannot unmarshal value into Go value of type session.APIError")

/-- Function `NewAPIError` (errors.go:23-37); the second component is what was logged. -/
def NewAPIError (r : Response) : APIError × List String :=
  let apiError : APIError := ⟨"", "", "", 0⟩
  match r.Body.readErr with
  | some err =>
    ({ apiError with StatusCode := r.StatusCode }, ["reading error response body: " ++ err])
  | none =>
    match unmarshalAPIError r.Body.data apiError with
    | (apiError, some err) =>
      ({ apiError with StatusCode := r.StatusCode }, ["could not unmarshal API error: " ++ err])
    | (apiError, none) => ({ apiError with StatusCode := r.StatusCode }, [])

/-- The value the decoder ends up attributing to a field name: that of the
last member, in textual order, whose name matches it up to ASCII case. -/
def lastMember (name : String) (members : List (String × JSON)) : Option JSON :=
  (members.reverse.find? (fun m => equalFold m.1 name)).map Prod.snd

/-- The string carried by the member of the given name, or the default when
there is no such member or it is not a string. -/
def memberStringOr (dflt name : String) (members : List (String × JSON)) : String :=
  match lastMember name members with
  | some (.string v) => v
  | _ => dflt

/-- The string carried by the member of the given name, empty when absent. -/
def memberString (name : String) (members : List (String × JSON)) : String :=
  memberStringOr "" name members

/-! ## Concrete collaborators used to exercise the definitions -/

/-- The JSON codec on Go `int`: `in` values are ints, `out` points to an int. -/
def intLib : Lib Int Int where
  Marshal := fun n => .ok (.json (.number n))
  Unmarshal := fun data o =>
    match data with
    | .json (.number n) => (n, none)
    | .json .null => (o, none)
    | .json _ => (o, some "json: cannot unmarshal value into Go value of type int")
    | .malformed _ => (o, some "invalid character looking for beginning of value")
  DumpRequestOut := fun _ => .ok "request dump"
  DumpResponse := fun _ => .ok "response dump"
  Reread := fun b => ⟨.malformed "", b.readErr⟩

/-- A codec whose `in` values cannot be encoded (Go channels). -/
def chanLib : Lib Unit Int where
  Marshal := fun _ => .error "json: unsupported type: chan int"
  Unmarshal := intLib.Unmarshal
  DumpRequestOut := intLib.DumpRequestOut
  DumpResponse := intLib.DumpResponse
  Reread := intLib.Reread

/-- A signer that adds an `Authorization` header. -/
def stampAuthorization (r : Request) : Request :=
  { r with Header := Header.Set r.Header "Authorization" "EG1-HMAC-SHA256 signature" }

/-- A session whose client answers every request with the given result. -/
def fixedSession (trace : Bool) (answer : Except String Response) : Session where
  userAgent := "Akamai-Open-Edgegrid-golang/3.0.0"
  config := { Host := "example.luna.akamaiapis.net", SignRequest := stampAuthorization }
  trace := trace
  client := fun _ => answer

/-- A `200` response carrying the JSON number 7. -/
def okResponse : Response := ⟨200, ⟨.json (.number 7), none⟩⟩

/-- A `500` response carrying a problem-details object. -/
def errorResponse : Response :=
  ⟨500, ⟨.json (.object [("type", .string "internal_error"),
    ("title", .string "Internal Server Error"), ("detail", .string "Error creating zone")]), none⟩⟩

/-- A header map with a single entry. -/
def singleHeader (key : String) (values : List String) : Header :=
  fun k => if k = key then some values else none

/-- A relative `PUT` request with an empty header map, a body and no context
options. -/
def putRequest : Request where
  Method := "PUT"
  URL := ⟨"", "", "/appsec/v1/configs/43253/versions/15/security-policies"⟩
  Header := fun _ => none
  Body := some (.malformed "stale")
  options := none

/-- The same request carrying context options with the given header map. -/
def putRequestWith (h : Header) : Request :=
  { putRequest with options := some ⟨h⟩ }


/-- The text of an error, as `%s` prints it, up to the order of its parts: a
sentinel is printed by its qualified variable name, which stands for its
message, and a wrapping error by the text of the wrapped error followed by
the remainder.  No claim depends on message texts. -/
def Error.text : Error → String
  | .sentinel name => name
  | .wrap inner rest => Error.text inner ++ ": " ++ rest
  | .external msg => msg
  | .api _ val => APIError.Error val

/-- What an operation of a client package leaves behind: the returned pair,
the calls of `http.NewRequestWithContext` it made (method and URI), and the
effects of its call of `Exec`. -/
structure OpResult (γ : Type) where
  result : Option γ
  err : Option Error
  built : List (String × String)
  events : List Event

/-- An operation stopped before doing anything: a nil result, an error that
matches the sentinel, no request built and no effect of `Exec` (nothing signed,
nothing sent). -/
def OpResult.stoppedWith {γ : Type} (r : OpResult γ) (sentinel : Error) : Prop :=
  r.result = none ∧ (∃ e, r.err = some e ∧ Error.Is e sentinel = true) ∧
    r.built = [] ∧ r.events = []

end session

/-! # Field validation (`go-ozzo/ozzo-validation/v4`, as the repository uses it)

Library rules, modelled from their documented behaviour: a rule returns `none`
for nil, otherwise the text of the error. -/

namespace validation

/-- Rule `validation.Required` on a string: the empty string is rejected. -/
def Required (value : String) : Option String :=
  if value = "" then some "cannot be blank" else none

/-- Rule `validation.Required` on an int: zero is the empty value and is
rejected. -/
def RequiredInt (value : Int) : Option String :=
  if value = 0 then some "cannot be blank" else none

/-- Rule `validation.Required` on an interface or pointer: nil is rejected. -/
def RequiredPtr {τ : Type} (value : Option τ) : Option String :=
  match value with
  | none => some "cannot be blank"
  | some _ => none

/-- Rule `validation.In(values...).Error(msg)` on a string-kinded value: the
empty value is valid, any other value must be one of the listed ones. -/
def In (values : List String) (msg : String) (value : String) : Option String :=
  if value = "" then none else if value ∈ values then none else some msg

/-- Rule `validation.Min(threshold)` on a `*int`: a nil pointer and the empty
value zero are valid; any other value must be at least the threshold. -/
def Min (threshold : Int) (value : Option Int) : Option String :=
  match value with
  | none => none
  | some v =>
    if v = 0 then none
    else if threshold ≤ v then none
    else some ("must be no less than " ++ toString threshold)

/-- Rule `validation.Max(threshold)` on a `*int`: a nil pointer and the empty
value zero are valid; any other value must be at most the threshold. -/
def Max (threshold : Int) (value : Option Int) : Option String :=
  match value with
  | none => none
  | some v =>
    if v = 0 then none
    else if v ≤ threshold then none
    else some ("must be no greater than " ++ toString threshold)

/-- Function `validation.Validate(value, rules...)` on a value that is not
itself validatable: the error of the first rule that fails, in order. -/
def Validate {τ : Type} (value : τ) : List (τ → Option String) → Option String
  | [] => none
  | rule :: rules =>
    match rule value with
    | some err => some err
    | none => Validate value rules

/-- A `validation.Errors` literal: field names with the error of each. -/
abbrev Errors := List (String × Option String)

/-- Method `Errors.Filter`: the nil entries are deleted; nil when no entry is
left, otherwise the remaining entries. -/
def Filter (es : Errors) : Option (List (String × String)) :=
  match es.filterMap (fun e => e.2.map (fun msg => (e.1, msg))) with
  | [] => none
  | kept => some kept

/-- Method `Errors.Error`: the entries in key order, joined with semicolons. -/
def render (es : List (String × String)) : String :=
  "; ".intercalate ((es.insertionSort (fun a b => a.1 < b.1)).map
    (fun e => e.1 ++ ": " ++ e.2)) ++ "."

end validation

/-! # Image and video policies (`pkg/imaging/policy.go`) -/

namespace imaging

open session

/-- Sentinel `ErrUnmarshalPolicyOutputList`. -/
def ErrUnmarshalPolicyOutputList : Error := .sentinel "imaging.ErrUnmarshalPolicyOutputList"

/-- Sentinel `ErrListPolicies`. -/
def ErrListPolicies : Error := .sentinel "imaging.ErrListPolicies"

/-- Sentinel `ErrGetPolicy`. -/
def ErrGetPolicy : Error := .sentinel "imaging.ErrGetPolicy"

/-- Sentinel `ErrUpsertPolicy`. -/
def ErrUpsertPolicy : Error := .sentinel "imaging.ErrUpsertPolicy"

/-- Sentinel `ErrDeletePolicy`. -/
def ErrDeletePolicy : Error := .sentinel "imaging.ErrDeletePolicy"

/-- Sentinel `ErrGetPolicyHistory`. -/
def ErrGetPolicyHistory : Error := .sentinel "imaging.ErrGetPolicyHistory"

/-- Sentinel `ErrRollbackPolicy`. -/
def ErrRollbackPolicy : Error := .sentinel "imaging.ErrRollbackPolicy"

/-- Modelled from the spec: the declaration of the package variable
`ErrStructValidation` of `imaging` is missing from src (the one of `cps` is at
cps.go:11); it is a sentinel of its own. -/
def ErrStructValidation : Error := .sentinel "imaging.ErrStructValidation"

/-- Type `PolicyNetwork`, a string. -/
abbrev PolicyNetwork := String

/-- Constant `PolicyNetworkStaging`. -/
def PolicyNetworkStaging : PolicyNetwork := "staging"

/-- Constant `PolicyNetworkProduction`. -/
def PolicyNetworkProduction : PolicyNetwork := "production"

/-- What the operations take from outside policy.go: `ParseValidationErrors`
is `edgegriderr.ParseValidationErrors` (its source is missing from src; it
turns a `validation.Errors` into an error or nil), `NewRequestWithContext` is
`http.NewRequestWithContext(ctx, method, uri, nil)` for the caller's context,
and `Error` is the client's `Error(resp)` (errors.go of the package is missing
from src). -/
structure Env where
  ParseValidationErrors : validation.Errors → Option String
  NewRequestWithContext : String → String → Except String Request
  Error : Response → session.Error

/-- Struct `ListPoliciesRequest`. -/
structure ListPoliciesRequest where
  Network : PolicyNetwork
  ContractID : String
  PolicySetID : String
deriving DecidableEq, Repr

/-- Struct `policyRequest`, the underlying type of `GetPolicyRequest`,
`DeletePolicyRequest`, `GetPolicyHistoryRequest` and `RollbackPolicyRequest`. -/
structure policyRequest where
  PolicyID : String
  Network : PolicyNetwork
  ContractID : String
  PolicySetID : String
deriving DecidableEq, Repr

/-- The message of the `Network` rule, `fmt.Sprintf("network has to be '%s', '%s'", ...)`. -/
def networkMessage : String :=
  "network has to be '" ++ PolicyNetworkStaging ++ "', '" ++ PolicyNetworkProduction ++ "'"

/-- Method `ListPoliciesRequest.Validate` (policy.go:283-291). -/
def ListPoliciesRequest.Validate (env : Env) (v : ListPoliciesRequest) : Option String :=
  env.ParseValidationErrors
    [("ContractID", validation.Validate v.ContractID [validation.Required]),
     ("PolicySetID", validation.Validate v.PolicySetID [validation.Required]),
     ("Network", validation.Validate v.Network [validation.Required,
        validation.In [PolicyNetworkStaging, PolicyNetworkProduction] networkMessage])]

/-- Method `GetPolicyRequest.Validate` (policy.go:294-303). -/
def GetPolicyRequest.Validate (env : Env) (v : policyRequest) : Option String :=
  env.ParseValidationErrors
    [("PolicyID", validation.Validate v.PolicyID [validation.Required]),
     ("ContractID", validation.Validate v.ContractID [validation.Required]),
     ("PolicySetID", validation.Validate v.PolicySetID [validation.Required]),
     ("Network", validation.Validate v.Network [validation.Required,
        validation.In [PolicyNetworkStaging, PolicyNetworkProduction] networkMessage])]

/-- Method `DeletePolicyRequest.Validate` (policy.go:320-329). -/
def DeletePolicyRequest.Validate (env : Env) (v : policyRequest) : Option String :=
  env.ParseValidationErrors
    [("PolicyID", validation.Validate v.PolicyID [validation.Required]),
     ("ContractID", validation.Validate v.ContractID [validation.Required]),
     ("PolicySetID", validation.Validate v.PolicySetID [validation.Required]),
     ("Network", validation.Validate v.Network [validation.Required,
        validation.In [PolicyNetworkStaging, PolicyNetworkProduction] networkMessage])]

/-- Method `GetPolicyHistoryRequest.Validate` (policy.go:332-341). -/
def GetPolicyHistoryRequest.Validate (env : Env) (v : policyRequest) : Option String :=
  env.ParseValidationErrors
    [("PolicyID", validation.Validate v.PolicyID [validation.Required]),
     ("ContractID", validation.Validate v.ContractID [validation.Required]),
     ("PolicySetID", validation.Validate v.PolicySetID [validation.Required]),
     ("Network", validation.Validate v.Network [validation.Required,
        validation.In [PolicyNetworkStaging, PolicyNetworkProduction] networkMessage])]

/-- Method `RollbackPolicyRequest.Validate` (policy.go:344-353). -/
def RollbackPolicyRequest.Validate (env : Env) (v : policyRequest) : Option String :=
  env.ParseValidationErrors
    [("PolicyID", validation.Validate v.PolicyID [validation.Required]),
     ("ContractID", validation.Validate v.ContractID [validation.Required]),
     ("PolicySetID", validation.Validate v.PolicySetID [validation.Required]),
     ("Network", validation.Validate v.Network [validation.Required,
        validation.In [PolicyNetworkStaging, PolicyNetworkProduction] networkMessage])]

/-- Modelled from the spec: the types of the fields other than `Hosts` and
`RolloutDuration` (`Breakpoints`, `OutputImage`, `PostBreakpointTransformations`,
`Transformations`, `Variable`) are declared in policy.gen.go, missing from src;
each such field is represented by what `validation.Validate` returns on it. -/
structure PolicyInputImage where
  Breakpoints : Option String
  Hosts : List String
  Output : Option String
  PostBreakpointTransformations : Option String
  RolloutDuration : Option Int
  Transformations : Option String
  Variables : Option String
deriving DecidableEq, Repr

/-- Modelled from the spec: as for `PolicyInputImage`, the fields of types
declared in policy.gen.go (`Breakpoints`, `OutputVideo`, `Variable`) are
represented by what `validation.Validate` returns on them. -/
structure PolicyInputVideo where
  Breakpoints : Option String
  Hosts : List String
  Output : Option String
  RolloutDuration : Option Int
  Variables : Option String
deriving DecidableEq, Repr

/-- Rule list `validation.Each()` without rules on a `[]string`: every element
passes. -/
def eachHost (_hosts : List String) : Option String := none

/-- Method `PolicyInputImage.Validate` (policy.go:205-218). -/
def PolicyInputImage.Validate (p : PolicyInputImage) : Option (List (String × String)) :=
  validation.Filter
    [("Breakpoints", p.Breakpoints),
     ("Hosts", validation.Validate p.Hosts [eachHost]),
     ("Output", p.Output),
     ("PostBreakpointTransformations", p.PostBreakpointTransformations),
     ("RolloutDuration", validation.Validate p.RolloutDuration
        [validation.Min 3600, validation.Max 604800]),
     ("Transformations", p.Transformations),
     ("Variables", p.Variables)]

/-- Method `PolicyInputVideo.Validate` (policy.go:221-232). -/
def PolicyInputVideo.Validate (p : PolicyInputVideo) : Option (List (String × String)) :=
  validation.Filter
    [("Breakpoints", p.Breakpoints),
     ("Hosts", validation.Validate p.Hosts [eachHost]),
     ("Output", p.Output),
     ("RolloutDuration", validation.Validate p.RolloutDuration
        [validation.Min 3600, validation.Max 604800]),
     ("Variables", p.Variables)]

/-- Interface `PolicyInput`: a `*PolicyInputImage` or a `*PolicyInputVideo`. -/
inductive PolicyInput where
  | Image (p : PolicyInputImage)
  | Video (p : PolicyInputVideo)
deriving DecidableEq, Repr

/-- Struct `UpsertPolicyRequest`; the embedded `PolicyInput` is `none` for a
nil interface. -/
structure UpsertPolicyRequest where
  PolicyID : String
  Network : PolicyNetwork
  ContractID : String
  PolicySetID : String
  PolicyInput : Option PolicyInput
deriving DecidableEq, Repr

/-- The entry `validation.Validate(v.PolicyInput, validation.Required)`: nil is
rejected by the rule, a policy is then validated by its own `Validate`. -/
def validatePolicyInput (input : Option PolicyInput) : Option String :=
  match validation.Validate input [validation.RequiredPtr] with
  | some err => some err
  | none =>
    match input with
    | none => none
    | some (.Image p) => (PolicyInputImage.Validate p).map validation.render
    | some (.Video p) => (PolicyInputVideo.Validate p).map validation.render

/-- Method `UpsertPolicyRequest.Validate` (policy.go:306-317). -/
def UpsertPolicyRequest.Validate (env : Env) (v : UpsertPolicyRequest) : Option String :=
  env.ParseValidationErrors
    [("PolicyID", validation.Validate v.PolicyID [validation.Required]),
     ("ContractID", validation.Validate v.ContractID [validation.Required]),
     ("PolicySetID", validation.Validate v.PolicySetID [validation.Required]),
     ("Network", validation.Validate v.Network [validation.Required,
        validation.In [PolicyNetworkStaging, PolicyNetworkProduction] networkMessage]),
     ("Policy", validatePolicyInput v.PolicyInput)]

/-! ## Policy outputs (policy.go:234-280) -/

/-- A Go `map[string]interface{}` holding decoded JSON: a missing key is
`none`; the nil map has no key. -/
abbrev Object := String → Option JSON

/-- The map a JSON object decodes to: every key carries its last member. -/
def objectOf (members : List (String × JSON)) : Object :=
  fun k => (members.reverse.find? (fun m => decide (m.1 = k))).map Prod.snd

/-- One element of a `[]map[string]interface{}` being decoded: an object gives
its map, `null` the nil map, anything else a type error. -/
def unmarshalObject : JSON → Except String Object
  | .object members => .ok (objectOf members)
  | .null => .ok (fun _ => none)
  | _ => .error "json: cannot unmarshal value into Go value of type map[string]interface {}"

/-- The elements of a JSON array decoded in order, failing on the first
element that is not an object or `null`. -/
def unmarshalObjectList : List JSON → Except String (List Object)
  | [] => .ok []
  | item :: items =>
    match unmarshalObject item with
    | .error err => .error err
    | .ok o =>
      match unmarshalObjectList items with
      | .error err => .error err
      | .ok os => .ok (o :: os)

/-- The call `json.Unmarshal(in, &data)` with `data` a `[]map[string]interface{}`:
text that is not JSON is rejected, `null` sets the slice to nil, an array is
decoded element by element, any other value is a type error. -/
def unmarshalObjects (input : Bytes) : Except String (List Object) :=
  match input with
  | .malformed _ => .error "invalid character looking for beginning of value"
  | .json .null => .ok []
  | .json (.array items) => unmarshalObjectList items
  | .json _ =>
    .error "json: cannot unmarshal value into Go value of type []map[string]interface {}"

/-- Interface `PolicyOutput`: a `*PolicyOutputImage` or a `*PolicyOutputVideo`.
The two struct types are declared in policy.gen.go, missing from src, and are
the parameters `I` and `V`. -/
inductive PolicyOutput (I V : Type) where
  | Image (p : I)
  | Video (p : V)

/-- Methods `policyOutputType` (policy.go:188-194). -/
def PolicyOutput.policyOutputType {I V : Type} : PolicyOutput I V → String
  | .Image _ => "Image"
  | .Video _ => "Video"

/-- The library calls of `unmarshallPolicyOutput` on the types missing from
src: the zero values `PolicyOutputImage{}` and `PolicyOutputVideo{}`,
`json.Marshal` of the map, and `json.Unmarshal` into each struct (returning the
possibly modified target with the error). -/
structure OutputCodec (I V : Type) where
  zeroImage : I
  zeroVideo : V
  Marshal : Object → Except String Bytes
  UnmarshalImage : Bytes → I → I × Option String
  UnmarshalVideo : Bytes → V → V × Option String

/-- Variable `policyOutputHandlers` (policy.go:234-237): a map from the two
booleans to constructors of fresh zero values. -/
def policyOutputHandlers {I V : Type} (codec : OutputCodec I V) :
    Bool → Option (Unit → PolicyOutput I V)
  | false => some (fun _ => .Image codec.zeroImage)
  | true => some (fun _ => .Video codec.zeroVideo)

/-- The call `json.Unmarshal(bytes, ipt)` on the dynamic type of `ipt`. -/
def unmarshalInto {I V : Type} (codec : OutputCodec I V) (bytes : Bytes) :
    PolicyOutput I V → PolicyOutput I V × Option String
  | .Image p => (.Image (codec.UnmarshalImage bytes p).1, (codec.UnmarshalImage bytes p).2)
  | .Video p => (.Video (codec.UnmarshalVideo bytes p).1, (codec.UnmarshalVideo bytes p).2)

/-- The `return` statements of `unmarshallPolicyOutput`. -/
inductive OutputSite where
  | missingVideo
  | videoNotBool
  | marshalFailed
  | unsupportedType
  | unmarshalFailed
  | done
deriving DecidableEq, Repr

/-- What `unmarshallPolicyOutput` returns, a policy output with a nil error or
a nil policy output with an error, and from which `return`. -/
structure OutputResult (I V : Type) where
  res : Except Error (PolicyOutput I V)
  site : OutputSite

/-- The policy output returned, `none` for nil. -/
def OutputResult.out {I V : Type} (r : OutputResult I V) : Option (PolicyOutput I V) :=
  match r.res with
  | .ok p => some p
  | .error _ => none

/-- The error returned, `none` for nil. -/
def OutputResult.err {I V : Type} (r : OutputResult I V) : Option Error :=
  match r.res with
  | .ok _ => none
  | .error e => some e

/-- Function `unmarshallPolicyOutput` (policy.go:255-280). -/
def unmarshallPolicyOutput {I V : Type} (codec : OutputCodec I V) (policyOutput : Object) :
    OutputResult I V :=
  match policyOutput "video" with
  | none =>
    ⟨.error (.wrap ErrUnmarshalPolicyOutputList
      "policyOutput should contain 'video' field"), .missingVideo⟩
  | some video =>
    match video with
    | .bool isVideo =>
      match codec.Marshal policyOutput with
      | .error err =>
        ⟨.error (.wrap ErrUnmarshalPolicyOutputList err), .marshalFailed⟩
      | .ok bytes =>
        match policyOutputHandlers codec isVideo with
        | none =>
          ⟨.error (.wrap ErrUnmarshalPolicyOutputList
            ("unsupported policyOutput type: " ++ toString isVideo)), .unsupportedType⟩
        | some indicatedPolicyOutputType =>
          let ipt := indicatedPolicyOutputType ()
          match unmarshalInto codec bytes ipt with
          | (_, some err) =>
            ⟨.error (.wrap ErrUnmarshalPolicyOutputList err), .unmarshalFailed⟩
          | (ipt, none) => ⟨.ok ipt, .done⟩
    | _ =>
      ⟨.error (.wrap ErrUnmarshalPolicyOutputList
        "'video' field on policyOutput entry should be a boolean"), .videoNotBool⟩

/-- The loop of `PolicyOutputs.UnmarshalJSON` (policy.go:245-251): the final
`*po` and the error returned, if any. -/
def appendOutputs {I V : Type} (codec : OutputCodec I V) (po : List (PolicyOutput I V)) :
    List Object → List (PolicyOutput I V) × Option Error
  | [] => (po, none)
  | policyOutput :: rest =>
    match (unmarshallPolicyOutput codec policyOutput).res with
    | .error err => (po, some err)
    | .ok p => appendOutputs codec (po ++ [p]) rest

/-- Method `PolicyOutputs.UnmarshalJSON` (policy.go:240-253): the final `*po`
and the error returned, if any. -/
def PolicyOutputs.UnmarshalJSON {I V : Type} (codec : OutputCodec I V)
    (po : List (PolicyOutput I V)) (input : Bytes) : List (PolicyOutput I V) × Option Error :=
  match unmarshalObjects input with
  | .error err => (po, some (.wrap ErrUnmarshalPolicyOutputList err))
  | .ok data => appendOutputs codec po data

/-- The policy output the `video` flag selects, decoded from the bytes. -/
def selectedOutput {I V : Type} (codec : OutputCodec I V) (isVideo : Bool) (bytes : Bytes) :
    PolicyOutput I V :=
  if isVideo then .Video (codec.UnmarshalVideo bytes codec.zeroVideo).1
  else .Image (codec.UnmarshalImage bytes codec.zeroImage).1

/-- Whether the bytes decode into the struct the `video` flag selects. -/
def decodes {I V : Type} (codec : OutputCodec I V) (isVideo : Bool) (bytes : Bytes) : Prop :=
  if isVideo then (codec.UnmarshalVideo bytes codec.zeroVideo).2 = none
  else (codec.UnmarshalImage bytes codec.zeroImage).2 = none

/-! ## The policy operations (policy.go:355-544)

Each operation is generic in the type `β` of its `result` variable, whose zero
value is passed as `zero`; `Exec` is the session's.  `Exec` never returns a nil
response with a nil error; the branch that would dereference such a response
is kept and reports a runtime error. -/

/-- Method `ListPolicies` (policy.go:355-384). -/
def ListPolicies {α β : Type} (env : Env) (lib : Lib α β) (s : Session) (zero : β)
    (params : ListPoliciesRequest) : OpResult β :=
  match ListPoliciesRequest.Validate env params with
  | some err =>
    ⟨none, some (.wrap ErrStructValidation ("list policies: " ++ ":\n" ++ err)), [], []⟩
  | none =>
    let uri := "/imaging/v2/network/" ++ params.Network ++ "/policies/"
    match env.NewRequestWithContext "GET" uri with
    | .error err =>
      ⟨none, some (.wrap ErrListPolicies ("failed to create request: " ++ err)),
        [("GET", uri)], []⟩
    | .ok req =>
      let req := { req with Header := Header.Set req.Header "Contract" params.ContractID }
      let req := { req with Header := Header.Set req.Header "Policy-Set" params.PolicySetID }
      let res := Exec lib s req (some zero) []
      match res.err, res.resp with
      | some err, _ =>
        ⟨none, some (.wrap ErrListPolicies ("request failed: " ++ Error.text err)),
          [("GET", uri)], res.events⟩
      | none, none => ⟨none, some (.external "nil pointer dereference"), [("GET", uri)], res.events⟩
      | none, some resp =>
        if resp.StatusCode ≠ 200 then
          ⟨none, some (.wrap (env.Error resp) "list policies: "), [("GET", uri)], res.events⟩
        else ⟨some (res.out.getD zero), none, [("GET", uri)], res.events⟩

/-- Method `GetPolicy` (policy.go:386-420); `result` is a `map[string]interface{}`. -/
def GetPolicy {α I V : Type} (env : Env) (codec : OutputCodec I V) (lib : Lib α Object)
    (s : Session) (params : policyRequest) : OpResult (PolicyOutput I V) :=
  match GetPolicyRequest.Validate env params with
  | some err =>
    ⟨none, some (.wrap ErrStructValidation ("get policy: " ++ ":\n" ++ err)), [], []⟩
  | none =>
    let uri := "/imaging/v2/network/" ++ params.Network ++ "/policies/" ++ params.PolicyID
    match env.NewRequestWithContext "GET" uri with
    | .error err =>
      ⟨none, some (.wrap ErrGetPolicy ("failed to create request: " ++ err)),
        [("GET", uri)], []⟩
    | .ok req =>
      let req := { req with Header := Header.Set req.Header "Contract" params.ContractID }
      let req := { req with Header := Header.Set req.Header "Policy-Set" params.PolicySetID }
      let res := Exec lib s req (some (fun _ => none)) []
      match res.err, res.resp with
      | some err, _ =>
        ⟨none, some (.wrap ErrGetPolicy ("request failed: " ++ Error.text err)),
          [("GET", uri)], res.events⟩
      | none, none => ⟨none, some (.external "nil pointer dereference"), [("GET", uri)], res.events⟩
      | none, some resp =>
        if resp.StatusCode ≠ 200 then
          ⟨none, some (.wrap (env.Error resp) "get policy: "), [("GET", uri)], res.events⟩
        else
          match (unmarshallPolicyOutput codec (res.out.getD (fun _ => none))).res with
          | .error err => ⟨none, some err, [("GET", uri)], res.events⟩
          | .ok policyOutput => ⟨some policyOutput, none, [("GET", uri)], res.events⟩

/-- Method `UpsertPolicy` (policy.go:422-451); the `in` value is the policy. -/
def UpsertPolicy {β : Type} (env : Env) (lib : Lib (Option PolicyInput) β) (s : Session)
    (zero : β) (params : UpsertPolicyRequest) : OpResult β :=
  match UpsertPolicyRequest.Validate env params with
  | some err =>
    ⟨none, some (.wrap ErrStructValidation ("upsert policy: " ++ ":\n" ++ err)), [], []⟩
  | none =>
    let uri := "/imaging/v2/network/" ++ params.Network ++ "/policies/" ++ params.PolicyID
    match env.NewRequestWithContext "PUT" uri with
    | .error err =>
      ⟨none, some (.wrap ErrUpsertPolicy ("failed to create request: " ++ err)),
        [("PUT", uri)], []⟩
    | .ok req =>
      let req := { req with Header := Header.Set req.Header "Contract" params.ContractID }
      let req := { req with Header := Header.Set req.Header "Policy-Set" params.PolicySetID }
      let res := Exec lib s req (some zero) [params.PolicyInput]
      match res.err, res.resp with
      | some err, _ =>
        ⟨none, some (.wrap ErrUpsertPolicy ("request failed: " ++ Error.text err)),
          [("PUT", uri)], res.events⟩
      | none, none => ⟨none, some (.external "nil pointer dereference"), [("PUT", uri)], res.events⟩
      | none, some resp =>
        if resp.StatusCode ≠ 200 ∧ resp.StatusCode ≠ 201 then
          ⟨none, some (.wrap (env.Error resp) "upsert policy: "), [("PUT", uri)], res.events⟩
        else ⟨some (res.out.getD zero), none, [("PUT", uri)], res.events⟩

/-- Method `DeletePolicy` (policy.go:453-482). -/
def DeletePolicy {α β : Type} (env : Env) (lib : Lib α β) (s : Session) (zero : β)
    (params : policyRequest) : OpResult β :=
  match DeletePolicyRequest.Validate env params with
  | some err =>
    ⟨none, some (.wrap ErrStructValidation ("delete policy: " ++ ":\n" ++ err)), [], []⟩
  | none =>
    let uri := "/imaging/v2/network/" ++ params.Network ++ "/policies/" ++ params.PolicyID
    match env.NewRequestWithContext "DELETE" uri with
    | .error err =>
      ⟨none, some (.wrap ErrDeletePolicy ("failed to create request: " ++ err)),
        [("DELETE", uri)], []⟩
    | .ok req =>
      let req := { req with Header := Header.Set req.Header "Contract" params.ContractID }
      let req := { req with Header := Header.Set req.Header "Policy-Set" params.PolicySetID }
      let res := Exec lib s req (some zero) []
      match res.err, res.resp with
      | some err, _ =>
        ⟨none, some (.wrap ErrDeletePolicy ("request failed: " ++ Error.text err)),
          [("DELETE", uri)], res.events⟩
      | none, none =>
        ⟨none, some (.external "nil pointer dereference"), [("DELETE", uri)], res.events⟩
      | none, some resp =>
        if resp.StatusCode ≠ 200 then
          ⟨none, some (.wrap (env.Error resp) "delete policy: "), [("DELETE", uri)], res.events⟩
        else ⟨some (res.out.getD zero), none, [("DELETE", uri)], res.events⟩

/-- Method `GetPolicyHistory` (policy.go:484-513). -/
def GetPolicyHistory {α β : Type} (env : Env) (lib : Lib α β) (s : Session) (zero : β)
    (params : policyRequest) : OpResult β :=
  match GetPolicyHistoryRequest.Validate env params with
  | some err =>
    ⟨none, some (.wrap ErrStructValidation ("get policy history: " ++ ":\n" ++ err)), [], []⟩
  | none =>
    let uri := "/imaging/v2/network/" ++ params.Network ++ "/policies/history/" ++ params.PolicyID
    match env.NewRequestWithContext "GET" uri with
    | .error err =>
      ⟨none, some (.wrap ErrGetPolicyHistory ("failed to create request: " ++ err)),
        [("GET", uri)], []⟩
    | .ok req =>
      let req := { req with Header := Header.Set req.Header "Contract" params.ContractID }
      let req := { req with Header := Header.Set req.Header "Policy-Set" params.PolicySetID }
      let res := Exec lib s req (some zero) []
      match res.err, res.resp with
      | some err, _ =>
        ⟨none, some (.wrap ErrGetPolicyHistory ("request failed: " ++ Error.text err)),
          [("GET", uri)], res.events⟩
      | none, none => ⟨none, some (.external "nil pointer dereference"), [("GET", uri)], res.events⟩
      | none, some resp =>
        if resp.StatusCode ≠ 200 then
          ⟨none, some (.wrap (env.Error resp) "get policy history: "), [("GET", uri)],
            res.events⟩
        else ⟨some (res.out.getD zero), none, [("GET", uri)], res.events⟩

/-- Method `RollbackPolicy` (policy.go:515-544). -/
def RollbackPolicy {α β : Type} (env : Env) (lib : Lib α β) (s : Session) (zero : β)
    (params : policyRequest) : OpResult β :=
  match RollbackPolicyRequest.Validate env params with
  | some err =>
    ⟨none, some (.wrap ErrStructValidation ("rollback policy: " ++ ":\n" ++ err)), [], []⟩
  | none =>
    let uri := "/imaging/v2/network/" ++ params.Network ++ "/policies/rollback/" ++ params.PolicyID
    match env.NewRequestWithContext "PUT" uri with
    | .error err =>
      ⟨none, some (.wrap ErrRollbackPolicy ("failed to create request: " ++ err)),
        [("PUT", uri)], []⟩
    | .ok req =>
      let req := { req with Header := Header.Set req.Header "Contract" params.ContractID }
      let req := { req with Header := Header.Set req.Header "Policy-Set" params.PolicySetID }
      let res := Exec lib s req (some zero) []
      match res.err, res.resp with
      | some err, _ =>
        ⟨none, some (.wrap ErrRollbackPolicy ("request failed: " ++ Error.text err)),
          [("PUT", uri)], res.events⟩
      | none, none => ⟨none, some (.external "nil pointer dereference"), [("PUT", uri)], res.events⟩
      | none, some resp =>
        if resp.StatusCode ≠ 200 then
          ⟨none, some (.wrap (env.Error resp) "rollback policy: "), [("PUT", uri)], res.events⟩
        else ⟨some (res.out.getD zero), none, [("PUT", uri)], res.events⟩

/-! ## Concrete collaborators used to exercise the definitions -/

/-- An instance of `ParseValidationErrors`: the failed fields, rendered. -/
def joinErrors (es : validation.Errors) : Option String :=
  (validation.Filter es).map validation.render

/-- An environment whose request constructor always succeeds and whose `Error`
decodes the response as `NewAPIError` does. -/
def plainEnv : Env where
  ParseValidationErrors := joinErrors
  NewRequestWithContext := fun method uri =>
    .ok ⟨method, ⟨"", "", uri⟩, fun _ => none, none, none⟩
  Error := fun resp => .api 0 (NewAPIError resp).1

/-- The JSON codec on `map[string]interface{}`: `out` points to a map. -/
def objectLib : Lib Unit Object where
  Marshal := fun _ => .ok (.json .null)
  Unmarshal := fun data o =>
    match data with
    | .json (.object members) => (objectOf members, none)
    | .json .null => (fun _ => none, none)
    | .json _ =>
      (o, some "json: cannot unmarshal value into Go value of type map[string]interface {}")
    | .malformed _ => (o, some "invalid character looking for beginning of value")
  DumpRequestOut := fun _ => .ok "request dump"
  DumpResponse := fun _ => .ok "response dump"
  Reread := fun b => ⟨.malformed "", b.readErr⟩

/-- A codec for policy outputs that are structs with the single string field
`id`, on maps with the keys `id` and `video`. -/
def idCodec : OutputCodec String String where
  zeroImage := ""
  zeroVideo := ""
  Marshal := fun o =>
    .ok (.json (.object (["id", "video"].filterMap (fun k => (o k).map (fun v => (k, v))))))
  UnmarshalImage := fun bytes p =>
    match bytes with
    | .json (.object members) =>
      match objectOf members "id" with
      | some (.string v) => (v, none)
      | some .null => (p, none)
      | none => (p, none)
      | some _ =>
        (p, some "json: cannot unmarshal value into Go struct field PolicyOutputImage.id")
    | _ => (p, some "json: cannot unmarshal value into Go value of type PolicyOutputImage")
  UnmarshalVideo := fun bytes p =>
    match bytes with
    | .json (.object members) =>
      match objectOf members "id" with
      | some (.string v) => (v, none)
      | some .null => (p, none)
      | none => (p, none)
      | some _ =>
        (p, some "json: cannot unmarshal value into Go struct field PolicyOutputVideo.id")
    | _ => (p, some "json: cannot unmarshal value into Go value of type PolicyOutputVideo")

end imaging

/-! # Application security operations (`pkg/appsec`) -/

namespace appsec

open session

/-- Modelled from the spec: the declaration of the package variable
`ErrStructValidation` of `appsec` is missing from src (the one of `cps` is at
cps.go:11); it is a sentinel of its own. -/
def ErrStructValidation : Error := .sentinel "appsec.ErrStructValidation"

/-- Modelled from the spec: `GetAttackGroupRequest` is declared in
attack_group.go, missing from src; these are the fields `GetEvalGroup` reads. -/
structure GetAttackGroupRequest where
  ConfigID : Int
  Version : Int
  PolicyID : String
  Group : String
deriving DecidableEq, Repr

/-- Modelled from the spec: `GetAttackGroupsRequest` is declared in
attack_group.go, missing from src; these are the fields `GetEvalGroups` reads. -/
structure GetAttackGroupsRequest where
  ConfigID : Int
  Version : Int
  PolicyID : String
  Group : String
deriving DecidableEq, Repr

/-- Modelled from the spec: `UpdateAttackGroupRequest` is declared in
attack_group.go, missing from src; these are the fields `UpdateEvalGroup`
reads. -/
structure UpdateAttackGroupRequest where
  ConfigID : Int
  Version : Int
  PolicyID : String
  Group : String
deriving DecidableEq, Repr

/-- Modelled from the spec: the element type of `GetAttackGroupsResponse.AttackGroups`
is declared in attack_group.go, missing from src; `Group` is the field
`GetEvalGroups` reads, `rest` stands for the other fields. -/
structure AttackGroupAction (ρ : Type) where
  Group : String
  rest : ρ

/-- Modelled from the spec: `GetAttackGroupsResponse` is declared in
attack_group.go, missing from src; `AttackGroups` is the field `GetEvalGroups`
reads and writes. -/
structure GetAttackGroupsResponse (ρ : Type) where
  AttackGroups : List (AttackGroupAction ρ)

/-- Struct `GetEvalRulesRequest` (eval_rule.go:29-34). -/
structure GetEvalRulesRequest where
  ConfigID : Int
  Version : Int
  PolicyID : String
  RuleID : Int
deriving DecidableEq, Repr

/-- Element type of `GetEvalRulesResponse.Rules` (eval_rule.go:38-42);
`RuleConditionException` is declared outside src and is the parameter `ρ`. -/
structure EvalRuleAction (ρ : Type) where
  ID : Int
  Action : String
  ConditionException : Option ρ

/-- Struct `GetEvalRulesResponse` (eval_rule.go:37-43). -/
structure GetEvalRulesResponse (ρ : Type) where
  Rules : List (EvalRuleAction ρ)

/-- Struct `GetEvalRuleRequest` (eval_rule.go:46-51). -/
structure GetEvalRuleRequest where
  ConfigID : Int
  Version : Int
  PolicyID : String
  RuleID : Int
deriving DecidableEq, Repr

/-- Struct `UpdateEvalRuleRequest` (eval_rule.go:60-67). -/
structure UpdateEvalRuleRequest where
  ConfigID : Int
  Version : Int
  PolicyID : String
  RuleID : Int
  Action : String
  JsonPayloadRaw : String
deriving DecidableEq, Repr

/-- Struct `GetIPGeoProtectionRequest` (ip_geo_protection.go:28-33). -/
structure GetIPGeoProtectionRequest where
  ConfigID : Int
  Version : Int
  PolicyID : String
  ApplyApplicationLayerControls : Bool
deriving DecidableEq, Repr

/-- Struct `GetIPGeoProtectionsRequest` (ip_geo_protection.go:39-44). -/
structure GetIPGeoProtectionsRequest where
  ConfigID : Int
  Version : Int
  PolicyID : String
  ApplyNetworkLayerControls : Bool
deriving DecidableEq, Repr

/-- Struct `UpdateIPGeoProtectionRequest` (ip_geo_protection.go:50-55). -/
structure UpdateIPGeoProtectionRequest where
  ConfigID : Int
  Version : Int
  PolicyID : String
  ApplyNetworkLayerControls : Bool
deriving DecidableEq, Repr

/-- Struct `GetApiHostnameCoverageRequest` (api_hostname_coverage.go:25-29). -/
structure GetApiHostnameCoverageRequest where
  ConfigID : Int
  Version : Int
  Hostname : String
deriving DecidableEq, Repr

/-- What the operations take from outside the files in src: the `Validate`
methods of the attack-group requests (attack_group.go is missing from src;
each returns the text of its error or nil), `http.NewRequestWithContext(ctx,
method, uri, nil)` for the caller's context, and the client's `Error(resp)`
(errors.go of the package is missing from src). -/
structure Env where
  ValidateGetAttackGroup : GetAttackGroupRequest → Option String
  ValidateGetAttackGroups : GetAttackGroupsRequest → Option String
  ValidateUpdateAttackGroup : UpdateAttackGroupRequest → Option String
  NewRequestWithContext : String → String → Except String Request
  Error : Response → session.Error

/-- Method `GetEvalRuleRequest.Validate` (eval_rule.go:82-89). -/
def GetEvalRuleRequest.Validate (v : GetEvalRuleRequest) : Option (List (String × String)) :=
  validation.Filter
    [("ConfigID", validation.Validate v.ConfigID [validation.RequiredInt]),
     ("Version", validation.Validate v.Version [validation.RequiredInt]),
     ("PolicyID", validation.Validate v.PolicyID [validation.Required]),
     ("RuleID", validation.Validate v.RuleID [validation.RequiredInt])]

/-- Method `GetEvalRulesRequest.Validate` (eval_rule.go:92-98). -/
def GetEvalRulesRequest.Validate (v : GetEvalRulesRequest) : Option (List (String × String)) :=
  validation.Filter
    [("ConfigID", validation.Validate v.ConfigID [validation.RequiredInt]),
     ("Version", validation.Validate v.Version [validation.RequiredInt]),
     ("PolicyID", validation.Validate v.PolicyID [validation.Required])]

/-- Method `UpdateEvalRuleRequest.Validate` (eval_rule.go:101-108). -/
def UpdateEvalRuleRequest.Validate (v : UpdateEvalRuleRequest) :
    Option (List (String × String)) :=
  validation.Filter
    [("ConfigID", validation.Validate v.ConfigID [validation.RequiredInt]),
     ("Version", validation.Validate v.Version [validation.RequiredInt]),
     ("PolicyID", validation.Validate v.PolicyID [validation.Required]),
     ("RuleID", validation.Validate v.RuleID [validation.RequiredInt])]

/-- Method `GetIPGeoProtectionRequest.Validate` (ip_geo_protection.go:62-68). -/
def GetIPGeoProtectionRequest.Validate (v : GetIPGeoProtectionRequest) :
    Option (List (String × String)) :=
  validation.Filter
    [("ConfigID", validation.Validate v.ConfigID [validation.RequiredInt]),
     ("Version", validation.Validate v.Version [validation.RequiredInt]),
     ("PolicyID", validation.Validate v.PolicyID [validation.Required])]

/-- Method `GetIPGeoProtectionsRequest.Validate` (ip_geo_protection.go:71-77). -/
def GetIPGeoProtectionsRequest.Validate (v : GetIPGeoProtectionsRequest) :
    Option (List (String × String)) :=
  validation.Filter
    [("ConfigID", validation.Validate v.ConfigID [validation.RequiredInt]),
     ("Version", validation.Validate v.Version [validation.RequiredInt]),
     ("PolicyID", validation.Validate v.PolicyID [validation.Required])]

/-- Method `UpdateIPGeoProtectionRequest.Validate` (ip_geo_protection.go:80-86). -/
def UpdateIPGeoProtectionRequest.Validate (v : UpdateIPGeoProtectionRequest) :
    Option (List (String × String)) :=
  validation.Filter
    [("ConfigID", validation.Validate v.ConfigID [validation.RequiredInt]),
     ("Version", validation.Validate v.Version [validation.RequiredInt]),
     ("PolicyID", validation.Validate v.PolicyID [validation.Required])]

/-- The loop of `GetEvalGroups` (eval_group.go:89-93): the matching attack
groups appended one by one to the empty slice. -/
def filterGroups {ρ : Type} (group : String) (attackGroups : List (AttackGroupAction ρ)) :
    List (AttackGroupAction ρ) :=
  attackGroups.foldl (fun acc val => if val.Group = group then acc ++ [val] else acc) []

/-- The loop of `GetEvalRules` (eval_rule.go:177-181): the matching rules
appended one by one to the empty slice. -/
def filterRules {ρ : Type} (ruleID : Int) (rules : List (EvalRuleAction ρ)) :
    List (EvalRuleAction ρ) :=
  rules.foldl (fun acc val => if val.ID = ruleID then acc ++ [val] else acc) []

/-! ## The operations

Each operation is generic in the type `β` of its `result` variable, whose zero
value is passed as `zero`, unless it reads fields of the result.  `Exec` never
returns a nil response with a nil error; the branch that would dereference
such a response is kept and reports a runtime error. -/

/-- Method `GetEvalGroup` (eval_group.go:23-56). -/
def GetEvalGroup {α β : Type} (env : Env) (lib : Lib α β) (s : Session) (zero : β)
    (params : GetAttackGroupRequest) : OpResult β :=
  match env.ValidateGetAttackGroup params with
  | some err => ⟨none, some (.wrap ErrStructValidation err), [], []⟩
  | none =>
    let uri := "/appsec/v1/configs/" ++ toString params.ConfigID ++ "/versions/" ++
      toString params.Version ++ "/security-policies/" ++ params.PolicyID ++
      "/eval-groups/" ++ params.Group ++ "?includeConditionException=true"
    match env.NewRequestWithContext "GET" uri with
    | .error err =>
      ⟨none, some (.wrap (.external err) "failed to create GetEvalGroup request: "),
        [("GET", uri)], []⟩
    | .ok req =>
      let res := Exec lib s req (some zero) []
      match res.err, res.resp with
      | some err, _ =>
        ⟨none, some (.wrap err "GetEvalGroup request failed: "), [("GET", uri)], res.events⟩
      | none, none =>
        ⟨none, some (.external "nil pointer dereference"), [("GET", uri)], res.events⟩
      | none, some resp =>
        if resp.StatusCode ≠ 200 then
          ⟨none, some (env.Error resp), [("GET", uri)], res.events⟩
        else ⟨some (res.out.getD zero), none, [("GET", uri)], res.events⟩

/-- Method `UpdateEvalGroup` (eval_group.go:102-134). -/
def UpdateEvalGroup {β : Type} (env : Env) (lib : Lib UpdateAttackGroupRequest β) (s : Session) (zero : β)
    (params : UpdateAttackGroupRequest) : OpResult β :=
  match env.ValidateUpdateAttackGroup params with
  | some err => ⟨none, some (.wrap ErrStructValidation err), [], []⟩
  | none =>
    let uri := "/appsec/v1/configs/" ++ toString params.ConfigID ++ "/versions/" ++
      toString params.Version ++ "/security-policies/" ++ params.PolicyID ++
      "/eval-groups/" ++ params.Group ++ "/action-condition-exception"
    match env.NewRequestWithContext "PUT" uri with
    | .error err =>
      ⟨none, some (.wrap (.external err) "failed to create UpdateEvalGroup request: "),
        [("PUT", uri)], []⟩
    | .ok req =>
      let res := Exec lib s req (some zero) [params]
      match res.err, res.resp with
      | some err, _ =>
        ⟨none, some (.wrap err "UpdateEvalGroup request failed: "), [("PUT", uri)], res.events⟩
      | none, none =>
        ⟨none, some (.external "nil pointer dereference"), [("PUT", uri)], res.events⟩
      | none, some resp =>
        if resp.StatusCode ≠ 200 ∧ resp.StatusCode ≠ 201 then
          ⟨none, some (env.Error resp), [("PUT", uri)], res.events⟩
        else ⟨some (res.out.getD zero), none, [("PUT", uri)], res.events⟩

/-- Method `GetEvalRule` (eval_rule.go:110-143). -/
def GetEvalRule {α β : Type} (env : Env) (lib : Lib α β) (s : Session) (zero : β)
    (params : GetEvalRuleRequest) : OpResult β :=
  match (GetEvalRuleRequest.Validate params).map validation.render with
  | some err => ⟨none, some (.wrap ErrStructValidation err), [], []⟩
  | none =>
    let uri := "/appsec/v1/configs/" ++ toString params.ConfigID ++ "/versions/" ++
      toString params.Version ++ "/security-policies/" ++ params.PolicyID ++
      "/eval-rules/" ++ toString params.RuleID ++ "?includeConditionException=true"
    match env.NewRequestWithContext "GET" uri with
    | .error err =>
      ⟨none, some (.wrap (.external err) "failed to create GetEvalRule request: "),
        [("GET", uri)], []⟩
    | .ok req =>
      let res := Exec lib s req (some zero) []
      match res.err, res.resp with
      | some err, _ =>
        ⟨none, some (.wrap err "GetEvalRule request failed: "), [("GET", uri)], res.events⟩
      | none, none =>
        ⟨none, some (.external "nil pointer dereference"), [("GET", uri)], res.events⟩
      | none, some resp =>
        if resp.StatusCode ≠ 200 then
          ⟨none, some (env.Error resp), [("GET", uri)], res.events⟩
        else ⟨some (res.out.getD zero), none, [("GET", uri)], res.events⟩

/-- Method `GetIPGeoProtection` (ip_geo_protection.go:88-120). -/
def GetIPGeoProtection {α β : Type} (env : Env) (lib : Lib α β) (s : Session) (zero : β)
    (params : GetIPGeoProtectionRequest) : OpResult β :=
  match (GetIPGeoProtectionRequest.Validate params).map validation.render with
  | some err => ⟨none, some (.wrap ErrStructValidation err), [], []⟩
  | none =>
    let uri := "/appsec/v1/configs/" ++ toString params.ConfigID ++ "/versions/" ++
      toString params.Version ++ "/security-policies/" ++ params.PolicyID ++ "/protections"
    match env.NewRequestWithContext "GET" uri with
    | .error err =>
      ⟨none, some (.wrap (.external err) "failed to create GetIPGeoProtection request: "),
        [("GET", uri)], []⟩
    | .ok req =>
      let res := Exec lib s req (some zero) []
      match res.err, res.resp with
      | some err, _ =>
        ⟨none, some (.wrap err "GetIPGeoProtection request failed: "), [("GET", uri)], res.events⟩
      | none, none =>
        ⟨none, some (.external "nil pointer dereference"), [("GET", uri)], res.events⟩
      | none, some resp =>
        if resp.StatusCode ≠ 200 then
          ⟨none, some (env.Error resp), [("GET", uri)], res.events⟩
        else ⟨some (res.out.getD zero), none, [("GET", uri)], res.events⟩

/-- Method `GetIPGeoProtections` (ip_geo_protection.go:122-154). -/
def GetIPGeoProtections {α β : Type} (env : Env) (lib : Lib α β) (s : Session) (zero : β)
    (params : GetIPGeoProtectionsRequest) : OpResult β :=
  match (GetIPGeoProtectionsRequest.Validate params).map validation.render with
  | some err => ⟨none, some (.wrap ErrStructValidation err), [], []⟩
  | none =>
    let uri := "/appsec/v1/configs/" ++ toString params.ConfigID ++ "/versions/" ++
      toString params.Version ++ "/security-policies/" ++ params.PolicyID ++ "/protections"
    match env.NewRequestWithContext "GET" uri with
    | .error err =>
      ⟨none, some (.wrap (.external err) "failed to create GetIPGeoProtections request: "),
        [("GET", uri)], []⟩
    | .ok req =>
      let res := Exec lib s req (some zero) []
      match res.err, res.resp with
      | some err, _ =>
        ⟨none, some (.wrap err "GetIPGeoProtections request failed: "), [("GET", uri)], res.events⟩
      | none, none =>
        ⟨none, some (.external "nil pointer dereference"), [("GET", uri)], res.events⟩
      | none, some resp =>
        if resp.StatusCode ≠ 200 then
          ⟨none, some (env.Error resp), [("GET", uri)], res.events⟩
        else ⟨some (res.out.getD zero), none, [("GET", uri)], res.events⟩

/-- Method `UpdateIPGeoProtection` (ip_geo_protection.go:156-187). -/
def UpdateIPGeoProtection {β : Type} (env : Env) (lib : Lib UpdateIPGeoProtectionRequest β) (s : Session) (zero : β)
    (params : UpdateIPGeoProtectionRequest) : OpResult β :=
  match (UpdateIPGeoProtectionRequest.Validate params).map validation.render with
  | some err => ⟨none, some (.wrap ErrStructValidation err), [], []⟩
  | none =>
    let uri := "/appsec/v1/configs/" ++ toString params.ConfigID ++ "/versions/" ++
      toString params.Version ++ "/security-policies/" ++ params.PolicyID ++ "/protections"
    match env.NewRequestWithContext "PUT" uri with
    | .error err =>
      ⟨none, some (.wrap (.external err) "failed to create UpdateIPGeoProtection request: "),
        [("PUT", uri)], []⟩
    | .ok req =>
      let res := Exec lib s req (some zero) [params]
      match res.err, res.resp with
      | some err, _ =>
        ⟨none, some (.wrap err "UpdateIPGeoProtection request failed: "), [("PUT", uri)], res.events⟩
      | none, none =>
        ⟨none, some (.external "nil pointer dereference"), [("PUT", uri)], res.events⟩
      | none, some resp =>
        if resp.StatusCode ≠ 200 ∧ resp.StatusCode ≠ 201 then
          ⟨none, some (env.Error resp), [("PUT", uri)], res.events⟩
        else ⟨some (res.out.getD zero), none, [("PUT", uri)], res.events⟩

/-- Method `UpdateEvalRule` (eval_rule.go:190-223); the content type is set on
the request before `Exec`. -/
def UpdateEvalRule {β : Type} (env : Env) (lib : Lib UpdateEvalRuleRequest β) (s : Session)
    (zero : β) (params : UpdateEvalRuleRequest) : OpResult β :=
  match (UpdateEvalRuleRequest.Validate params).map validation.render with
  | some err => ⟨none, some (.wrap ErrStructValidation err), [], []⟩
  | none =>
    let uri := "/appsec/v1/configs/" ++ toString params.ConfigID ++ "/versions/" ++
      toString params.Version ++ "/security-policies/" ++ params.PolicyID ++
      "/eval-rules/" ++ toString params.RuleID ++ "/action-condition-exception"
    match env.NewRequestWithContext "PUT" uri with
    | .error err =>
      ⟨none, some (.wrap (.external err) "failed to create UpdateEvalRule request: "),
        [("PUT", uri)], []⟩
    | .ok req =>
      let req := { req with Header := Header.Set req.Header "Content-Type" "application/json" }
      let res := Exec lib s req (some zero) [params]
      match res.err, res.resp with
      | some err, _ =>
        ⟨none, some (.wrap err "UpdateEvalRule request failed: "), [("PUT", uri)], res.events⟩
      | none, none =>
        ⟨none, some (.external "nil pointer dereference"), [("PUT", uri)], res.events⟩
      | none, some resp =>
        if resp.StatusCode ≠ 200 ∧ resp.StatusCode ≠ 201 then
          ⟨none, some (env.Error resp), [("PUT", uri)], res.events⟩
        else ⟨some (res.out.getD zero), none, [("PUT", uri)], res.events⟩

/-- Method `GetEvalGroups` (eval_group.go:58-100). -/
def GetEvalGroups {α ρ : Type} (env : Env) (lib : Lib α (GetAttackGroupsResponse ρ))
    (s : Session) (params : GetAttackGroupsRequest) : OpResult (GetAttackGroupsResponse ρ) :=
  match env.ValidateGetAttackGroups params with
  | some err => ⟨none, some (.wrap ErrStructValidation err), [], []⟩
  | none =>
    let uri := "/appsec/v1/configs/" ++ toString params.ConfigID ++ "/versions/" ++
      toString params.Version ++ "/security-policies/" ++ params.PolicyID ++
      "/eval-groups?includeConditionException=true"
    match env.NewRequestWithContext "GET" uri with
    | .error err =>
      ⟨none, some (.wrap (.external err) "failed to create GetEvalGroups request: "),
        [("GET", uri)], []⟩
    | .ok req =>
      let res := Exec lib s req (some ⟨[]⟩) []
      match res.err, res.resp with
      | some err, _ =>
        ⟨none, some (.wrap err "GetEvalGroups request failed: "), [("GET", uri)], res.events⟩
      | none, none =>
        ⟨none, some (.external "nil pointer dereference"), [("GET", uri)], res.events⟩
      | none, some resp =>
        if resp.StatusCode ≠ 200 then
          ⟨none, some (env.Error resp), [("GET", uri)], res.events⟩
        else
          let result : GetAttackGroupsResponse ρ := res.out.getD ⟨[]⟩
          let filteredResult : GetAttackGroupsResponse ρ :=
            if params.Group ≠ "" then ⟨filterGroups params.Group result.AttackGroups⟩
            else result
          ⟨some filteredResult, none, [("GET", uri)], res.events⟩

/-- Method `GetEvalRules` (eval_rule.go:145-188). -/
def GetEvalRules {α ρ : Type} (env : Env) (lib : Lib α (GetEvalRulesResponse ρ))
    (s : Session) (params : GetEvalRulesRequest) : OpResult (GetEvalRulesResponse ρ) :=
  match (GetEvalRulesRequest.Validate params).map validation.render with
  | some err => ⟨none, some (.wrap ErrStructValidation err), [], []⟩
  | none =>
    let uri := "/appsec/v1/configs/" ++ toString params.ConfigID ++ "/versions/" ++
      toString params.Version ++ "/security-policies/" ++ params.PolicyID ++
      "/eval-rules?includeConditionException=true"
    match env.NewRequestWithContext "GET" uri with
    | .error err =>
      ⟨none, some (.wrap (.external err) "failed to create GetEvalRules request: "),
        [("GET", uri)], []⟩
    | .ok req =>
      let res := Exec lib s req (some ⟨[]⟩) []
      match res.err, res.resp with
      | some err, _ =>
        ⟨none, some (.wrap err "GetEvalRules request failed: "), [("GET", uri)], res.events⟩
      | none, none =>
        ⟨none, some (.external "nil pointer dereference"), [("GET", uri)], res.events⟩
      | none, some resp =>
        if resp.StatusCode ≠ 200 then
          ⟨none, some (env.Error resp), [("GET", uri)], res.events⟩
        else
          let result : GetEvalRulesResponse ρ := res.out.getD ⟨[]⟩
          let filteredResult : GetEvalRulesResponse ρ :=
            if params.RuleID ≠ 0 then ⟨filterRules params.RuleID result.Rules⟩
            else result
          ⟨some filteredResult, none, [("GET", uri)], res.events⟩

/-- Method `GetApiHostnameCoverage` (api_hostname_coverage.go:55-84); the
validation of its parameters is commented out in the source. -/
def GetApiHostnameCoverage {α β : Type} (env : Env) (lib : Lib α β) (s : Session) (zero : β)
    (_params : GetApiHostnameCoverageRequest) : OpResult β :=
  let uri := "/appsec/v1/hostname-coverage"
  match env.NewRequestWithContext "GET" uri with
  | .error err =>
    ⟨none, some (.wrap (.external err) "failed to create getapihostnamecoverage request: "),
      [("GET", uri)], []⟩
  | .ok req =>
    let res := Exec lib s req (some zero) []
    match res.err, res.resp with
    | some err, _ =>
      ⟨none, some (.wrap err "getapihostnamecoverage  request failed: "), [("GET", uri)],
        res.events⟩
    | none, none =>
      ⟨none, some (.external "nil pointer dereference"), [("GET", uri)], res.events⟩
    | none, some resp =>
      if resp.StatusCode ≠ 200 then
        ⟨none, some (env.Error resp), [("GET", uri)], res.events⟩
      else ⟨some (res.out.getD zero), none, [("GET", uri)], res.events⟩

/-! ## Concrete collaborators used to exercise the definitions -/

/-- An environment whose attack-group requests need a policy id, whose request
constructor always succeeds and whose `Error` decodes the response as
`NewAPIError` does. -/
def plainEnv : Env where
  ValidateGetAttackGroup := fun v => validation.Required v.PolicyID
  ValidateGetAttackGroups := fun v => validation.Required v.PolicyID
  ValidateUpdateAttackGroup := fun v => validation.Required v.PolicyID
  NewRequestWithContext := fun method uri =>
    .ok ⟨method, ⟨"", "", uri⟩, fun _ => none, none, none⟩
  Error := fun resp => .api 0 (NewAPIError resp).1

/-- A codec for `GetAttackGroupsResponse` over payload-free attack groups: the
body is a JSON array of group names. -/
def groupsLib : Lib Unit (GetAttackGroupsResponse Unit) where
  Marshal := fun _ => .ok (.json .null)
  Unmarshal := fun data o =>
    match data with
    | .json (.array items) =>
      (⟨items.filterMap (fun item =>
        match item with
        | .string g => some ⟨g, ()⟩
        | _ => none)⟩, none)
    | _ => (o, some "json: cannot unmarshal value into Go value of type GetAttackGroupsResponse")
  DumpRequestOut := fun _ => .ok "request dump"
  DumpResponse := fun _ => .ok "response dump"
  Reread := fun b => ⟨.malformed "", b.readErr⟩

/-- A codec whose `result` is a Go `int` and whose `in` value, of any type, is
encoded as an empty JSON object. -/
def paramsLib {α : Type} : Lib α Int where
  Marshal := fun _ => .ok (.json (.object []))
  Unmarshal := intLib.Unmarshal
  DumpRequestOut := intLib.DumpRequestOut
  DumpResponse := intLib.DumpResponse
  Reread := intLib.Reread

/-- A codec for `GetEvalRulesResponse` over rules without condition exception:
the body is a JSON array of rule ids, each rule carrying the action `alert`. -/
def rulesLib : Lib Unit (GetEvalRulesResponse Unit) where
  Marshal := fun _ => .ok (.json .null)
  Unmarshal := fun data o =>
    match data with
    | .json (.array items) =>
      (⟨items.filterMap (fun item =>
        match item with
        | .number n => some ⟨n, "alert", none⟩
        | _ => none)⟩, none)
    | _ => (o, some "json: cannot unmarshal value into Go value of type GetEvalRulesResponse")
  DumpRequestOut := fun _ => .ok "request dump"
  DumpResponse := fun _ => .ok "response dump"
  Reread := fun b => ⟨.malformed "", b.readErr⟩

end appsec

namespace session

/-! ## Structure of `Exec` -/

theorem sentRequests_append (a b : List Event) :
    sentRequests (a ++ b) = sentRequests a ++ sentRequests b := by
  induction a with
  | nil => rfl
  | cons e a ih => cases e <;> simp [sentRequests, ih]

theorem signedRequests_append (a b : List Event) :
    signedRequests (a ++ b) = signedRequests a ++ signedRequests b := by
  induction a with
  | nil => rfl
  | cons e a ih => cases e <;> simp [signedRequests, ih]

theorem bodiesRead_append (a b : List Event) :
    bodiesRead (a ++ b) = bodiesRead a ++ bodiesRead b := by
  induction a with
  | nil => rfl
  | cons e a ih => cases e <;> simp [bodiesRead, ih]

theorem decoded_append (a b : List Event) :
    decoded (a ++ b) = decoded a ++ decoded b := by
  induction a with
  | nil => rfl
  | cons e a ih => cases e <;> simp [decoded, ih]

/-- The header, scheme and host statements of `Exec` compute `prepared`. -/
theorem Exec_prepare_eq (s : Session) (r : Request) :
    (let r :=
      match r.options with
      | some o =>
        { r with Header := fun k => match o.header k with
                                    | some v => some v
                                    | none => r.Header k }
      | none => r
    let r :=
      if r.UserAgent = "" then { r with Header := Header.Set r.Header "User-Agent" s.userAgent }
      else r
    let r :=
      if Header.Get r.Header "Content-Type" = "" then
        { r with Header := Header.Set r.Header "Content-Type" "application/json" }
      else r
    let r := if r.URL.Scheme = "" then { r with URL := { r.URL with Scheme := "https" } } else r
    let r := if r.URL.Host = "" then { r with URL := { r.URL with Host := s.config.Host } } else r
    r) = prepared s r := by
  obtain ⟨m, ⟨sc, ho, pa⟩, hd, b, o⟩ := r
  simp only [prepared, applyDefaultURL, applyDefaultHeaders, applyContextHeaders, Request.UserAgent]
  cases o <;> simp only [] <;> split_ifs <;> simp_all

theorem Exec_many {α β : Type} (lib : Lib α β) (s : Session) (r : Request) (out : Option β)
    (ins : List α) (h : 1 < ins.length) :
    Exec lib s r out ins =
      ⟨none, some (.wrap ErrInvalidArgument "'in' argument must have 0 or 1 value"),
        r, out, [], .invalidArgument⟩ := by
  unfold Exec
  rw [if_pos h]

theorem Exec_nil {α β : Type} (lib : Lib α β) (s : Session) (r : Request) (out : Option β) :
    Exec lib s r out [] = send lib s (prepared s r) out := by
  have h := Exec_prepare_eq s r
  unfold Exec
  simp only [List.length_nil, gt_iff_lt, Nat.not_lt_zero, ↓reduceIte] at h ⊢
  rw [h]

theorem Exec_one {α β : Type} (lib : Lib α β) (s : Session) (r : Request) (out : Option β)
    (x : α) :
    Exec lib s r out [x] =
      match lib.Marshal x with
      | .error err => ⟨none, some (.wrap ErrMarshaling err), prepared s r, out, [], .marshalFailed⟩
      | .ok data => send lib s { prepared s r with Body := some data } out := by
  have h := Exec_prepare_eq s r
  unfold Exec
  simp only [List.length_singleton, gt_iff_lt, lt_self_iff_false, ↓reduceIte] at h ⊢
  rw [h]


theorem receive_r {α β : Type} (lib : Lib α β) (r : Request) (resp : Response)
    (out : Option β) (evs : List Event) : (receive lib r resp out evs).r = r := by
  unfold receive
  cases out with
  | none => rfl
  | some o =>
    cases hre : resp.Body.readErr with
    | some e => simp [hre]
    | none =>
      rcases hu : lib.Unmarshal resp.Body.data o with ⟨o2, _ | e⟩ <;> simp [hre, hu]

theorem receive_sent {α β : Type} (lib : Lib α β) (r : Request) (resp : Response)
    (out : Option β) (evs : List Event) :
    sentRequests (receive lib r resp out evs).events = sentRequests evs := by
  unfold receive
  cases out with
  | none => rfl
  | some o =>
    cases hre : resp.Body.readErr with
    | some e => simp [hre, sentRequests_append, sentRequests]
    | none =>
      rcases hu : lib.Unmarshal resp.Body.data o with ⟨o2, _ | e⟩ <;>
        simp [hre, hu, sentRequests_append, sentRequests]

theorem receive_signed {α β : Type} (lib : Lib α β) (r : Request) (resp : Response)
    (out : Option β) (evs : List Event) :
    signedRequests (receive lib r resp out evs).events = signedRequests evs := by
  unfold receive
  cases out with
  | none => rfl
  | some o =>
    cases hre : resp.Body.readErr with
    | some e => simp [hre, signedRequests_append, signedRequests]
    | none =>
      rcases hu : lib.Unmarshal resp.Body.data o with ⟨o2, _ | e⟩ <;>
        simp [hre, hu, signedRequests_append, signedRequests]

theorem sentRequests_traceEvents (t : Bool) (d : Except String String) (msg : String)
    (mk : Event) (h : sentRequests [mk] = []) : sentRequests (traceEvents t d msg mk) = [] := by
  unfold traceEvents
  cases t <;> cases d <;> cases mk <;> simp_all [sentRequests]

theorem signedRequests_traceEvents (t : Bool) (d : Except String String) (msg : String)
    (mk : Event) (h : signedRequests [mk] = []) :
    signedRequests (traceEvents t d msg mk) = [] := by
  unfold traceEvents
  cases t <;> cases d <;> cases mk <;> simp_all [signedRequests]

/-- The request dump leaves the request as it found it. -/
theorem DumpRequestOut_fst {α β : Type} (lib : Lib α β) (r : Request) :
    (DumpRequestOut lib r).1 = r := rfl

/-- The response dump of a body that reads to its end leaves the response as
it found it. -/
theorem DumpResponse_read {α β : Type} (lib : Lib α β) (resp : Response)
    (h : resp.Body.readErr = none) :
    DumpResponse lib resp = (resp, lib.DumpResponse resp) := by
  simp only [DumpResponse, h]

/-- What `send` does once the client has answered: it hands the response, after
the dump when tracing is on, to `receive`. -/
theorem send_ok_eq {α β : Type} (lib : Lib α β) (s : Session) (q : Request)
    (out : Option β) (resp : Response) (hc : s.client (s.config.SignRequest q) = .ok resp) :
    send lib s q out =
      receive lib (s.config.SignRequest q)
        (if s.trace then (DumpResponse lib resp).1 else resp) out
        ([Event.sign q] ++
          traceEvents s.trace (lib.DumpRequestOut (s.config.SignRequest q))
            "Failed to dump request" (.dumpRequestOut (s.config.SignRequest q)) ++
          [.clientDo (s.config.SignRequest q)] ++
          traceEvents s.trace (DumpResponse lib resp).2 "Failed to dump response"
            (.dumpResponse resp)) := by
  unfold send Sign
  simp [DumpRequestOut, hc]

theorem send_r {α β : Type} (lib : Lib α β) (s : Session) (r : Request) (out : Option β) :
    (send lib s r out).r = s.config.SignRequest r := by
  unfold send Sign
  cases hc : s.client (s.config.SignRequest r) with
  | error e => simp [DumpRequestOut, hc]
  | ok resp => simp [DumpRequestOut, hc, receive_r]

theorem send_sent {α β : Type} (lib : Lib α β) (s : Session) (r : Request) (out : Option β) :
    sentRequests (send lib s r out).events = [s.config.SignRequest r] := by
  unfold send Sign
  cases hc : s.client (s.config.SignRequest r) with
  | error e =>
    simp [DumpRequestOut, hc, sentRequests_append, sentRequests, sentRequests_traceEvents]
  | ok resp =>
    simp [DumpRequestOut, hc, receive_sent, sentRequests_append, sentRequests,
      sentRequests_traceEvents]

theorem send_signed {α β : Type} (lib : Lib α β) (s : Session) (r : Request) (out : Option β) :
    signedRequests (send lib s r out).events = [r] := by
  unfold send Sign
  cases hc : s.client (s.config.SignRequest r) with
  | error e =>
    simp [DumpRequestOut, hc, signedRequests_append, signedRequests,
      signedRequests_traceEvents]
  | ok resp =>
    simp [DumpRequestOut, hc, receive_signed, signedRequests_append, signedRequests,
      signedRequests_traceEvents]

theorem receive_site {α β : Type} (lib : Lib α β) (r : Request) (resp : Response)
    (out : Option β) (evs : List Event) :
    (receive lib r resp out evs).site = .readFailed ∨
    (receive lib r resp out evs).site = .unmarshalFailed ∨
    (receive lib r resp out evs).site = .done := by
  unfold receive
  cases out with
  | none => simp
  | some o =>
    cases hre : resp.Body.readErr with
    | some e => simp [hre]
    | none =>
      rcases hu : lib.Unmarshal resp.Body.data o with ⟨o2, _ | e⟩ <;> simp [hre, hu]

theorem send_site {α β : Type} (lib : Lib α β) (s : Session) (r : Request) (out : Option β) :
    (send lib s r out).site = .transportFailed ∨ (send lib s r out).site = .readFailed ∨
    (send lib s r out).site = .unmarshalFailed ∨ (send lib s r out).site = .done := by
  cases hc : s.client (s.config.SignRequest r) with
  | error e =>
    unfold send Sign
    simp [DumpRequestOut, hc]
  | ok resp =>
    rw [send_ok_eq lib s r out resp hc]
    right
    exact receive_site _ _ _ _ _


theorem Header.Get_Set_ne (h : Header) (k1 k2 v : String) (hne : k2 ≠ k1) :
    Header.Get (Header.Set h k1 v) k2 = Header.Get h k2 := by
  simp [Header.Get, Header.Set, hne]

/-- The header map of the prepared request, key by key. -/
theorem prepared_header (s : Session) (r : Request) (k : String) :
    (prepared s r).Header k =
      (if k = "User-Agent" ∧ Header.Get (applyContextHeaders r).Header "User-Agent" = "" then
        some [s.userAgent]
       else if k = "Content-Type" ∧
          Header.Get (applyContextHeaders r).Header "Content-Type" = "" then
        some ["application/json"]
       else (applyContextHeaders r).Header k) := by
  have hne : ("Content-Type" : String) ≠ "User-Agent" := by decide
  simp only [prepared, applyDefaultURL, applyDefaultHeaders]
  by_cases hu : Header.Get (applyContextHeaders r).Header "User-Agent" = "" <;>
    by_cases hc : Header.Get (applyContextHeaders r).Header "Content-Type" = "" <;>
    by_cases hku : k = "User-Agent" <;>
    by_cases hkc : k = "Content-Type" <;>
    simp [hu, hc, hku, hkc, Header.Get_Set_ne, Header.Set, hne]


/-- The request as `Exec` prepares it is observable in every call that passes
the argument-count check: it is handed to `Sign`, or left behind when body
encoding fails. -/
theorem Exec_prepared_observed {α β : Type} (lib : Lib α β) (s : Session) (r : Request)
    (out : Option β) (ins : List α) (hargs : ins.length ≤ 1) :
    ∃ q, (signedRequests (Exec lib s r out ins).events = [q] ∨
          ((Exec lib s r out ins).site = .marshalFailed ∧ (Exec lib s r out ins).r = q)) ∧
      q.Header = (prepared s r).Header := by
  match ins, hargs with
  | [], _ => exact ⟨prepared s r, Or.inl (by rw [Exec_nil, send_signed]), rfl⟩
  | [x], _ =>
    cases hm : lib.Marshal x with
    | error e =>
      refine ⟨prepared s r, Or.inr ?_, rfl⟩
      rw [Exec_one]
      simp [hm]
    | ok data =>
      refine ⟨{ prepared s r with Body := some data }, Or.inl ?_, rfl⟩
      rw [Exec_one]
      simp [hm, send_signed]


/-- Where the request as `Exec` prepares it ends up in a call that passes the
argument-count check: it is handed to `Sign`, its signed form is the one
request sent and the request after `Exec`; or body encoding fails, nothing is
sent, and it is the request after `Exec`. -/
theorem Exec_prepared_final {α β : Type} (lib : Lib α β) (s : Session) (r : Request)
    (out : Option β) (ins : List α) (hargs : ins.length ≤ 1) :
    ∃ q, q.Header = (prepared s r).Header ∧
      ((signedRequests (Exec lib s r out ins).events = [q] ∧
          (Exec lib s r out ins).r = s.config.SignRequest q ∧
          sentRequests (Exec lib s r out ins).events = [s.config.SignRequest q]) ∨
       ((Exec lib s r out ins).site = .marshalFailed ∧ (Exec lib s r out ins).r = q ∧
          sentRequests (Exec lib s r out ins).events = [])) := by
  match ins, hargs with
  | [], _ =>
    refine ⟨prepared s r, rfl, Or.inl ?_⟩
    rw [Exec_nil]
    exact ⟨send_signed _ _ _ _, send_r _ _ _ _, send_sent _ _ _ _⟩
  | [x], _ =>
    cases hm : lib.Marshal x with
    | error e =>
      refine ⟨prepared s r, rfl, Or.inr ?_⟩
      rw [Exec_one]
      simp [hm, sentRequests]
    | ok data =>
      refine ⟨{ prepared s r with Body := some data }, rfl, Or.inl ?_⟩
      rw [Exec_one]
      simp only [hm]
      exact ⟨send_signed _ _ _ _, send_r _ _ _ _, send_sent _ _ _ _⟩


/-! ## Claims about `Exec` -/

/-- C1: whenever `Exec` does not return from one of its pre-send failure sites
(argument count, body encoding, signing), the request is prepared by the
context header overrides, then the default headers, then the default scheme and
host, then the encoded body; that request is the one handed to `Sign`, the one
request handed to the HTTP client is its signed form, and the request is still
that signed form when `Exec` returns. -/
theorem Exec_sends_signed_prepared_request {α β : Type} (lib : Lib α β) (s : Session)
    (r : Request) (out : Option β) (ins : List α)
    (hargs : (Exec lib s r out ins).site ≠ .invalidArgument)
    (hbody : (Exec lib s r out ins).site ≠ .marshalFailed)
    (hsign : (Exec lib s r out ins).site ≠ .signFailed) :
    ∃ q, attachBody lib ins
          (applyDefaultURL s (applyDefaultHeaders s (applyContextHeaders r))) = some q ∧
      signedRequests (Exec lib s r out ins).events = [q] ∧
      sentRequests (Exec lib s r out ins).events = [s.config.SignRequest q] ∧
      (Exec lib s r out ins).r = s.config.SignRequest q := by
  match ins with
  | [] =>
    refine ⟨prepared s r, rfl, ?_, ?_, ?_⟩
    · rw [Exec_nil, send_signed]
    · rw [Exec_nil, send_sent]
    · rw [Exec_nil, send_r]
  | [x] =>
    rw [Exec_one] at hbody ⊢
    cases hm : lib.Marshal x with
    | error e => simp [hm] at hbody
    | ok data =>
      refine ⟨{ prepared s r with Body := some data }, ?_, ?_, ?_, ?_⟩
      · simp [attachBody, hm, prepared]
      · simp only [send_signed]
      · simp only [send_sent]
      · simp only [send_r]
  | x :: y :: rest =>
    rw [Exec_many lib s r out (x :: y :: rest) (by simp)] at hargs
    exact absurd rfl hargs

/-- C1 at a concrete call: a relative `PUT` with one `in` value on a session
whose client answers `200`. -/
theorem Exec_sends_signed_prepared_request_witness :
    (Exec intLib (fixedSession false (.ok okResponse)) putRequest (some 0) [3]).site
        ≠ .invalidArgument ∧
    ∃ q, attachBody intLib [3]
          (applyDefaultURL (fixedSession false (.ok okResponse))
            (applyDefaultHeaders (fixedSession false (.ok okResponse))
              (applyContextHeaders putRequest))) = some q ∧
      signedRequests
        (Exec intLib (fixedSession false (.ok okResponse)) putRequest (some 0) [3]).events = [q] ∧
      sentRequests
        (Exec intLib (fixedSession false (.ok okResponse)) putRequest (some 0) [3]).events
          = [stampAuthorization q] ∧
      (Exec intLib (fixedSession false (.ok okResponse)) putRequest (some 0) [3]).r
        = stampAuthorization q :=
  ⟨by decide,
    Exec_sends_signed_prepared_request intLib (fixedSession false (.ok okResponse)) putRequest
      (some 0) [3] (by decide) (by decide) (by decide)⟩

/-- C2: in every call that passes the argument-count check, the request as
`Exec` prepares it (the one handed to `Sign`, or the request left behind when
body encoding fails) has `User-Agent` equal to the session's user agent exactly
when the request's user agent was empty after the context overrides, and
`Content-Type` equal to `application/json` exactly when its content type was
empty after the context overrides; a non-empty entry is kept as it was. -/
theorem Exec_default_headers {α β : Type} (lib : Lib α β) (s : Session) (r : Request)
    (out : Option β) (ins : List α) (hargs : ins.length ≤ 1) :
    ∃ q, (signedRequests (Exec lib s r out ins).events = [q] ∨
          ((Exec lib s r out ins).site = .marshalFailed ∧ (Exec lib s r out ins).r = q)) ∧
      q.Header "User-Agent" =
        (if (applyContextHeaders r).UserAgent = "" then some [s.userAgent]
         else (applyContextHeaders r).Header "User-Agent") ∧
      q.Header "Content-Type" =
        (if Header.Get (applyContextHeaders r).Header "Content-Type" = "" then
          some ["application/json"]
         else (applyContextHeaders r).Header "Content-Type") := by
  obtain ⟨q, hq, hh⟩ := Exec_prepared_observed lib s r out ins hargs
  refine ⟨q, hq, ?_, ?_⟩
  · rw [hh, prepared_header]
    simp [Request.UserAgent]
  · rw [hh, prepared_header]
    simp


/-- C2 at a concrete call: the context supplies a user agent and no content
type, so the user agent is kept and the content type is defaulted. -/
theorem Exec_default_headers_witness :
    [(3 : Int)].length ≤ 1 ∧
    ∃ q, (signedRequests
            (Exec intLib (fixedSession true (.ok okResponse))
              (putRequestWith (singleHeader "User-Agent" ["custom-agent/1.0"]))
              (some 0) [3]).events = [q] ∨
          ((Exec intLib (fixedSession true (.ok okResponse))
              (putRequestWith (singleHeader "User-Agent" ["custom-agent/1.0"]))
              (some 0) [3]).site = .marshalFailed ∧
           (Exec intLib (fixedSession true (.ok okResponse))
              (putRequestWith (singleHeader "User-Agent" ["custom-agent/1.0"]))
              (some 0) [3]).r = q)) ∧
      q.Header "User-Agent" = some ["custom-agent/1.0"] ∧
      q.Header "Content-Type" = some ["application/json"] :=
  ⟨by decide,
    Exec_default_headers intLib (fixedSession true (.ok okResponse))
      (putRequestWith (singleHeader "User-Agent" ["custom-agent/1.0"])) (some 0) [3] (by decide)⟩

/-- C3 as stated fails, in three ways.  A context that carries `Content-Type`
with the single empty value does not have that value list after `Exec`: the
request after `Exec`, which is the one sent, carries the `application/json`
default under that key.  A context entry under a key that signing writes is
handed to signing and is not what is there after `Exec`: the context's
`Authorization` is replaced by the signature.  And a call with two `in` values
returns before the context is applied. -/
theorem Exec_context_header_not_kept :
    (singleHeader "Content-Type" [""] "Content-Type" = some [""] ∧
      (Exec intLib (fixedSession false (.ok okResponse))
        (putRequestWith (singleHeader "Content-Type" [""])) (none : Option Int) []).r.Header
          "Content-Type" = some ["application/json"] ∧
      (sentRequests
        (Exec intLib (fixedSession false (.ok okResponse))
          (putRequestWith (singleHeader "Content-Type" [""])) (none : Option Int) []).events).map
        (fun q => q.Header "Content-Type") = [some ["application/json"]]) ∧
    (singleHeader "Authorization" ["Bearer token"] "Authorization" = some ["Bearer token"] ∧
      (signedRequests
        (Exec intLib (fixedSession false (.ok okResponse))
          (putRequestWith (singleHeader "Authorization" ["Bearer token"]))
          (none : Option Int) []).events).map
        (fun q => q.Header "Authorization") = [some ["Bearer token"]] ∧
      (Exec intLib (fixedSession false (.ok okResponse))
        (putRequestWith (singleHeader "Authorization" ["Bearer token"]))
        (none : Option Int) []).r.Header "Authorization" = some ["EG1-HMAC-SHA256 signature"] ∧
      (sentRequests
        (Exec intLib (fixedSession false (.ok okResponse))
          (putRequestWith (singleHeader "Authorization" ["Bearer token"]))
          (none : Option Int) []).events).map
        (fun q => q.Header "Authorization") = [some ["EG1-HMAC-SHA256 signature"]]) ∧
    (singleHeader "Content-Type" ["text/plain"] "Content-Type" = some ["text/plain"] ∧
      (Exec intLib (fixedSession false (.ok okResponse))
        (putRequestWith (singleHeader "Content-Type" ["text/plain"]))
        (none : Option Int) [1, 2]).r.Header "Content-Type" = none) := by
  decide

/-- C3, amended: in every call that passes the argument-count check, for every
key `k` carried by the context options with value list `v`, the request as
`Exec` prepares it (handed to `Sign`, or left behind when body encoding fails)
has exactly `v` under `k`, whatever the caller had set there, except when `k`
is `User-Agent` or `Content-Type` and `v` is empty or starts with the empty
string: then the entry is the single default value.  Whenever the signer leaves
the entry under `k` as it finds it, the same holds of the request after `Exec`
and of every request sent.  In particular a context `Content-Type` with a
non-empty first value is, with such a signer, what is sent, and is not
defaulted. -/
theorem Exec_context_headers {α β : Type} (lib : Lib α β) (s : Session) (r : Request)
    (out : Option β) (ins : List α) (o : contextOptions) (k : String) (v : List String)
    (hargs : ins.length ≤ 1) (hopt : r.options = some o) (hk : o.header k = some v) :
    (∃ q, (signedRequests (Exec lib s r out ins).events = [q] ∨
          ((Exec lib s r out ins).site = .marshalFailed ∧ (Exec lib s r out ins).r = q)) ∧
      q.Header k =
        (if k = "User-Agent" ∧ Header.Get o.header k = "" then some [s.userAgent]
         else if k = "Content-Type" ∧ Header.Get o.header k = "" then some ["application/json"]
         else some v)) ∧
    ((∀ p : Request, (s.config.SignRequest p).Header k = p.Header k) →
      (Exec lib s r out ins).r.Header k =
        (if k = "User-Agent" ∧ Header.Get o.header k = "" then some [s.userAgent]
         else if k = "Content-Type" ∧ Header.Get o.header k = "" then some ["application/json"]
         else some v) ∧
      ∀ x ∈ sentRequests (Exec lib s r out ins).events,
        x.Header k =
          (if k = "User-Agent" ∧ Header.Get o.header k = "" then some [s.userAgent]
           else if k = "Content-Type" ∧ Header.Get o.header k = "" then
            some ["application/json"]
           else some v)) := by
  have hov : (applyContextHeaders r).Header k = some v := by
    simp [applyContextHeaders, hopt, hk]
  have hval : (prepared s r).Header k =
      (if k = "User-Agent" ∧ Header.Get o.header k = "" then some [s.userAgent]
       else if k = "Content-Type" ∧ Header.Get o.header k = "" then some ["application/json"]
       else some v) := by
    rw [prepared_header, hov]
    by_cases hua : k = "User-Agent"
    · subst hua
      simp [Header.Get, hov, hk]
    · by_cases hct : k = "Content-Type"
      · subst hct
        simp [Header.Get, hov, hk]
      · simp [hua, hct]
  obtain ⟨q, hh, hq⟩ := Exec_prepared_final lib s r out ins hargs
  have hqk : q.Header k = (prepared s r).Header k := by rw [hh]
  refine ⟨⟨q, ?_, hqk.trans hval⟩, ?_⟩
  · rcases hq with ⟨h1, _, _⟩ | ⟨h1, h2, _⟩
    · exact Or.inl h1
    · exact Or.inr ⟨h1, h2⟩
  · intro hsign
    rcases hq with ⟨_, h2, h3⟩ | ⟨_, h2, h3⟩
    · refine ⟨by rw [h2, hsign, hqk, hval], ?_⟩
      intro x hx
      rw [h3] at hx
      rw [List.mem_singleton.mp hx, hsign, hqk, hval]
    · refine ⟨by rw [h2, hqk, hval], ?_⟩
      intro x hx
      rw [h3] at hx
      cases hx

/-- C3, amended, at the test's input: the context carries
`Content-Type: application/json;charset=UTF-8` and the signer writes only
`Authorization`, so that value list is what the request has after `Exec` and
what is sent. -/
theorem Exec_context_headers_witness :
    ([] : List Int).length ≤ 1 ∧
    singleHeader "Content-Type" ["application/json;charset=UTF-8"] "Content-Type"
      = some ["application/json;charset=UTF-8"] ∧
    (Exec intLib (fixedSession false (.ok okResponse))
      (putRequestWith (singleHeader "Content-Type" ["application/json;charset=UTF-8"]))
      (some 0) []).r.Header "Content-Type" = some ["application/json;charset=UTF-8"] ∧
    ∀ x ∈ sentRequests
        (Exec intLib (fixedSession false (.ok okResponse))
          (putRequestWith (singleHeader "Content-Type" ["application/json;charset=UTF-8"]))
          (some 0) []).events,
      x.Header "Content-Type" = some ["application/json;charset=UTF-8"] :=
  ⟨by decide, by decide,
    (Exec_context_headers intLib (fixedSession false (.ok okResponse))
      (putRequestWith (singleHeader "Content-Type" ["application/json;charset=UTF-8"]))
      (some 0) [] ⟨singleHeader "Content-Type" ["application/json;charset=UTF-8"]⟩
      "Content-Type" ["application/json;charset=UTF-8"] (by decide) rfl (by decide)).2
      (fun p => by simp [fixedSession, stampAuthorization, Header.Set])⟩

/-- C4: a call with two or more `in` values returns a nil response and an
error wrapping `ErrInvalidArgument`; the request and `out` are untouched and no
effect has happened (nothing signed, nothing sent). -/
theorem Exec_rejects_many_inputs {α β : Type} (lib : Lib α β) (s : Session) (r : Request)
    (out : Option β) (ins : List α) (hargs : 2 ≤ ins.length) :
    (Exec lib s r out ins).resp = none ∧
    (∃ e, (Exec lib s r out ins).err = some e ∧ Error.Is e ErrInvalidArgument = true) ∧
    (Exec lib s r out ins).r = r ∧
    (Exec lib s r out ins).out = out ∧
    (Exec lib s r out ins).events = [] := by
  rw [Exec_many lib s r out ins hargs]
  refine ⟨rfl, ⟨_, rfl, ?_⟩, rfl, rfl, rfl⟩
  simp [Error.Is, ErrInvalidArgument]

/-- C4 at a concrete call with two `in` values. -/
theorem Exec_rejects_many_inputs_witness :
    2 ≤ [(1 : Int), 2].length ∧
    (Exec intLib (fixedSession true (.ok okResponse)) putRequest (some 0) [1, 2]).resp = none ∧
    (∃ e, (Exec intLib (fixedSession true (.ok okResponse)) putRequest (some 0) [1, 2]).err
        = some e ∧ Error.Is e ErrInvalidArgument = true) ∧
    (Exec intLib (fixedSession true (.ok okResponse)) putRequest (some 0) [1, 2]).r
      = putRequest ∧
    (Exec intLib (fixedSession true (.ok okResponse)) putRequest (some 0) [1, 2]).out
      = some 0 ∧
    (Exec intLib (fixedSession true (.ok okResponse)) putRequest (some 0) [1, 2]).events = [] :=
  ⟨by decide,
    Exec_rejects_many_inputs intLib (fixedSession true (.ok okResponse)) putRequest (some 0)
      [1, 2] (by decide)⟩


theorem decoded_traceEvents (t : Bool) (d : Except String String) (msg : String)
    (mk : Event) (h : decoded [mk] = []) : decoded (traceEvents t d msg mk) = [] := by
  unfold traceEvents
  cases t <;> cases d <;> cases mk <;> simp_all [decoded]

theorem bodiesRead_traceEvents (t : Bool) (d : Except String String) (msg : String)
    (mk : Event) (h : bodiesRead [mk] = []) : bodiesRead (traceEvents t d msg mk) = [] := by
  unfold traceEvents
  cases t <;> cases d <;> cases mk <;> simp_all [bodiesRead]

/-- Every call of `Exec` either returns from one of its two early sites with no
effect, or runs `send` on the prepared request with the body attached. -/
theorem Exec_cases {α β : Type} (lib : Lib α β) (s : Session) (r : Request)
    (out : Option β) (ins : List α) :
    ((Exec lib s r out ins).events = [] ∧ (Exec lib s r out ins).resp = none ∧
      (Exec lib s r out ins).out = out ∧
      (((Exec lib s r out ins).site = .invalidArgument ∧
          (Exec lib s r out ins).err =
            some (.wrap ErrInvalidArgument "'in' argument must have 0 or 1 value")) ∨
       ((Exec lib s r out ins).site = .marshalFailed ∧
          ∃ e, (Exec lib s r out ins).err = some (.wrap ErrMarshaling e)))) ∨
    ∃ q, Exec lib s r out ins = send lib s q out := by
  match ins with
  | [] => exact Or.inr ⟨_, Exec_nil lib s r out⟩
  | [x] =>
    rw [Exec_one]
    cases hm : lib.Marshal x with
    | error e => exact Or.inl ⟨rfl, rfl, rfl, Or.inr ⟨rfl, e, rfl⟩⟩
    | ok data => exact Or.inr ⟨_, rfl⟩
  | x :: y :: rest =>
    rw [Exec_many lib s r out (x :: y :: rest) (by simp)]
    exact Or.inl ⟨rfl, rfl, rfl, Or.inl ⟨rfl, rfl⟩⟩

/-- The reads made by the response dump: one, of the body the client returned,
when tracing is on. -/
theorem bodiesRead_dumpResponse (t : Bool) (d : Except String String) (msg : String)
    (resp : Response) :
    bodiesRead (traceEvents t d msg (.dumpResponse resp)) = if t then [resp.Body] else [] := by
  unfold traceEvents
  cases t <;> cases d <;> simp [bodiesRead]

/-- What `send` returns when the client reports a transport error. -/
theorem send_transport_error {α β : Type} (lib : Lib α β) (s : Session) (q : Request)
    (out : Option β) (e : String) (hc : s.client (s.config.SignRequest q) = .error e) :
    (send lib s q out).resp = none ∧ (send lib s q out).err = some (.external e) ∧
    (send lib s q out).site = .transportFailed ∧ (send lib s q out).out = out ∧
    bodiesRead (send lib s q out).events = [] ∧ decoded (send lib s q out).events = [] := by
  unfold send Sign
  simp [DumpRequestOut, hc, bodiesRead_append, decoded_append, bodiesRead, decoded,
    bodiesRead_traceEvents, decoded_traceEvents]

/-- What `send` returns when the client answers and `out` is nil. -/
theorem send_ok_nil {α β : Type} (lib : Lib α β) (s : Session) (q : Request)
    (resp : Response) (hc : s.client (s.config.SignRequest q) = .ok resp) :
    (send lib s q (none : Option β)).resp =
      some (if s.trace then (DumpResponse lib resp).1 else resp) ∧
    (send lib s q (none : Option β)).err = none ∧
    (send lib s q (none : Option β)).site = .done ∧
    bodiesRead (send lib s q (none : Option β)).events = (if s.trace then [resp.Body] else []) ∧
    decoded (send lib s q (none : Option β)).events = [] := by
  rw [send_ok_eq lib s q none resp hc]
  simp [receive, bodiesRead_append, decoded_append, bodiesRead, decoded,
    bodiesRead_traceEvents, bodiesRead_dumpResponse, decoded_traceEvents]

/-- A call of `receive` that returns no error returns a response. -/
theorem receive_resp_of_no_error {α β : Type} (lib : Lib α β) (r : Request)
    (resp : Response) (out : Option β) (evs : List Event)
    (h : (receive lib r resp out evs).err = none) :
    ∃ resp2, (receive lib r resp out evs).resp = some resp2 := by
  unfold receive at h ⊢
  cases out with
  | none => exact ⟨_, rfl⟩
  | some o =>
    cases hre : resp.Body.readErr with
    | some e => simp [hre] at h
    | none =>
      rcases hu : lib.Unmarshal resp.Body.data o with ⟨o2, _ | e⟩
      · simp [hre, hu]
      · simp [hre, hu] at h

/-- A call of `receive` with a non-nil `out` leaves `out` non-nil. -/
theorem receive_out_some {α β : Type} (lib : Lib α β) (r : Request)
    (resp : Response) (o : β) (evs : List Event) :
    ∃ d, (receive lib r resp (some o) evs).out = some d := by
  unfold receive
  cases hre : resp.Body.readErr with
  | some e => simp [hre]
  | none =>
    rcases hu : lib.Unmarshal resp.Body.data o with ⟨o2, _ | e⟩ <;> simp [hre, hu]

/-- What `send` returns when the client answers, `out` is non-nil and the body
is read: the body is read once by `ioutil.ReadAll`, and once before that by the
response dump when tracing is on. -/
theorem send_ok_read {α β : Type} (lib : Lib α β) (s : Session) (q : Request)
    (o : β) (resp : Response)
    (hc : s.client (s.config.SignRequest q) = .ok resp) (hread : resp.Body.readErr = none) :
    bodiesRead (send lib s q (some o)).events =
      (if s.trace then [resp.Body] else []) ++ [resp.Body] ∧
    decoded (send lib s q (some o)).events = [resp.Body.data] ∧
    (send lib s q (some o)).out = some (lib.Unmarshal resp.Body.data o).1 ∧
    (match (lib.Unmarshal resp.Body.data o).2 with
     | some e =>
        (send lib s q (some o)).resp = none ∧
        (send lib s q (some o)).err = some (.wrap ErrUnmarshaling e) ∧
        (send lib s q (some o)).site = .unmarshalFailed
     | none =>
        (send lib s q (some o)).resp = some resp ∧ (send lib s q (some o)).err = none ∧
        (send lib s q (some o)).site = .done) := by
  rw [send_ok_eq lib s q (some o) resp hc, DumpResponse_read lib resp hread]
  obtain ⟨code, data, rerr⟩ := resp
  simp only at hread
  subst hread
  rcases hu : lib.Unmarshal data o with ⟨o2, _ | e⟩ <;>
    simp [receive, hu, decoded_append, decoded, decoded_traceEvents, bodiesRead_append,
      bodiesRead, bodiesRead_traceEvents, bodiesRead_dumpResponse]

/-- A call that handed `q` to the HTTP client ran `send`, and `q` is the signed
form of the request it ran on. -/
theorem Exec_of_sent {α β : Type} (lib : Lib α β) (s : Session) (r : Request)
    (out : Option β) (ins : List α) (q : Request)
    (hq : sentRequests (Exec lib s r out ins).events = [q]) :
    ∃ p, Exec lib s r out ins = send lib s p out ∧ q = s.config.SignRequest p := by
  rcases Exec_cases lib s r out ins with ⟨hev, _⟩ | ⟨p, hp⟩
  · rw [hev] at hq
    simp [sentRequests] at hq
  · refine ⟨p, hp, ?_⟩
    rw [hp, send_sent] at hq
    simpa using hq.symm


/-- C5 as stated fails: on a `500` response whose body is a problem-details
object and with `out` pointing to an int, `Exec` does hand the body to
`json.Unmarshal` for `out`, and fails with an error wrapping `ErrUnmarshaling`
because the error body does not fit `out`. -/
theorem Exec_decodes_error_body :
    errorResponse.StatusCode = 500 ∧
    (decoded (Exec intLib (fixedSession false (.ok errorResponse)) putRequest (some 0)
      []).events).length = 1 ∧
    (Exec intLib (fixedSession false (.ok errorResponse)) putRequest (some 0) []).site
      = .unmarshalFailed ∧
    (Exec intLib (fixedSession false (.ok errorResponse)) putRequest (some 0) []).err
      = some (.wrap ErrUnmarshaling "json: cannot unmarshal value into Go value of type int") := by
  decide

/-- C5, amended: for every response obtained by `Exec` with a non-nil `out`
and a readable body, whatever the status code, `Exec` hands the body to
`json.Unmarshal` for `out` and leaves in `out` what the decoder wrote; when the
decoder reports an error `Exec` returns a nil response and an error wrapping
`ErrUnmarshaling`, otherwise it returns the response, whose body is the bytes
read, and a nil error.  `Exec` itself never decodes into the error shape. -/
theorem Exec_decodes_whatever_status {α β : Type} (lib : Lib α β) (s : Session)
    (r : Request) (o : β) (ins : List α) (q : Request) (resp : Response)
    (hq : sentRequests (Exec lib s r (some o) ins).events = [q])
    (hresp : s.client q = .ok resp) (hread : resp.Body.readErr = none) :
    decoded (Exec lib s r (some o) ins).events = [resp.Body.data] ∧
    (Exec lib s r (some o) ins).out = some (lib.Unmarshal resp.Body.data o).1 ∧
    (match (lib.Unmarshal resp.Body.data o).2 with
     | some e =>
        (Exec lib s r (some o) ins).resp = none ∧
        (Exec lib s r (some o) ins).err = some (.wrap ErrUnmarshaling e)
     | none =>
        (Exec lib s r (some o) ins).resp = some resp ∧
        (Exec lib s r (some o) ins).err = none) := by
  obtain ⟨p, hp, hqp⟩ := Exec_of_sent lib s r (some o) ins q hq
  subst hqp
  obtain ⟨_, h2, h3, h4⟩ := send_ok_read lib s p o resp hresp hread
  rw [hp]
  refine ⟨h2, h3, ?_⟩
  cases hu : (lib.Unmarshal resp.Body.data o).2 with
  | none =>
    rw [hu] at h4
    exact ⟨h4.1, h4.2.1⟩
  | some e =>
    rw [hu] at h4
    exact ⟨h4.1, h4.2.1⟩

/-- C5, amended, at a concrete call: a `500` response whose
body is the JSON number 7 is decoded into `out`. -/
theorem Exec_decodes_whatever_status_witness :
    sentRequests (Exec intLib (fixedSession false (.ok ⟨500, ⟨.json (.number 7), none⟩⟩))
      putRequest (some 0) []).events
      = [stampAuthorization (prepared
          (fixedSession false (.ok ⟨500, ⟨.json (.number 7), none⟩⟩)) putRequest)] ∧
    (Exec intLib (fixedSession false (.ok ⟨500, ⟨.json (.number 7), none⟩⟩))
      putRequest (some 0) []).out = some 7 :=
  ⟨rfl,
    (Exec_decodes_whatever_status intLib
      (fixedSession false (.ok ⟨500, ⟨.json (.number 7), none⟩⟩)) putRequest 0 []
      (stampAuthorization (prepared
        (fixedSession false (.ok ⟨500, ⟨.json (.number 7), none⟩⟩)) putRequest))
      ⟨500, ⟨.json (.number 7), none⟩⟩ rfl rfl rfl).2.1⟩

/-- C6 as stated fails: with request tracing on and a nil `out`, `Exec` does
read the response body: the response dump of request.go:77 is taken with the
body, so the one read of the body of the `200` response is the dump's, and the
debug log carries the dump.  Nothing is decoded. -/
theorem Exec_trace_reads_body :
    (fixedSession true (.ok okResponse)).trace = true ∧
    bodiesRead (Exec intLib (fixedSession true (.ok okResponse)) putRequest
      (none : Option Int) []).events = [okResponse.Body] ∧
    (Exec intLib (fixedSession true (.ok okResponse)) putRequest
      (none : Option Int) []).events.getLast? = some (.logDebug "response dump") ∧
    decoded (Exec intLib (fixedSession true (.ok okResponse)) putRequest
      (none : Option Int) []).events = [] ∧
    (Exec intLib (fixedSession true (.ok okResponse)) putRequest
      (none : Option Int) []).site = .done :=
  ⟨rfl, rfl, rfl, rfl, rfl⟩

/-- C6, amended: with a non-nil `out`, when the request was sent, the client
answered, the body was read and `json.Unmarshal` reports an error, `Exec`
returns a nil response and an error wrapping `ErrUnmarshaling`; with a nil
`out`, `Exec` never calls `json.Unmarshal`, whatever error it returns does not
wrap `ErrUnmarshaling`, and it reads no body when tracing is off; when tracing
is on and the client answered, the one read of the body is the response
dump's, and a body that read to its end is returned with the response. -/
theorem Exec_unmarshal_failure {α β : Type} (lib : Lib α β) (s : Session) (r : Request)
    (ins : List α) :
    (∀ (o : β) (q : Request) (resp : Response) (e : String),
      sentRequests (Exec lib s r (some o) ins).events = [q] →
      s.client q = .ok resp → resp.Body.readErr = none →
      (lib.Unmarshal resp.Body.data o).2 = some e →
        (Exec lib s r (some o) ins).resp = none ∧
        (Exec lib s r (some o) ins).err = some (.wrap ErrUnmarshaling e) ∧
        Error.Is (.wrap ErrUnmarshaling e) ErrUnmarshaling = true) ∧
    decoded (Exec lib s r (none : Option β) ins).events = [] ∧
    (∀ e, (Exec lib s r (none : Option β) ins).err = some e →
      Error.Is e ErrUnmarshaling = false) ∧
    (s.trace = false → bodiesRead (Exec lib s r (none : Option β) ins).events = []) ∧
    (∀ (q : Request) (resp : Response),
      sentRequests (Exec lib s r (none : Option β) ins).events = [q] →
      s.client q = .ok resp →
        bodiesRead (Exec lib s r (none : Option β) ins).events =
          (if s.trace then [resp.Body] else []) ∧
        (resp.Body.readErr = none → (Exec lib s r (none : Option β) ins).resp = some resp)) := by
  refine ⟨?_, ?_, ?_, ?_, ?_⟩
  · intro o q resp e hq hresp hread hdec
    obtain ⟨p, hp, hqp⟩ := Exec_of_sent lib s r (some o) ins q hq
    subst hqp
    obtain ⟨_, _, _, h4⟩ := send_ok_read lib s p o resp hresp hread
    rw [hdec] at h4
    rw [hp]
    exact ⟨h4.1, h4.2.1, by simp [Error.Is, ErrUnmarshaling]⟩
  · rcases Exec_cases lib s r (none : Option β) ins with ⟨hev, _⟩ | ⟨p, hp⟩
    · rw [hev]; rfl
    · rw [hp]
      cases hc : s.client (s.config.SignRequest p) with
      | error e => exact (send_transport_error lib s p (none : Option β) e hc).2.2.2.2.2
      | ok resp => exact (send_ok_nil (β := β) lib s p resp hc).2.2.2.2
  · intro e he
    rcases Exec_cases lib s r (none : Option β) ins with ⟨_, _, _, h | h⟩ | ⟨p, hp⟩
    · rw [h.2] at he
      cases he
      decide
    · obtain ⟨m, hm⟩ := h.2
      rw [hm] at he
      cases he
      simp [Error.Is, ErrUnmarshaling, ErrMarshaling]
    · rw [hp] at he
      cases hc : s.client (s.config.SignRequest p) with
      | error e2 =>
        rw [(send_transport_error lib s p (none : Option β) e2 hc).2.1] at he
        cases he
        simp [Error.Is, ErrUnmarshaling]
      | ok resp =>
        rw [(send_ok_nil (β := β) lib s p resp hc).2.1] at he
        cases he
  · intro htrace
    rcases Exec_cases lib s r (none : Option β) ins with ⟨hev, _⟩ | ⟨p, hp⟩
    · rw [hev]; rfl
    · rw [hp]
      cases hc : s.client (s.config.SignRequest p) with
      | error e => exact (send_transport_error lib s p (none : Option β) e hc).2.2.2.2.1
      | ok resp =>
        rw [(send_ok_nil (β := β) lib s p resp hc).2.2.2.1, htrace]
        rfl
  · intro q resp hq hresp
    obtain ⟨p, hp, hqp⟩ := Exec_of_sent lib s r (none : Option β) ins q hq
    subst hqp
    obtain ⟨h1, _, _, h4, _⟩ := send_ok_nil (β := β) lib s p resp hresp
    rw [hp]
    refine ⟨h4, ?_⟩
    intro hread
    rw [h1, DumpResponse_read lib resp hread]
    simp

/-- C6, amended, at a concrete call with tracing on and a `200` response
carrying a JSON object: with `out` pointing to an int the call fails with an
error wrapping `ErrUnmarshaling`; with a nil `out` the body is read once, by
the dump, and returned with the response. -/
theorem Exec_unmarshal_failure_witness :
    (Exec intLib (fixedSession true (.ok ⟨200, ⟨.json (.object []), none⟩⟩)) putRequest
      (some 0) [3]).resp = none ∧
    (Exec intLib (fixedSession true (.ok ⟨200, ⟨.json (.object []), none⟩⟩)) putRequest
      (some 0) [3]).err
      = some (.wrap ErrUnmarshaling "json: cannot unmarshal value into Go value of type int") ∧
    Error.Is (.wrap ErrUnmarshaling "json: cannot unmarshal value into Go value of type int")
      ErrUnmarshaling = true ∧
    bodiesRead (Exec intLib (fixedSession true (.ok ⟨200, ⟨.json (.object []), none⟩⟩))
      putRequest (none : Option Int) [3]).events = [⟨.json (.object []), none⟩] ∧
    (Exec intLib (fixedSession true (.ok ⟨200, ⟨.json (.object []), none⟩⟩)) putRequest
      (none : Option Int) [3]).resp = some ⟨200, ⟨.json (.object []), none⟩⟩ :=
  ⟨((Exec_unmarshal_failure intLib (fixedSession true (.ok ⟨200, ⟨.json (.object []), none⟩⟩))
      putRequest [3]).1 0 _ ⟨200, ⟨.json (.object []), none⟩⟩ _ rfl rfl rfl rfl).1,
    ((Exec_unmarshal_failure intLib (fixedSession true (.ok ⟨200, ⟨.json (.object []), none⟩⟩))
      putRequest [3]).1 0 _ ⟨200, ⟨.json (.object []), none⟩⟩ _ rfl rfl rfl rfl).2.1,
    ((Exec_unmarshal_failure intLib (fixedSession true (.ok ⟨200, ⟨.json (.object []), none⟩⟩))
      putRequest [3]).1 0 _ ⟨200, ⟨.json (.object []), none⟩⟩ _ rfl rfl rfl rfl).2.2,
    ((Exec_unmarshal_failure (β := Int) intLib
      (fixedSession true (.ok ⟨200, ⟨.json (.object []), none⟩⟩))
      putRequest [3]).2.2.2.2 _ ⟨200, ⟨.json (.object []), none⟩⟩ rfl rfl).1,
    ((Exec_unmarshal_failure (β := Int) intLib
      (fixedSession true (.ok ⟨200, ⟨.json (.object []), none⟩⟩))
      putRequest [3]).2.2.2.2 _ ⟨200, ⟨.json (.object []), none⟩⟩ rfl rfl).2 rfl⟩


/-- C7: with exactly one `in` value `x`: when `json.Marshal x` yields `data`,
the request handed to `Sign` has body `data` (whatever body the caller had
set), and the request sent is the signed form of that request; when
`json.Marshal x` fails, `Exec` returns a nil response and an error wrapping
`ErrMarshaling`, with no effect (nothing signed, nothing sent).  With no `in`
value the request handed to `Sign` has the caller's body. -/
theorem Exec_request_body {α β : Type} (lib : Lib α β) (s : Session) (r : Request)
    (out : Option β) (x : α) :
    (match lib.Marshal x with
     | .ok data =>
        ∃ q, q.Body = some data ∧
          signedRequests (Exec lib s r out [x]).events = [q] ∧
          sentRequests (Exec lib s r out [x]).events = [s.config.SignRequest q]
     | .error e =>
        (Exec lib s r out [x]).resp = none ∧
        (Exec lib s r out [x]).err = some (.wrap ErrMarshaling e) ∧
        Error.Is (.wrap ErrMarshaling e) ErrMarshaling = true ∧
        (Exec lib s r out [x]).events = []) ∧
    (∃ q, q.Body = r.Body ∧
      signedRequests (Exec lib s r out []).events = [q] ∧
      sentRequests (Exec lib s r out []).events = [s.config.SignRequest q]) := by
  constructor
  · rw [Exec_one]
    cases hm : lib.Marshal x with
    | error e => exact ⟨rfl, rfl, by simp [Error.Is, ErrMarshaling], rfl⟩
    | ok data =>
      exact ⟨{ prepared s r with Body := some data }, rfl, send_signed _ _ _ _, send_sent _ _ _ _⟩
  · refine ⟨prepared s r, ?_, ?_, ?_⟩
    · simp only [prepared, applyDefaultURL, applyDefaultHeaders, applyContextHeaders]
      cases r.options <;> rfl
    · rw [Exec_nil, send_signed]
    · rw [Exec_nil, send_sent]

/-- C7 at a concrete call whose `in` value cannot be encoded: nothing is
signed or sent. -/
theorem Exec_request_body_witness :
    (Exec chanLib (fixedSession true (.ok okResponse)) putRequest (some 0) [()]).resp = none ∧
    (Exec chanLib (fixedSession true (.ok okResponse)) putRequest (some 0) [()]).err
      = some (.wrap ErrMarshaling "json: unsupported type: chan int") ∧
    Error.Is (.wrap ErrMarshaling "json: unsupported type: chan int") ErrMarshaling = true ∧
    (Exec chanLib (fixedSession true (.ok okResponse)) putRequest (some 0) [()]).events = [] :=
  (Exec_request_body chanLib (fixedSession true (.ok okResponse)) putRequest (some 0) ()).1

/-- C8: every call of `Exec` hands at most one request to the HTTP client, and
none when it returns from the argument-count or body-encoding failure site;
when the client reports a transport error for the request sent, `Exec` returns
a nil response and that very error, having called the client exactly once. -/
theorem Exec_one_shot {α β : Type} (lib : Lib α β) (s : Session) (r : Request)
    (out : Option β) (ins : List α) :
    (sentRequests (Exec lib s r out ins).events).length ≤ 1 ∧
    ((Exec lib s r out ins).site = .invalidArgument ∨
      (Exec lib s r out ins).site = .marshalFailed →
        sentRequests (Exec lib s r out ins).events = []) ∧
    (∀ (q : Request) (e : String),
      sentRequests (Exec lib s r out ins).events = [q] → s.client q = .error e →
        (Exec lib s r out ins).resp = none ∧
        (Exec lib s r out ins).err = some (.external e) ∧
        (Exec lib s r out ins).site = .transportFailed) := by
  refine ⟨?_, ?_, ?_⟩
  · rcases Exec_cases lib s r out ins with ⟨hev, _⟩ | ⟨p, hp⟩
    · rw [hev]; simp [sentRequests]
    · rw [hp, send_sent]; simp
  · intro hsite
    rcases Exec_cases lib s r out ins with ⟨hev, _⟩ | ⟨p, hp⟩
    · rw [hev]; rfl
    · rw [hp] at hsite
      rcases send_site lib s p out with h | h | h | h <;> rw [h] at hsite <;> simp at hsite
  · intro q e hq hc
    obtain ⟨p, hp, hqp⟩ := Exec_of_sent lib s r out ins q hq
    subst hqp
    obtain ⟨h1, h2, h3, _⟩ := send_transport_error lib s p out e hc
    rw [hp]
    exact ⟨h1, h2, h3⟩

/-- C8 at a concrete call whose client reports a transport error. -/
theorem Exec_one_shot_witness :
    (sentRequests (Exec intLib (fixedSession true (.error "dial tcp: connection refused"))
      putRequest (some 0) [3]).events).length = 1 ∧
    (Exec intLib (fixedSession true (.error "dial tcp: connection refused"))
      putRequest (some 0) [3]).resp = none ∧
    (Exec intLib (fixedSession true (.error "dial tcp: connection refused"))
      putRequest (some 0) [3]).err = some (.external "dial tcp: connection refused") ∧
    (Exec intLib (fixedSession true (.error "dial tcp: connection refused"))
      putRequest (some 0) [3]).site = .transportFailed :=
  ⟨rfl,
    (Exec_one_shot intLib (fixedSession true (.error "dial tcp: connection refused"))
      putRequest (some 0) [3]).2.2 _ _ rfl rfl⟩

/-- C9: `Sign` hands the request to the configuration's `SignRequest` and
returns a nil error, for every session and request; consequently no call of
`Exec` returns from its signing-failure site. -/
theorem Sign_never_fails {α β : Type} (lib : Lib α β) (s : Session) (r : Request)
    (out : Option β) (ins : List α) :
    (Sign s r).1 = s.config.SignRequest r ∧ (Sign s r).2 = none ∧
    (Exec lib s r out ins).site ≠ .signFailed := by
  refine ⟨rfl, rfl, ?_⟩
  rcases Exec_cases lib s r out ins with ⟨_, _, _, h | h⟩ | ⟨p, hp⟩
  · rw [h.1]; decide
  · rw [h.1]; decide
  · rw [hp]
    rcases send_site lib s p out with h | h | h | h <;> rw [h] <;> decide

/-- C10 fails on the code: the body below is a JSON object whose `title` is a
number, so `json.Unmarshal` into `APIError` reports an error, yet the decoder
has already stored the `type` member and `NewAPIError` returns it: the result
is not an `APIError` with only the status code set. -/
theorem NewAPIError_keeps_partial_decode :
    (unmarshalAPIError
      (.json (.object [("type", .string "internal_error"), ("title", .number 5)]))
      ⟨"", "", "", 0⟩).2 ≠ none ∧
    (NewAPIError
      ⟨500, ⟨.json (.object [("type", .string "internal_error"), ("title", .number 5)]),
        none⟩⟩).1 = ⟨"internal_error", "", "", 500⟩ := by
  decide

end session

namespace session

/-! ## Claims about `NewAPIError` and `APIError.Is` -/

theorem equalFold_exclusive (a b c : String) (hbc : b.data.map Char.toLower ≠ c.data.map Char.toLower)
    (hab : equalFold a b = true) : equalFold a c = false := by
  simp only [equalFold, beq_iff_eq] at hab
  simp only [equalFold, beq_eq_false_iff_ne, ne_eq]
  rw [hab]
  exact hbc

theorem lastMember_append_singleton (name : String) (l : List (String × JSON))
    (m : String × JSON) :
    lastMember name (l ++ [m]) = if equalFold m.1 name then some m.2 else lastMember name l := by
  simp only [lastMember, List.reverse_append, List.reverse_cons, List.reverse_nil,
    List.nil_append, List.singleton_append, List.find?_cons]
  cases h : equalFold m.1 name <;> simp

/-- Decoding an object whose `type`, `title` and `detail` members are all
strings reports no type error and leaves each field with its last member. -/
theorem foldl_decodeMember_strings (members : List (String × JSON)) (e : APIError)
    (hstr : ∀ m ∈ members,
      (equalFold m.1 "type" = true ∨ equalFold m.1 "title" = true ∨
        equalFold m.1 "detail" = true) → ∃ v, m.2 = .string v) :
    members.foldl decodeMember (e, false) =
      (⟨memberStringOr e.Type_ "type" members, memberStringOr e.Title "title" members,
        memberStringOr e.Detail "detail" members, e.StatusCode⟩, false) := by
  induction members using List.reverseRecOn with
  | nil => rfl
  | append_singleton l m ih =>
    have ihl := ih (fun x hx => hstr x (List.mem_append_left _ hx))
    have hm := hstr m (by simp)
    rw [List.foldl_append, ihl]
    simp only [List.foldl_cons, List.foldl_nil, decodeMember, memberStringOr,
      lastMember_append_singleton]
    by_cases h1 : equalFold m.1 "type" = true
    · obtain ⟨v, hv⟩ := hm (Or.inl h1)
      have h2 := equalFold_exclusive m.1 "type" "title" (by decide) h1
      have h3 := equalFold_exclusive m.1 "type" "detail" (by decide) h1
      simp [h1, h2, h3, hv, decodeStringField]
    · by_cases h2 : equalFold m.1 "title" = true
      · obtain ⟨v, hv⟩ := hm (Or.inr (Or.inl h2))
        have h3 := equalFold_exclusive m.1 "title" "detail" (by decide) h2
        simp [h1, h2, h3, hv, decodeStringField]
      · by_cases h3 : equalFold m.1 "detail" = true
        · obtain ⟨v, hv⟩ := hm (Or.inr (Or.inr h3))
          simp [h1, h2, h3, hv, decodeStringField]
        · simp [h1, h2, h3]

/-- C11: for every response whose body is read and is a JSON object in which
every member named `type`, `title` or `detail` (names are matched up to ASCII
case, as the decoder does) is a string, `NewAPIError` returns the `APIError`
whose `Type`, `Title` and `Detail` are those members (the last one of each
name; empty when there is none) and whose `StatusCode` is the status code of
the response, whatever other members, a `status` member included, the body
carries. -/
theorem NewAPIError_decodes_problem_details (code : Int) (members : List (String × JSON))
    (hstr : ∀ m ∈ members,
      (equalFold m.1 "type" = true ∨ equalFold m.1 "title" = true ∨
        equalFold m.1 "detail" = true) → ∃ v, m.2 = .string v) :
    (NewAPIError ⟨code, ⟨.json (.object members), none⟩⟩).1 =
      ⟨memberString "type" members, memberString "title" members,
        memberString "detail" members, code⟩ := by
  simp only [NewAPIError, unmarshalAPIError, foldl_decodeMember_strings members _ hstr]
  simp [memberString]

/-- C11 at the body of the `500` test case, which carries `status: 500`, sent
with status code 503. -/
theorem NewAPIError_decodes_problem_details_witness :
    (NewAPIError ⟨503, ⟨.json (.object [("type", .string "internal_error"),
        ("title", .string "Internal Server Error"),
        ("detail", .string "Error fetching propertys"), ("status", .number 500)]), none⟩⟩).1 =
      ⟨"internal_error", "Internal Server Error", "Error fetching propertys", 503⟩ :=
  NewAPIError_decodes_problem_details 503 [("type", .string "internal_error"),
    ("title", .string "Internal Server Error"),
    ("detail", .string "Error fetching propertys"), ("status", .number 500)] (by
      intro m hm
      simp only [List.mem_cons, List.mem_singleton, List.not_mem_nil, or_false] at hm
      rcases hm with rfl | rfl | rfl | rfl
      · exact fun _ => ⟨_, rfl⟩
      · exact fun _ => ⟨_, rfl⟩
      · exact fun _ => ⟨_, rfl⟩
      · intro h
        have hno : ¬ (equalFold "status" "type" = true ∨ equalFold "status" "title" = true ∨
            equalFold "status" "detail" = true) := by decide
        exact absurd h hno)

end session

namespace session

theorem mem_chain_api_iff (target : Error) (taddr : Nat) (t : APIError) :
    Error.api taddr t ∈ Error.chain target ↔ Error.asAPIError target = some (taddr, t) := by
  induction target with
  | sentinel name => simp [Error.chain, Error.asAPIError]
  | external text => simp [Error.chain, Error.asAPIError]
  | api a v =>
    simp only [Error.chain, Error.asAPIError, List.mem_singleton, Error.api.injEq,
      Option.some.injEq, Prod.mk.injEq]
    constructor
    · rintro ⟨h1, h2⟩
      exact ⟨h1.symm, h2.symm⟩
    · rintro ⟨h1, h2⟩
      exact ⟨h1.symm, h2.symm⟩
  | wrap inner text ih => simp [Error.chain, Error.asAPIError, ih]

/-- C12: for every `*APIError` `e` (at address `addr`) and every target,
`e.Is(target)` is true exactly when the `Unwrap` chain of the target contains a
`*APIError` `t` that is the same pointer as `e`, or has the status code and the
`Error()` text of `e`; it is false when the chain contains no `*APIError`; it
is reflexive, and symmetric between two `*APIError` values. -/
theorem APIError_Is_characterisation (addr : Nat) (e : APIError) (target : Error) :
    (APIError.Is addr e target = true ↔
      ∃ taddr t, Error.api taddr t ∈ Error.chain target ∧
        (addr = taddr ∨ (t.StatusCode = e.StatusCode ∧ APIError.Error t = APIError.Error e))) ∧
    ((∀ taddr t, Error.api taddr t ∉ Error.chain target) → APIError.Is addr e target = false) ∧
    APIError.Is addr e (.api addr e) = true ∧
    (∀ taddr t, APIError.Is addr e (.api taddr t) = APIError.Is taddr t (.api addr e)) := by
  refine ⟨?_, ?_, ?_, ?_⟩
  · cases h : Error.asAPIError target with
    | none =>
      simp only [APIError.Is, h, Bool.false_eq_true, false_iff, not_exists, not_and]
      intro taddr t hmem
      rw [mem_chain_api_iff, h] at hmem
      cases hmem
    | some p =>
      obtain ⟨pa, pt⟩ := p
      simp only [APIError.Is, h]
      constructor
      · intro hyes
        refine ⟨pa, pt, (mem_chain_api_iff _ _ _).2 h, ?_⟩
        by_cases ha : addr = pa
        · exact Or.inl ha
        · by_cases hs : e.StatusCode = pt.StatusCode
          · simp [ha, hs] at hyes
            exact Or.inr ⟨hs.symm, hyes.symm⟩
          · simp [ha, hs] at hyes
      · rintro ⟨taddr, t, hmem, hcond⟩
        rw [mem_chain_api_iff, h] at hmem
        cases hmem
        rcases hcond with ha | ⟨hs, herr⟩
        · simp [ha]
        · by_cases ha : addr = pa
          · simp [ha]
          · simp [ha, hs, herr]
  · intro hnone
    cases h : Error.asAPIError target with
    | none => simp [APIError.Is, h]
    | some p =>
      obtain ⟨pa, pt⟩ := p
      exact absurd ((mem_chain_api_iff _ _ _).2 h) (hnone pa pt)
  · simp [APIError.Is, Error.asAPIError]
  · intro taddr t
    simp only [APIError.Is, Error.asAPIError]
    by_cases ha : addr = taddr
    · simp [ha]
    · have ha2 : ¬ taddr = addr := fun h => ha h.symm
      by_cases hs : e.StatusCode = t.StatusCode
      · simp only [ha, ha2, hs, if_false, ne_eq, not_true_eq_false]
        rw [Bool.eq_iff_iff]
        simp only [beq_iff_eq]
        exact ⟨fun h => h.symm, fun h => h.symm⟩
      · have hs2 : ¬ t.StatusCode = e.StatusCode := fun h => hs h.symm
        simp [ha, ha2, hs, hs2]

/-- C12 at the test's comparison: the error returned for a `500` response,
wrapped once, matches an expected `*APIError` with the same fields held at
another address, and does not match one with another status code. -/
theorem APIError_Is_characterisation_witness :
    APIError.Is 1 ⟨"internal_error", "Internal Server Error", "Error fetching propertys", 500⟩
      (.wrap (.api 2 ⟨"internal_error", "Internal Server Error", "Error fetching propertys",
        500⟩) "request failed") = true ∧
    APIError.Is 1 ⟨"internal_error", "Internal Server Error", "Error fetching propertys", 500⟩
      (.api 2 ⟨"internal_error", "Internal Server Error", "Error fetching propertys", 404⟩)
      = false ∧
    APIError.Is 1 ⟨"internal_error", "Internal Server Error", "Error fetching propertys", 500⟩
      ErrUnmarshaling = false := by
  refine ⟨?_, by decide, ?_⟩
  · exact ((APIError_Is_characterisation 1 _ _).1).2
      ⟨2, ⟨"internal_error", "Internal Server Error", "Error fetching propertys", 500⟩,
        by simp [Error.chain], Or.inr ⟨rfl, rfl⟩⟩
  · exact (APIError_Is_characterisation 1 _ _).2.1 (by simp [Error.chain, ErrUnmarshaling])

end session

namespace imaging

/-! ## Claims about request and policy validation -/

theorem Filter_eq_none_iff (es : validation.Errors) :
    validation.Filter es = none ↔ ∀ e ∈ es, e.2 = none := by
  unfold validation.Filter
  constructor
  · intro h
    have hnil : es.filterMap (fun e => e.2.map (fun msg => (e.1, msg))) = [] := by
      cases hl : es.filterMap (fun e => e.2.map (fun msg => (e.1, msg))) with
      | nil => rfl
      | cons a l => rw [hl] at h; cases h
    intro e he
    rw [List.filterMap_eq_nil_iff] at hnil
    have := hnil e he
    simpa using this
  · intro h
    have hnil : es.filterMap (fun e => e.2.map (fun msg => (e.1, msg))) = [] := by
      rw [List.filterMap_eq_nil_iff]
      intro e he
      simp [h e he]
    rw [hnil]

theorem Required_eq_none_iff (value : String) :
    validation.Validate value [validation.Required] = none ↔ value ≠ "" := by
  simp only [validation.Validate, validation.Required]
  by_cases h : value = "" <;> simp [h]

theorem Network_eq_none_iff (value : String) :
    validation.Validate value [validation.Required,
      validation.In [PolicyNetworkStaging, PolicyNetworkProduction] networkMessage] = none ↔
      (value = "staging" ∨ value = "production") := by
  simp only [validation.Validate, validation.Required, validation.In, PolicyNetworkStaging,
    PolicyNetworkProduction]
  by_cases h : value = ""
  · subst h
    simp
  · by_cases h1 : value = "staging"
    · simp [h1]
    · by_cases h2 : value = "production"
      · simp [h2]
      · simp [h, h1, h2]

/-- C18: provided `ParseValidationErrors` returns nil exactly when no field
carries an error, `GetPolicyRequest.Validate` returns nil if and only if
`PolicyID`, `ContractID` and `PolicySetID` are non-empty and `Network` is
`staging` or `production`; the `Validate` methods of `DeletePolicyRequest`,
`GetPolicyHistoryRequest` and `RollbackPolicyRequest` return the same as that of
`GetPolicyRequest` on the same fields; and `ListPoliciesRequest.Validate`
returns nil under the same condition without `PolicyID`. -/
theorem policy_requests_validate (env : Env)
    (hparse : ∀ es, env.ParseValidationErrors es = none ↔ validation.Filter es = none)
    (v : policyRequest) (l : ListPoliciesRequest) :
    (GetPolicyRequest.Validate env v = none ↔
      (v.PolicyID ≠ "" ∧ v.ContractID ≠ "" ∧ v.PolicySetID ≠ "" ∧
        (v.Network = "staging" ∨ v.Network = "production"))) ∧
    DeletePolicyRequest.Validate env v = GetPolicyRequest.Validate env v ∧
    GetPolicyHistoryRequest.Validate env v = GetPolicyRequest.Validate env v ∧
    RollbackPolicyRequest.Validate env v = GetPolicyRequest.Validate env v ∧
    (ListPoliciesRequest.Validate env l = none ↔
      (l.ContractID ≠ "" ∧ l.PolicySetID ≠ "" ∧
        (l.Network = "staging" ∨ l.Network = "production"))) := by
  refine ⟨?_, rfl, rfl, rfl, ?_⟩
  · simp only [GetPolicyRequest.Validate, hparse, Filter_eq_none_iff, List.mem_cons,
      List.mem_singleton, List.not_mem_nil, or_false, forall_eq_or_imp, forall_eq,
      Required_eq_none_iff, Network_eq_none_iff]
  · simp only [ListPoliciesRequest.Validate, hparse, Filter_eq_none_iff, List.mem_cons,
      List.mem_singleton, List.not_mem_nil, or_false, forall_eq_or_imp, forall_eq,
      Required_eq_none_iff, Network_eq_none_iff]

end imaging

namespace imaging

/-- C18 at concrete requests, with `ParseValidationErrors` rendering the
failed fields: a complete staging request is accepted, and a request for
another network is rejected. -/
theorem policy_requests_validate_witness :
    GetPolicyRequest.Validate plainEnv ⟨"policy1", "staging", "3-WNKXX1", "570f9090"⟩ = none ∧
    GetPolicyRequest.Validate plainEnv ⟨"policy1", "test", "3-WNKXX1", "570f9090"⟩ ≠ none := by
  have h := fun v l => policy_requests_validate plainEnv
    (fun es => by simp [plainEnv, joinErrors]) v l
  refine ⟨?_, ?_⟩
  · exact ((h ⟨"policy1", "staging", "3-WNKXX1", "570f9090"⟩ ⟨"", "", ""⟩).1).2
      ⟨by decide, by decide, by decide, Or.inl rfl⟩
  · intro hnone
    have := ((h ⟨"policy1", "test", "3-WNKXX1", "570f9090"⟩ ⟨"", "", ""⟩).1).1 hnone
    revert this
    decide

theorem RolloutDuration_eq_none_iff (d : Option Int) :
    validation.Validate d [validation.Min 3600, validation.Max 604800] = none ↔
      (d = none ∨ ∃ v, d = some v ∧ (v = 0 ∨ (3600 ≤ v ∧ v ≤ 604800))) := by
  cases d with
  | none => simp [validation.Validate, validation.Min, validation.Max]
  | some v =>
    simp only [validation.Validate, validation.Min, validation.Max, false_or,
      Option.some.injEq, exists_eq_left', reduceCtorEq]
    by_cases h0 : v = 0
    · simp [h0]
    · by_cases h1 : (3600 : Int) ≤ v
      · by_cases h2 : v ≤ 604800
        · simp [h0, h1, h2]
        · simp [h0, h1, h2]
      · simp [h0, h1]

/-- C19 as stated fails: a policy whose `RolloutDuration` is present and zero,
all other fields valid, is accepted by `PolicyInputImage.Validate` and by
`PolicyInputVideo.Validate`, although zero is below 3600. -/
theorem RolloutDuration_zero_accepted :
    PolicyInputImage.Validate ⟨none, [], none, none, some 0, none, none⟩ = none ∧
    PolicyInputVideo.Validate ⟨none, [], none, some 0, none⟩ = none := by
  decide

/-- C19, amended: for `PolicyInputImage.Validate` and `PolicyInputVideo.Validate`
with all other fields valid, an absent (nil) `RolloutDuration` is accepted, and
a present `RolloutDuration` `v` is accepted if and only if `v` is zero or
`3600 <= v <= 604800`. -/
theorem RolloutDuration_accepted_iff (image : PolicyInputImage) (video : PolicyInputVideo)
    (himage : image.Breakpoints = none ∧ image.Output = none ∧
      image.PostBreakpointTransformations = none ∧ image.Transformations = none ∧
      image.Variables = none)
    (hvideo : video.Breakpoints = none ∧ video.Output = none ∧ video.Variables = none) :
    (PolicyInputImage.Validate image = none ↔
      (image.RolloutDuration = none ∨
        ∃ v, image.RolloutDuration = some v ∧ (v = 0 ∨ (3600 ≤ v ∧ v ≤ 604800)))) ∧
    (PolicyInputVideo.Validate video = none ↔
      (video.RolloutDuration = none ∨
        ∃ v, video.RolloutDuration = some v ∧ (v = 0 ∨ (3600 ≤ v ∧ v ≤ 604800)))) := by
  obtain ⟨hi1, hi2, hi3, hi4, hi5⟩ := himage
  obtain ⟨hv1, hv2, hv3⟩ := hvideo
  constructor
  · simp only [PolicyInputImage.Validate, Filter_eq_none_iff, List.mem_cons,
      List.mem_singleton, List.not_mem_nil, or_false, forall_eq_or_imp, forall_eq,
      RolloutDuration_eq_none_iff, hi1, hi2, hi3, hi4, hi5, true_and, and_true]
    simp [validation.Validate, eachHost]
  · simp only [PolicyInputVideo.Validate, Filter_eq_none_iff, List.mem_cons,
      List.mem_singleton, List.not_mem_nil, or_false, forall_eq_or_imp, forall_eq,
      RolloutDuration_eq_none_iff, hv1, hv2, hv3, true_and, and_true]
    simp [validation.Validate, eachHost]

/-- C19, amended, at a one-hour rollout of an image policy and a video policy
with nothing else set. -/
theorem RolloutDuration_accepted_iff_witness :
    PolicyInputImage.Validate ⟨none, [], none, none, some 3600, none, none⟩ = none ∧
    PolicyInputVideo.Validate ⟨none, [], none, some 3599, none⟩ ≠ none := by
  have h := RolloutDuration_accepted_iff ⟨none, [], none, none, some 3600, none, none⟩
    ⟨none, [], none, some 3599, none⟩ ⟨rfl, rfl, rfl, rfl, rfl⟩ ⟨rfl, rfl, rfl⟩
  refine ⟨h.1.2 (Or.inr ⟨3600, rfl, Or.inr ⟨by decide, by decide⟩⟩), ?_⟩
  intro hnone
  rcases h.2.1 hnone with hn | ⟨v, hv, hz | ⟨hlo, _⟩⟩
  · cases hn
  · cases hv
    revert hz
    decide
  · cases hv
    revert hlo
    decide

end imaging

namespace imaging

open session

/-! ## Claims about policy outputs -/

theorem Is_wrap_self (e : Error) (t : String) : Error.Is (.wrap e t) e = true := by
  cases e <;> simp [Error.Is, APIError.Is, Error.asAPIError]

/-- The outcomes of `unmarshallPolicyOutput`: an error built by wrapping
`ErrUnmarshalPolicyOutputList`, returned from a site other than the
unsupported-type one, or a policy output. -/
theorem unmarshallPolicyOutput_cases {I V : Type} (codec : OutputCodec I V) (o : Object) :
    (∃ t st, unmarshallPolicyOutput codec o = ⟨.error (.wrap ErrUnmarshalPolicyOutputList t), st⟩ ∧
      st ≠ .unsupportedType) ∨
    (∃ p, unmarshallPolicyOutput codec o = ⟨.ok p, .done⟩) := by
  unfold unmarshallPolicyOutput
  cases hv : o "video" with
  | none => exact Or.inl ⟨_, _, rfl, by decide⟩
  | some v =>
    cases v with
    | null => exact Or.inl ⟨_, _, rfl, by decide⟩
    | number n => exact Or.inl ⟨_, _, rfl, by decide⟩
    | string s => exact Or.inl ⟨_, _, rfl, by decide⟩
    | array items => exact Or.inl ⟨_, _, rfl, by decide⟩
    | object members => exact Or.inl ⟨_, _, rfl, by decide⟩
    | bool b =>
      cases hm : codec.Marshal o with
      | error err => exact Or.inl ⟨_, _, rfl, by decide⟩
      | ok bytes =>
        cases b with
        | false =>
          cases hu : (codec.UnmarshalImage bytes codec.zeroImage).2 with
          | none =>
            refine Or.inr ⟨.Image (codec.UnmarshalImage bytes codec.zeroImage).1, ?_⟩
            simp [policyOutputHandlers, unmarshalInto, hu]
          | some err =>
            refine Or.inl ⟨err, .unmarshalFailed, ?_, by decide⟩
            simp [policyOutputHandlers, unmarshalInto, hu]
        | true =>
          cases hu : (codec.UnmarshalVideo bytes codec.zeroVideo).2 with
          | none =>
            refine Or.inr ⟨.Video (codec.UnmarshalVideo bytes codec.zeroVideo).1, ?_⟩
            simp [policyOutputHandlers, unmarshalInto, hu]
          | some err =>
            refine Or.inl ⟨err, .unmarshalFailed, ?_, by decide⟩
            simp [policyOutputHandlers, unmarshalInto, hu]

/-- Every error of `unmarshallPolicyOutput` is built by wrapping
`ErrUnmarshalPolicyOutputList`. -/
theorem unmarshallPolicyOutput_error {I V : Type} (codec : OutputCodec I V) (o : Object)
    (e : Error) (h : (unmarshallPolicyOutput codec o).res = .error e) :
    ∃ t, e = .wrap ErrUnmarshalPolicyOutputList t := by
  rcases unmarshallPolicyOutput_cases codec o with ⟨t, st, heq, _⟩ | ⟨p, heq⟩
  · rw [heq] at h
    simp only [Except.error.injEq] at h
    exact ⟨t, h.symm⟩
  · rw [heq] at h
    cases h

/-- Without a boolean `video` entry `unmarshallPolicyOutput` fails. -/
theorem unmarshallPolicyOutput_no_flag {I V : Type} (codec : OutputCodec I V) (o : Object)
    (h : ∀ b, o "video" ≠ some (.bool b)) :
    ∃ t, (unmarshallPolicyOutput codec o).res = .error (.wrap ErrUnmarshalPolicyOutputList t) := by
  unfold unmarshallPolicyOutput
  cases hv : o "video" with
  | none => exact ⟨_, rfl⟩
  | some v =>
    cases v with
    | bool b => exact absurd hv (h b)
    | null => exact ⟨_, rfl⟩
    | number n => exact ⟨_, rfl⟩
    | string s => exact ⟨_, rfl⟩
    | array items => exact ⟨_, rfl⟩
    | object members => exact ⟨_, rfl⟩

/-- With a boolean `video` entry, a map that marshals and bytes that decode,
`unmarshallPolicyOutput` returns the selected output. -/
theorem unmarshallPolicyOutput_ok {I V : Type} (codec : OutputCodec I V) (o : Object)
    (b : Bool) (bytes : Bytes) (hvideo : o "video" = some (.bool b))
    (hmarshal : codec.Marshal o = .ok bytes) (hdec : decodes codec b bytes) :
    unmarshallPolicyOutput codec o = ⟨.ok (selectedOutput codec b bytes), .done⟩ := by
  unfold unmarshallPolicyOutput
  cases b with
  | false =>
    simp only [decodes, Bool.false_eq_true, if_false] at hdec
    simp [hvideo, hmarshal, policyOutputHandlers, unmarshalInto, selectedOutput, hdec]
  | true =>
    simp only [decodes, if_true] at hdec
    simp [hvideo, hmarshal, policyOutputHandlers, unmarshalInto, selectedOutput, hdec]

/-- C13: for every decoded object whose `video` entry is a boolean and which
otherwise decodes (the map marshals and the bytes decode into the selected
struct), `unmarshallPolicyOutput` returns the video variant, of
`policyOutputType` `Video`, when `video` is true and the image variant, of
`policyOutputType` `Image`, when it is false; the handler lookup finds a
handler for both booleans, and no call returns from the `unsupported
policyOutput type` site. -/
theorem unmarshallPolicyOutput_selects_variant {I V : Type} (codec : OutputCodec I V)
    (policyOutput : Object) (isVideo : Bool) (bytes : Bytes)
    (hvideo : policyOutput "video" = some (.bool isVideo))
    (hmarshal : codec.Marshal policyOutput = .ok bytes)
    (hdec : decodes codec isVideo bytes) :
    (unmarshallPolicyOutput codec policyOutput).res =
      .ok (if isVideo then .Video (codec.UnmarshalVideo bytes codec.zeroVideo).1
           else .Image (codec.UnmarshalImage bytes codec.zeroImage).1) ∧
    (∀ p, (unmarshallPolicyOutput codec policyOutput).out = some p →
      p.policyOutputType = if isVideo then "Video" else "Image") ∧
    (∀ flag, (policyOutputHandlers codec flag).isSome = true) ∧
    (∀ o : Object, (unmarshallPolicyOutput codec o).site ≠ .unsupportedType) := by
  have hok := unmarshallPolicyOutput_ok codec policyOutput isVideo bytes hvideo hmarshal hdec
  refine ⟨?_, ?_, ?_, ?_⟩
  · rw [hok]
    cases isVideo <;> simp [selectedOutput]
  · intro p hp
    rw [hok] at hp
    simp only [OutputResult.out, Option.some.injEq] at hp
    subst hp
    cases isVideo <;> simp [selectedOutput, PolicyOutput.policyOutputType]
  · intro flag
    cases flag <;> rfl
  · intro o
    rcases unmarshallPolicyOutput_cases codec o with ⟨t, st, heq, hst⟩ | ⟨p, heq⟩
    · rw [heq]
      exact hst
    · rw [heq]
      simp

/-- C13 at a map with `video: true` and an `id`. -/
theorem unmarshallPolicyOutput_selects_variant_witness :
    objectOf [("id", .string "v1"), ("video", .bool true)] "video" = some (.bool true) ∧
    (unmarshallPolicyOutput idCodec
      (objectOf [("id", .string "v1"), ("video", .bool true)])).res = .ok (.Video "v1") :=
  ⟨rfl,
    (unmarshallPolicyOutput_selects_variant idCodec
      (objectOf [("id", .string "v1"), ("video", .bool true)]) true
      (.json (.object [("id", .string "v1"), ("video", .bool true)])) rfl rfl rfl).1⟩

/-- C14: for every decoded object that has no `video` entry, or whose `video`
entry is not a JSON boolean, `unmarshallPolicyOutput` returns a nil policy
output and an error that wraps `ErrUnmarshalPolicyOutputList`. -/
theorem unmarshallPolicyOutput_requires_boolean_video {I V : Type} (codec : OutputCodec I V)
    (policyOutput : Object)
    (hvideo : policyOutput "video" = none ∨
      ∃ v, policyOutput "video" = some v ∧ ∀ b, v ≠ .bool b) :
    (unmarshallPolicyOutput codec policyOutput).out = none ∧
    ∃ e, (unmarshallPolicyOutput codec policyOutput).err = some e ∧
      Error.Is e ErrUnmarshalPolicyOutputList = true := by
  have hflag : ∀ b, policyOutput "video" ≠ some (.bool b) := by
    intro b hb
    rcases hvideo with hn | ⟨v, hv, hnb⟩
    · rw [hn] at hb; cases hb
    · rw [hv] at hb
      exact hnb b (Option.some.inj hb)
  obtain ⟨t, ht⟩ := unmarshallPolicyOutput_no_flag codec policyOutput hflag
  refine ⟨by simp [OutputResult.out, ht], .wrap ErrUnmarshalPolicyOutputList t,
    by simp [OutputResult.err, ht], Is_wrap_self _ _⟩

/-- C14 at a map whose `video` entry is the string `true`. -/
theorem unmarshallPolicyOutput_requires_boolean_video_witness :
    (unmarshallPolicyOutput idCodec (objectOf [("video", .string "true")])).out = none ∧
    ∃ e, (unmarshallPolicyOutput idCodec (objectOf [("video", .string "true")])).err = some e ∧
      Error.Is e ErrUnmarshalPolicyOutputList = true :=
  unmarshallPolicyOutput_requires_boolean_video idCodec (objectOf [("video", .string "true")])
    (Or.inr ⟨.string "true", rfl, by intro b hb; cases hb⟩)

end imaging

namespace imaging

open session

/-- Every error of the loop of `UnmarshalJSON` wraps the sentinel. -/
theorem appendOutputs_error {I V : Type} (codec : OutputCodec I V) (data : List Object)
    (po : List (PolicyOutput I V)) (e : Error) (h : (appendOutputs codec po data).2 = some e) :
    ∃ t, e = .wrap ErrUnmarshalPolicyOutputList t := by
  induction data generalizing po with
  | nil => simp [appendOutputs] at h
  | cons o rest ih =>
    unfold appendOutputs at h
    cases hr : (unmarshallPolicyOutput codec o).res with
    | error err =>
      rw [hr] at h
      simp only [Option.some.injEq] at h
      subst h
      exact unmarshallPolicyOutput_error codec o err hr
    | ok p =>
      rw [hr] at h
      exact ih _ h

/-- The loop of `UnmarshalJSON` fails when some map lacks a boolean `video`. -/
theorem appendOutputs_no_flag {I V : Type} (codec : OutputCodec I V) (data : List Object)
    (po : List (PolicyOutput I V))
    (h : ∃ o ∈ data, ∀ b, o "video" ≠ some (.bool b)) :
    (appendOutputs codec po data).2 ≠ none := by
  induction data generalizing po with
  | nil => simp at h
  | cons o rest ih =>
    unfold appendOutputs
    cases hr : (unmarshallPolicyOutput codec o).res with
    | error err => simp
    | ok p =>
      simp only
      obtain ⟨x, hx, hflag⟩ := h
      rcases List.mem_cons.1 hx with rfl | hrest
      · obtain ⟨t, ht⟩ := unmarshallPolicyOutput_no_flag codec x hflag
        rw [ht] at hr
        cases hr
      · exact ih _ ⟨x, hrest, hflag⟩

/-- The loop of `UnmarshalJSON` on maps that all carry a boolean `video`,
marshal and decode: one output per map, in order. -/
theorem appendOutputs_ok {I V : Type} (codec : OutputCodec I V) (data : List Object)
    (po : List (PolicyOutput I V))
    (h : ∀ o ∈ data, ∃ b bytes, o "video" = some (.bool b) ∧ codec.Marshal o = .ok bytes ∧
      decodes codec b bytes) :
    ∃ outs, appendOutputs codec po data = (po ++ outs, none) ∧
      List.Forall₂ (fun o p => (unmarshallPolicyOutput codec o).res = .ok p ∧
        ∃ b, o "video" = some (.bool b) ∧
          p.policyOutputType = if b then "Video" else "Image") data outs := by
  induction data generalizing po with
  | nil => exact ⟨[], by simp [appendOutputs], List.Forall₂.nil⟩
  | cons o rest ih =>
    obtain ⟨b, bytes, hv, hm, hd⟩ := h o (List.mem_cons_self _ _)
    have hok := unmarshallPolicyOutput_ok codec o b bytes hv hm hd
    obtain ⟨outs, hres, hall⟩ := ih (po ++ [selectedOutput codec b bytes])
      (fun x hx => h x (List.mem_cons_of_mem _ hx))
    refine ⟨selectedOutput codec b bytes :: outs, ?_, List.Forall₂.cons ⟨?_, b, hv, ?_⟩ hall⟩
    · unfold appendOutputs
      rw [hok]
      simp only
      rw [hres]
      simp
    · rw [hok]
    · cases b <;> simp [selectedOutput, PolicyOutput.policyOutputType]

/-- An array of JSON objects decodes to the list of their maps. -/
theorem unmarshalObjectList_objects (objs : List (List (String × JSON))) :
    unmarshalObjectList (objs.map JSON.object) = .ok (objs.map objectOf) := by
  induction objs with
  | nil => rfl
  | cons ms rest ih => simp [unmarshalObjectList, unmarshalObject, ih]

/-- When an array decodes, an element that is not an object with a boolean
`video` member leaves a map without a boolean `video` entry. -/
theorem unmarshalObjectList_no_flag (items : List JSON) (data : List Object)
    (hdata : unmarshalObjectList items = .ok data)
    (h : ∃ item ∈ items, ∀ ms b, item = .object ms → objectOf ms "video" ≠ some (.bool b)) :
    ∃ o ∈ data, ∀ b, o "video" ≠ some (.bool b) := by
  induction items generalizing data with
  | nil => simp at h
  | cons item rest ih =>
    unfold unmarshalObjectList at hdata
    cases ho : unmarshalObject item with
    | error err => rw [ho] at hdata; cases hdata
    | ok o =>
      rw [ho] at hdata
      cases hrest : unmarshalObjectList rest with
      | error err => rw [hrest] at hdata; cases hdata
      | ok os =>
        rw [hrest] at hdata
        simp only [Except.ok.injEq] at hdata
        subst hdata
        obtain ⟨x, hx, hflag⟩ := h
        rcases List.mem_cons.1 hx with rfl | hxr
        · refine ⟨o, List.mem_cons_self _ _, ?_⟩
          intro b
          cases x with
          | object ms =>
            simp only [unmarshalObject, Except.ok.injEq] at ho
            subst ho
            exact hflag ms b rfl
          | null =>
            simp only [unmarshalObject, Except.ok.injEq] at ho
            subst ho
            simp
          | bool v => simp [unmarshalObject] at ho
          | number v => simp [unmarshalObject] at ho
          | string v => simp [unmarshalObject] at ho
          | array v => simp [unmarshalObject] at ho
        · obtain ⟨o2, ho2, hf2⟩ := ih os hrest ⟨x, hxr, hflag⟩
          exact ⟨o2, List.mem_cons_of_mem _ ho2, hf2⟩

/-- C15 as stated fails: the JSON literal `null` is not a JSON array of
objects, yet `UnmarshalJSON` accepts it and returns a nil error, leaving the
receiver empty. -/
theorem UnmarshalJSON_accepts_null :
    (PolicyOutputs.UnmarshalJSON idCodec [] (.json .null)).2 = none ∧
    (PolicyOutputs.UnmarshalJSON idCodec [] (.json .null)).1.length = 0 := by
  constructor <;> rfl

/-- C15, amended: on a JSON array of `n` objects each carrying a boolean
`video` member and otherwise decodable, `UnmarshalJSON` on an empty receiver
succeeds and yields exactly `n` elements, the i-th being what
`unmarshallPolicyOutput` returns for the i-th object, of the variant its
`video` flag selects, in input order.  It returns an error for text that is not
JSON, for a JSON value that is neither `null` nor an array, and for an array
with an element that is not an object with a boolean `video` member; every
error it returns wraps `ErrUnmarshalPolicyOutputList`.  For the literal `null`
it returns a nil error and leaves the receiver as it was. -/
theorem UnmarshalJSON_outputs {I V : Type} (codec : OutputCodec I V)
    (objs : List (List (String × JSON)))
    (hobjs : ∀ ms ∈ objs, ∃ b bytes, objectOf ms "video" = some (.bool b) ∧
      codec.Marshal (objectOf ms) = .ok bytes ∧ decodes codec b bytes) :
    (∃ outs, PolicyOutputs.UnmarshalJSON codec [] (.json (.array (objs.map JSON.object)))
        = (outs, none) ∧ outs.length = objs.length ∧
      List.Forall₂ (fun ms p => (unmarshallPolicyOutput codec (objectOf ms)).res = .ok p ∧
        ∃ b, objectOf ms "video" = some (.bool b) ∧
          p.policyOutputType = if b then "Video" else "Image") objs outs) ∧
    (∀ po raw, (PolicyOutputs.UnmarshalJSON codec po (.malformed raw)).2 ≠ none) ∧
    (∀ po v, v ≠ JSON.null → (∀ items, v ≠ .array items) →
      (PolicyOutputs.UnmarshalJSON codec po (.json v)).2 ≠ none) ∧
    (∀ po items, (∃ item ∈ items, ∀ ms b, item = .object ms →
        objectOf ms "video" ≠ some (.bool b)) →
      (PolicyOutputs.UnmarshalJSON codec po (.json (.array items))).2 ≠ none) ∧
    (∀ po input e, (PolicyOutputs.UnmarshalJSON codec po input).2 = some e →
      Error.Is e ErrUnmarshalPolicyOutputList = true) ∧
    (∀ po, PolicyOutputs.UnmarshalJSON codec po (.json .null) = (po, none)) := by
  refine ⟨?_, ?_, ?_, ?_, ?_, ?_⟩
  · obtain ⟨outs, hres, hall⟩ := appendOutputs_ok codec (objs.map objectOf) [] (by
      intro o ho
      obtain ⟨ms, hms, rfl⟩ := List.mem_map.1 ho
      exact hobjs ms hms)
    refine ⟨outs, ?_, ?_, ?_⟩
    · simp only [PolicyOutputs.UnmarshalJSON, unmarshalObjects, unmarshalObjectList_objects]
      simpa using hres
    · have := hall.length_eq
      simpa using this.symm
    · exact (List.forall₂_map_left_iff).1 hall
  · intro po raw
    simp [PolicyOutputs.UnmarshalJSON, unmarshalObjects]
  · intro po v hnull harr
    cases v with
    | null => exact absurd rfl hnull
    | array items => exact absurd rfl (harr items)
    | bool b => simp [PolicyOutputs.UnmarshalJSON, unmarshalObjects]
    | number n => simp [PolicyOutputs.UnmarshalJSON, unmarshalObjects]
    | string s => simp [PolicyOutputs.UnmarshalJSON, unmarshalObjects]
    | object ms => simp [PolicyOutputs.UnmarshalJSON, unmarshalObjects]
  · intro po items hbad
    simp only [PolicyOutputs.UnmarshalJSON, unmarshalObjects]
    cases hdata : unmarshalObjectList items with
    | error err => simp
    | ok data =>
      exact appendOutputs_no_flag codec data po
        (unmarshalObjectList_no_flag items data hdata hbad)
  · intro po input e he
    simp only [PolicyOutputs.UnmarshalJSON] at he
    cases hdata : unmarshalObjects input with
    | error err =>
      rw [hdata] at he
      simp only [Option.some.injEq] at he
      subst he
      exact Is_wrap_self _ _
    | ok data =>
      rw [hdata] at he
      obtain ⟨t, rfl⟩ := appendOutputs_error codec data po e he
      exact Is_wrap_self _ _
  · intro po
    rfl

/-- C15, amended, at an array of an image and a video output. -/
theorem UnmarshalJSON_outputs_witness :
    PolicyOutputs.UnmarshalJSON idCodec []
      (.json (.array [.object [("id", .string "a"), ("video", .bool false)],
        .object [("id", .string "b"), ("video", .bool true)]]))
      = ([.Image "a", .Video "b"], none) ∧
    ∃ outs, PolicyOutputs.UnmarshalJSON idCodec []
      (.json (.array ([[("id", .string "a"), ("video", .bool false)],
        [("id", .string "b"), ("video", .bool true)]].map JSON.object))) = (outs, none) ∧
      outs.length = 2 :=
  ⟨rfl,
    let h := (UnmarshalJSON_outputs idCodec
      [[("id", .string "a"), ("video", .bool false)],
        [("id", .string "b"), ("video", .bool true)]] (by
        intro ms hms
        simp only [List.mem_cons, List.mem_singleton, List.not_mem_nil, or_false] at hms
        rcases hms with rfl | rfl
        · exact ⟨false, .json (.object [("id", .string "a"), ("video", .bool false)]),
            rfl, rfl, by simp only [decodes]; rfl⟩
        · exact ⟨true, .json (.object [("id", .string "b"), ("video", .bool true)]),
            rfl, rfl, by simp only [decodes]; rfl⟩)).1
    ⟨h.choose, h.choose_spec.1, h.choose_spec.2.1⟩⟩

end imaging

namespace session

/-- A call of `Exec` that returns a nil error returns a response. -/
theorem Exec_resp_of_no_error {α β : Type} (lib : Lib α β) (s : Session) (r : Request)
    (out : Option β) (ins : List α) (h : (Exec lib s r out ins).err = none) :
    ∃ resp, (Exec lib s r out ins).resp = some resp := by
  rcases Exec_cases lib s r out ins with ⟨_, _, _, hs | hs⟩ | ⟨p, hp⟩
  · rw [hs.2] at h; cases h
  · obtain ⟨e, he⟩ := hs.2
    rw [he] at h; cases h
  · rw [hp] at h ⊢
    cases hc : s.client (s.config.SignRequest p) with
    | error e =>
      rw [(send_transport_error lib s p out e hc).2.1] at h
      cases h
    | ok resp =>
      rw [send_ok_eq lib s p out resp hc] at h ⊢
      exact receive_resp_of_no_error _ _ _ _ _ h

end session

namespace imaging

open session

/-! ## Claims about the policy operations -/

/-- C16 fails on the code, against the comments of policy.go:169-185 (each
sentinel "is returned when" its operation fails): the error `ListPolicies`
returns for a request without a contract id does not match `ErrListPolicies`
under `errors.Is` (it matches `ErrStructValidation`), and the error `GetPolicy`
returns for a `200` response whose object has no `video` member does not match
`ErrGetPolicy` (it matches `ErrUnmarshalPolicyOutputList`).  On the sibling
path of a transport error, both operations return an error that matches their
own sentinel. -/
theorem policy_error_not_own_sentinel :
    ((ListPolicies plainEnv intLib (fixedSession false (.ok okResponse)) 0
        ⟨"staging", "", "570f9090"⟩).err.map (fun e => Error.Is e ErrListPolicies)
      = some false) ∧
    ((ListPolicies plainEnv intLib (fixedSession false (.ok okResponse)) 0
        ⟨"staging", "", "570f9090"⟩).err.map (fun e => Error.Is e ErrStructValidation)
      = some true) ∧
    ((GetPolicy plainEnv idCodec objectLib
        (fixedSession false (.ok ⟨200, ⟨.json (.object [("id", .string "a")]), none⟩⟩))
        ⟨"policy1", "staging", "3-WNKXX1", "570f9090"⟩).err.map
        (fun e => Error.Is e ErrGetPolicy) = some false) ∧
    ((GetPolicy plainEnv idCodec objectLib
        (fixedSession false (.ok ⟨200, ⟨.json (.object [("id", .string "a")]), none⟩⟩))
        ⟨"policy1", "staging", "3-WNKXX1", "570f9090"⟩).err.map
        (fun e => Error.Is e ErrUnmarshalPolicyOutputList) = some true) ∧
    ((ListPolicies plainEnv intLib (fixedSession false (.error "dial tcp: connection refused")) 0
        ⟨"staging", "3-WNKXX1", "570f9090"⟩).err.map (fun e => Error.Is e ErrListPolicies)
      = some true) ∧
    ((GetPolicy plainEnv idCodec objectLib
        (fixedSession false (.error "dial tcp: connection refused"))
        ⟨"policy1", "staging", "3-WNKXX1", "570f9090"⟩).err.map
        (fun e => Error.Is e ErrGetPolicy) = some true) := by
  refine ⟨?_, ?_, ?_, ?_, ?_, ?_⟩ <;> rfl

end imaging

namespace appsec

open session

/-! ## Claims about the operations -/

/-- C17: for each operation that validates its parameters (the six imaging
policy operations and the appsec eval-group, eval-rule and IP/Geo protection
operations), when `Validate` returns an error the operation returns a nil
result and an error that wraps the `ErrStructValidation` of its package; no
request has been built with `http.NewRequestWithContext` and `Exec` has had no
effect (nothing signed, nothing sent). -/
theorem validation_failure_stops_operation {α β ρ I V : Type}
    (ienv : imaging.Env) (env : Env) (codec : imaging.OutputCodec I V)
    (lib : Lib α β) (libGet : Lib α imaging.Object)
    (libUpsert : Lib (Option imaging.PolicyInput) β)
    (libGroups : Lib α (GetAttackGroupsResponse ρ)) (libRules : Lib α (GetEvalRulesResponse ρ))
    (libUG : Lib UpdateAttackGroupRequest β) (libUR : Lib UpdateEvalRuleRequest β)
    (libUI : Lib UpdateIPGeoProtectionRequest β) (s : Session) (zero : β)
    (l : imaging.ListPoliciesRequest) (v : imaging.policyRequest)
    (u : imaging.UpsertPolicyRequest) (g : GetAttackGroupRequest) (gs : GetAttackGroupsRequest)
    (ug : UpdateAttackGroupRequest) (r : GetEvalRuleRequest) (rs : GetEvalRulesRequest)
    (ur : UpdateEvalRuleRequest) (p : GetIPGeoProtectionRequest)
    (ps : GetIPGeoProtectionsRequest) (up : UpdateIPGeoProtectionRequest) :
    (imaging.ListPoliciesRequest.Validate ienv l ≠ none →
      (imaging.ListPolicies ienv lib s zero l).stoppedWith imaging.ErrStructValidation) ∧
    (imaging.GetPolicyRequest.Validate ienv v ≠ none →
      (imaging.GetPolicy ienv codec libGet s v).stoppedWith imaging.ErrStructValidation) ∧
    (imaging.UpsertPolicyRequest.Validate ienv u ≠ none →
      (imaging.UpsertPolicy ienv libUpsert s zero u).stoppedWith imaging.ErrStructValidation) ∧
    (imaging.DeletePolicyRequest.Validate ienv v ≠ none →
      (imaging.DeletePolicy ienv lib s zero v).stoppedWith imaging.ErrStructValidation) ∧
    (imaging.GetPolicyHistoryRequest.Validate ienv v ≠ none →
      (imaging.GetPolicyHistory ienv lib s zero v).stoppedWith imaging.ErrStructValidation) ∧
    (imaging.RollbackPolicyRequest.Validate ienv v ≠ none →
      (imaging.RollbackPolicy ienv lib s zero v).stoppedWith imaging.ErrStructValidation) ∧
    (env.ValidateGetAttackGroup g ≠ none →
      (GetEvalGroup env lib s zero g).stoppedWith ErrStructValidation) ∧
    (env.ValidateGetAttackGroups gs ≠ none →
      (GetEvalGroups env libGroups s gs).stoppedWith ErrStructValidation) ∧
    (env.ValidateUpdateAttackGroup ug ≠ none →
      (UpdateEvalGroup env libUG s zero ug).stoppedWith ErrStructValidation) ∧
    (GetEvalRuleRequest.Validate r ≠ none →
      (GetEvalRule env lib s zero r).stoppedWith ErrStructValidation) ∧
    (GetEvalRulesRequest.Validate rs ≠ none →
      (GetEvalRules env libRules s rs).stoppedWith ErrStructValidation) ∧
    (UpdateEvalRuleRequest.Validate ur ≠ none →
      (UpdateEvalRule env libUR s zero ur).stoppedWith ErrStructValidation) ∧
    (GetIPGeoProtectionRequest.Validate p ≠ none →
      (GetIPGeoProtection env lib s zero p).stoppedWith ErrStructValidation) ∧
    (GetIPGeoProtectionsRequest.Validate ps ≠ none →
      (GetIPGeoProtections env lib s zero ps).stoppedWith ErrStructValidation) ∧
    (UpdateIPGeoProtectionRequest.Validate up ≠ none →
      (UpdateIPGeoProtection env libUI s zero up).stoppedWith ErrStructValidation) := by
  refine ⟨?_, ?_, ?_, ?_, ?_, ?_, ?_, ?_, ?_, ?_, ?_, ?_, ?_, ?_, ?_⟩
  · intro h
    unfold imaging.ListPolicies
    cases hv : imaging.ListPoliciesRequest.Validate ienv l with
    | none => exact absurd hv h
    | some msg => exact ⟨rfl, ⟨_, rfl, imaging.Is_wrap_self _ _⟩, rfl, rfl⟩
  · intro h
    unfold imaging.GetPolicy
    cases hv : imaging.GetPolicyRequest.Validate ienv v with
    | none => exact absurd hv h
    | some msg => exact ⟨rfl, ⟨_, rfl, imaging.Is_wrap_self _ _⟩, rfl, rfl⟩
  · intro h
    unfold imaging.UpsertPolicy
    cases hv : imaging.UpsertPolicyRequest.Validate ienv u with
    | none => exact absurd hv h
    | some msg => exact ⟨rfl, ⟨_, rfl, imaging.Is_wrap_self _ _⟩, rfl, rfl⟩
  · intro h
    unfold imaging.DeletePolicy
    cases hv : imaging.DeletePolicyRequest.Validate ienv v with
    | none => exact absurd hv h
    | some msg => exact ⟨rfl, ⟨_, rfl, imaging.Is_wrap_self _ _⟩, rfl, rfl⟩
  · intro h
    unfold imaging.GetPolicyHistory
    cases hv : imaging.GetPolicyHistoryRequest.Validate ienv v with
    | none => exact absurd hv h
    | some msg => exact ⟨rfl, ⟨_, rfl, imaging.Is_wrap_self _ _⟩, rfl, rfl⟩
  · intro h
    unfold imaging.RollbackPolicy
    cases hv : imaging.RollbackPolicyRequest.Validate ienv v with
    | none => exact absurd hv h
    | some msg => exact ⟨rfl, ⟨_, rfl, imaging.Is_wrap_self _ _⟩, rfl, rfl⟩
  · intro h
    unfold GetEvalGroup
    cases hv : env.ValidateGetAttackGroup g with
    | none => exact absurd hv h
    | some msg => exact ⟨rfl, ⟨_, rfl, imaging.Is_wrap_self _ _⟩, rfl, rfl⟩
  · intro h
    unfold GetEvalGroups
    cases hv : env.ValidateGetAttackGroups gs with
    | none => exact absurd hv h
    | some msg => exact ⟨rfl, ⟨_, rfl, imaging.Is_wrap_self _ _⟩, rfl, rfl⟩
  · intro h
    unfold UpdateEvalGroup
    cases hv : env.ValidateUpdateAttackGroup ug with
    | none => exact absurd hv h
    | some msg => exact ⟨rfl, ⟨_, rfl, imaging.Is_wrap_self _ _⟩, rfl, rfl⟩
  · intro h
    unfold GetEvalRule
    cases hv : GetEvalRuleRequest.Validate r with
    | none => exact absurd hv h
    | some msg => exact ⟨rfl, ⟨_, rfl, imaging.Is_wrap_self _ _⟩, rfl, rfl⟩
  · intro h
    unfold GetEvalRules
    cases hv : GetEvalRulesRequest.Validate rs with
    | none => exact absurd hv h
    | some msg => exact ⟨rfl, ⟨_, rfl, imaging.Is_wrap_self _ _⟩, rfl, rfl⟩
  · intro h
    unfold UpdateEvalRule
    cases hv : UpdateEvalRuleRequest.Validate ur with
    | none => exact absurd hv h
    | some msg => exact ⟨rfl, ⟨_, rfl, imaging.Is_wrap_self _ _⟩, rfl, rfl⟩
  · intro h
    unfold GetIPGeoProtection
    cases hv : GetIPGeoProtectionRequest.Validate p with
    | none => exact absurd hv h
    | some msg => exact ⟨rfl, ⟨_, rfl, imaging.Is_wrap_self _ _⟩, rfl, rfl⟩
  · intro h
    unfold GetIPGeoProtections
    cases hv : GetIPGeoProtectionsRequest.Validate ps with
    | none => exact absurd hv h
    | some msg => exact ⟨rfl, ⟨_, rfl, imaging.Is_wrap_self _ _⟩, rfl, rfl⟩
  · intro h
    unfold UpdateIPGeoProtection
    cases hv : UpdateIPGeoProtectionRequest.Validate up with
    | none => exact absurd hv h
    | some msg => exact ⟨rfl, ⟨_, rfl, imaging.Is_wrap_self _ _⟩, rfl, rfl⟩

/-- C17 at an eval-rule request without a configuration id. -/
theorem validation_failure_stops_operation_witness :
    GetEvalRuleRequest.Validate ⟨0, 15, "AAAA_81230", 12345⟩ ≠ none ∧
    (GetEvalRule plainEnv intLib (fixedSession true (.ok okResponse)) 0
      ⟨0, 15, "AAAA_81230", 12345⟩).stoppedWith ErrStructValidation :=
  ⟨by decide,
    (validation_failure_stops_operation imaging.plainEnv plainEnv imaging.idCodec intLib
      { intLib with Unmarshal := fun _ o => (o, none) }
      { intLib with Marshal := fun _ => Except.ok (Bytes.json JSON.null) }
      { intLib with Unmarshal := fun _ (o : GetAttackGroupsResponse Unit) => (o, none) }
      { intLib with Unmarshal := fun _ (o : GetEvalRulesResponse Unit) => (o, none) }
      { intLib with Marshal := fun _ => Except.ok (Bytes.json JSON.null) }
      { intLib with Marshal := fun _ => Except.ok (Bytes.json JSON.null) }
      { intLib with Marshal := fun _ => Except.ok (Bytes.json JSON.null) }
      (fixedSession true (.ok okResponse)) 0 ⟨"", "", ""⟩ ⟨"", "", "", ""⟩
      ⟨"", "", "", "", none⟩ ⟨0, 0, "", ""⟩ ⟨0, 0, "", ""⟩ ⟨0, 0, "", ""⟩
      ⟨0, 15, "AAAA_81230", 12345⟩ ⟨0, 0, "", 0⟩ ⟨0, 0, "", 0, "", ""⟩ ⟨0, 0, "", false⟩
      ⟨0, 0, "", false⟩ ⟨0, 0, "", false⟩).2.2.2.2.2.2.2.2.2.1 (by decide)⟩

end appsec

namespace session

/-- A call of `Exec` with a non-nil `out` leaves `out` non-nil. -/
theorem Exec_out_some {α β : Type} (lib : Lib α β) (s : Session) (r : Request)
    (o : β) (ins : List α) : ∃ d, (Exec lib s r (some o) ins).out = some d := by
  rcases Exec_cases lib s r (some o) ins with ⟨_, _, hout, _⟩ | ⟨p, hp⟩
  · exact ⟨o, hout⟩
  · rw [hp]
    cases hc : s.client (s.config.SignRequest p) with
    | error e => exact ⟨o, (send_transport_error lib s p (some o) e hc).2.2.2.1⟩
    | ok resp =>
      rw [send_ok_eq lib s p (some o) resp hc]
      exact receive_out_some _ _ _ _ _

end session

namespace appsec

open session

theorem filterGroups_foldl {ρ : Type} (group : String) (l acc : List (AttackGroupAction ρ)) :
    l.foldl (fun acc val => if val.Group = group then acc ++ [val] else acc) acc =
      acc ++ l.filter (fun val => decide (val.Group = group)) := by
  induction l generalizing acc with
  | nil => simp
  | cons a l ih =>
    simp only [List.foldl_cons, ih, List.filter_cons]
    by_cases h : a.Group = group <;> simp [h]

/-- The loop of `GetEvalGroups` computes the sublist of the matching groups. -/
theorem filterGroups_eq_filter {ρ : Type} (group : String) (l : List (AttackGroupAction ρ)) :
    filterGroups group l = l.filter (fun val => decide (val.Group = group)) := by
  simp [filterGroups, filterGroups_foldl]

/-- C20: whenever `GetEvalGroups` succeeds, it has built one `GET` request,
`Exec` has returned for it a response with status 200 and has left the decoded
response in `result`; when `params.Group` is empty the operation returns that
decoded response unchanged, and when it is not empty it returns a response
whose `AttackGroups` is exactly the sublist of the decoded attack groups whose
`Group` equals `params.Group`, in response order (empty when none matches). -/
theorem GetEvalGroups_filters {α ρ : Type} (env : Env) (lib : Lib α (GetAttackGroupsResponse ρ))
    (s : Session) (params : GetAttackGroupsRequest)
    (hok : (GetEvalGroups env lib s params).err = none) :
    ∃ uri req resp decoded,
      (GetEvalGroups env lib s params).built = [("GET", uri)] ∧
      env.NewRequestWithContext "GET" uri = .ok req ∧
      (Exec lib s req (some ⟨[]⟩) []).resp = some resp ∧ resp.StatusCode = 200 ∧
      (Exec lib s req (some ⟨[]⟩) []).out = some decoded ∧
      (GetEvalGroups env lib s params).result =
        some (if params.Group = "" then decoded
              else ⟨decoded.AttackGroups.filter (fun val => decide (val.Group = params.Group))⟩) := by
  unfold GetEvalGroups at hok ⊢
  cases hv : env.ValidateGetAttackGroups params with
  | some msg => rw [hv] at hok; cases hok
  | none =>
    rw [hv] at hok
    simp only at hok ⊢
    cases hreq : env.NewRequestWithContext "GET"
        ("/appsec/v1/configs/" ++ toString params.ConfigID ++ "/versions/" ++
          toString params.Version ++ "/security-policies/" ++ params.PolicyID ++
          "/eval-groups?includeConditionException=true") with
    | error err => rw [hreq] at hok; cases hok
    | ok req =>
      rw [hreq] at hok
      simp only at hok ⊢
      obtain ⟨decoded, hdec⟩ := Exec_out_some lib s req (⟨[]⟩ : GetAttackGroupsResponse ρ) []
      cases herr : (Exec lib s req (some ⟨[]⟩) []).err with
      | some e => rw [herr] at hok; cases hok
      | none =>
        obtain ⟨resp, hresp⟩ := Exec_resp_of_no_error lib s req (some ⟨[]⟩) [] herr
        rw [herr, hresp] at hok
        rw [hresp]
        simp only at hok ⊢
        by_cases hstatus : resp.StatusCode = 200
        · refine ⟨_, req, resp, decoded, ?_, hreq, hresp, hstatus, hdec, ?_⟩
          · simp [hstatus]
          · simp only [hstatus, ne_eq, not_true_eq_false, if_false, hdec, Option.getD_some,
              filterGroups_eq_filter]
            by_cases hg : params.Group = "" <;> simp [hg]
        · simp [hstatus] at hok

/-- C20 at a `200` response listing three attack groups, filtered by `SQL`. -/
theorem GetEvalGroups_filters_witness :
    (GetEvalGroups plainEnv groupsLib
      (fixedSession false (.ok ⟨200, ⟨.json (.array [.string "SQL", .string "XSS",
        .string "SQL"]), none⟩⟩)) ⟨43253, 15, "AAAA_81230", "SQL"⟩).err = none ∧
    ((GetEvalGroups plainEnv groupsLib
      (fixedSession false (.ok ⟨200, ⟨.json (.array [.string "SQL", .string "XSS",
        .string "SQL"]), none⟩⟩)) ⟨43253, 15, "AAAA_81230", "SQL"⟩).result.map
        (fun res => res.AttackGroups.map (fun val => val.Group))) = some ["SQL", "SQL"] ∧
    ∃ uri req resp decoded,
      (GetEvalGroups plainEnv groupsLib
        (fixedSession false (.ok ⟨200, ⟨.json (.array [.string "SQL", .string "XSS",
          .string "SQL"]), none⟩⟩)) ⟨43253, 15, "AAAA_81230", "SQL"⟩).built = [("GET", uri)] ∧
      plainEnv.NewRequestWithContext "GET" uri = .ok req ∧
      (Exec groupsLib (fixedSession false (.ok ⟨200, ⟨.json (.array [.string "SQL",
        .string "XSS", .string "SQL"]), none⟩⟩)) req (some ⟨[]⟩) []).resp = some resp ∧
      resp.StatusCode = 200 ∧
      (Exec groupsLib (fixedSession false (.ok ⟨200, ⟨.json (.array [.string "SQL",
        .string "XSS", .string "SQL"]), none⟩⟩)) req (some ⟨[]⟩) []).out = some decoded ∧
      (GetEvalGroups plainEnv groupsLib
        (fixedSession false (.ok ⟨200, ⟨.json (.array [.string "SQL", .string "XSS",
          .string "SQL"]), none⟩⟩)) ⟨43253, 15, "AAAA_81230", "SQL"⟩).result =
        some (if ("SQL" : String) = "" then decoded
              else ⟨decoded.AttackGroups.filter (fun val => decide (val.Group = "SQL"))⟩) :=
  ⟨rfl, rfl,
    GetEvalGroups_filters plainEnv groupsLib
      (fixedSession false (.ok ⟨200, ⟨.json (.array [.string "SQL", .string "XSS",
        .string "SQL"]), none⟩⟩)) ⟨43253, 15, "AAAA_81230", "SQL"⟩ rfl⟩

end appsec

namespace appsec

open session

theorem filterRules_foldl {ρ : Type} (ruleID : Int) (l acc : List (EvalRuleAction ρ)) :
    l.foldl (fun acc val => if val.ID = ruleID then acc ++ [val] else acc) acc =
      acc ++ l.filter (fun val => decide (val.ID = ruleID)) := by
  induction l generalizing acc with
  | nil => simp
  | cons a l ih =>
    simp only [List.foldl_cons, ih, List.filter_cons]
    by_cases h : a.ID = ruleID <;> simp [h]

/-- The loop of `GetEvalRules` computes the sublist of the matching rules. -/
theorem filterRules_eq_filter {ρ : Type} (ruleID : Int) (l : List (EvalRuleAction ρ)) :
    filterRules ruleID l = l.filter (fun val => decide (val.ID = ruleID)) := by
  simp [filterRules, filterRules_foldl]

/-- C21: whenever `GetEvalRules` succeeds, it has built one `GET` request,
`Exec` has returned for it a response with status 200 and has left the decoded
response in `result`; when `params.RuleID` is 0 the operation returns that
decoded response unchanged, and when it is not 0 it returns a response whose
`Rules` is exactly the sublist of the decoded rules whose `ID` equals
`params.RuleID`, in response order, so that every returned rule has the
requested id; in both cases the result has no more rules than the response. -/
theorem GetEvalRules_filters {α ρ : Type} (env : Env) (lib : Lib α (GetEvalRulesResponse ρ))
    (s : Session) (params : GetEvalRulesRequest)
    (hok : (GetEvalRules env lib s params).err = none) :
    ∃ uri req resp decoded returned,
      (GetEvalRules env lib s params).built = [("GET", uri)] ∧
      env.NewRequestWithContext "GET" uri = .ok req ∧
      (Exec lib s req (some ⟨[]⟩) []).resp = some resp ∧ resp.StatusCode = 200 ∧
      (Exec lib s req (some ⟨[]⟩) []).out = some decoded ∧
      (GetEvalRules env lib s params).result = some returned ∧
      returned =
        (if params.RuleID = 0 then decoded
         else ⟨decoded.Rules.filter (fun val => decide (val.ID = params.RuleID))⟩) ∧
      (params.RuleID ≠ 0 → ∀ rule ∈ returned.Rules, rule.ID = params.RuleID) ∧
      returned.Rules.length ≤ decoded.Rules.length := by
  unfold GetEvalRules at hok ⊢
  cases hv : GetEvalRulesRequest.Validate params with
  | some msg => rw [hv] at hok; cases hok
  | none =>
    rw [hv] at hok
    simp only [Option.map_none'] at hok ⊢
    cases hreq : env.NewRequestWithContext "GET"
        ("/appsec/v1/configs/" ++ toString params.ConfigID ++ "/versions/" ++
          toString params.Version ++ "/security-policies/" ++ params.PolicyID ++
          "/eval-rules?includeConditionException=true") with
    | error err => rw [hreq] at hok; cases hok
    | ok req =>
      rw [hreq] at hok
      simp only at hok ⊢
      obtain ⟨decoded, hdec⟩ := Exec_out_some lib s req (⟨[]⟩ : GetEvalRulesResponse ρ) []
      cases herr : (Exec lib s req (some ⟨[]⟩) []).err with
      | some e => rw [herr] at hok; cases hok
      | none =>
        obtain ⟨resp, hresp⟩ := Exec_resp_of_no_error lib s req (some ⟨[]⟩) [] herr
        rw [herr, hresp] at hok
        rw [hresp]
        simp only at hok ⊢
        by_cases hstatus : resp.StatusCode = 200
        · refine ⟨_, req, resp, decoded,
            (if params.RuleID = 0 then decoded
             else ⟨decoded.Rules.filter (fun val => decide (val.ID = params.RuleID))⟩),
            ?_, hreq, hresp, hstatus, hdec, ?_, rfl, ?_, ?_⟩
          · simp [hstatus]
          · simp only [hstatus, ne_eq, not_true_eq_false, if_false, hdec, Option.getD_some,
              filterRules_eq_filter]
            by_cases hg : params.RuleID = 0 <;> simp [hg]
          · intro hne rule hrule
            simp only [hne, if_false, List.mem_filter, decide_eq_true_eq] at hrule
            exact hrule.2
          · by_cases hg : params.RuleID = 0
            · simp [hg]
            · simp only [hg, if_false]
              exact List.length_filter_le _ _
        · simp [hstatus] at hok

/-- C21 at a `200` response listing three rules, filtered by the rule id
`699989`. -/
theorem GetEvalRules_filters_witness :
    (GetEvalRules plainEnv rulesLib
      (fixedSession false (.ok ⟨200, ⟨.json (.array [.number 699989, .number 950002,
        .number 699989]), none⟩⟩)) ⟨43253, 15, "AAAA_81230", 699989⟩).err = none ∧
    ((GetEvalRules plainEnv rulesLib
      (fixedSession false (.ok ⟨200, ⟨.json (.array [.number 699989, .number 950002,
        .number 699989]), none⟩⟩)) ⟨43253, 15, "AAAA_81230", 699989⟩).result.map
        (fun res => res.Rules.map (fun val => val.ID))) = some [699989, 699989] ∧
    ∃ uri req resp decoded returned,
      (GetEvalRules plainEnv rulesLib
        (fixedSession false (.ok ⟨200, ⟨.json (.array [.number 699989, .number 950002,
          .number 699989]), none⟩⟩)) ⟨43253, 15, "AAAA_81230", 699989⟩).built
        = [("GET", uri)] ∧
      plainEnv.NewRequestWithContext "GET" uri = .ok req ∧
      (Exec rulesLib (fixedSession false (.ok ⟨200, ⟨.json (.array [.number 699989,
        .number 950002, .number 699989]), none⟩⟩)) req (some ⟨[]⟩) []).resp = some resp ∧
      resp.StatusCode = 200 ∧
      (Exec rulesLib (fixedSession false (.ok ⟨200, ⟨.json (.array [.number 699989,
        .number 950002, .number 699989]), none⟩⟩)) req (some ⟨[]⟩) []).out = some decoded ∧
      (GetEvalRules plainEnv rulesLib
        (fixedSession false (.ok ⟨200, ⟨.json (.array [.number 699989, .number 950002,
          .number 699989]), none⟩⟩)) ⟨43253, 15, "AAAA_81230", 699989⟩).result
        = some returned ∧
      returned =
        (if (699989 : Int) = 0 then decoded
         else ⟨decoded.Rules.filter (fun val => decide (val.ID = 699989))⟩) ∧
      ((699989 : Int) ≠ 0 → ∀ rule ∈ returned.Rules, rule.ID = 699989) ∧
      returned.Rules.length ≤ decoded.Rules.length :=
  ⟨rfl, rfl,
    GetEvalRules_filters plainEnv rulesLib
      (fixedSession false (.ok ⟨200, ⟨.json (.array [.number 699989, .number 950002,
        .number 699989]), none⟩⟩)) ⟨43253, 15, "AAAA_81230", 699989⟩ rfl⟩

end appsec

namespace appsec

open session

/-- C22 as stated fails for the two list operations: on a `200` response that
decodes to the attack groups `SQL`, `XSS`, `SQL`, `GetEvalGroups` called with
`Group = SQL` returns, with a nil error, a result holding the two `SQL` groups
only, which is not the decoded result. -/
theorem GetEvalGroups_returns_filtered :
    plainEnv.NewRequestWithContext "GET"
      "/appsec/v1/configs/43253/versions/15/security-policies/AAAA_81230/eval-groups?includeConditionException=true"
      = .ok ⟨"GET", ⟨"", "",
          "/appsec/v1/configs/43253/versions/15/security-policies/AAAA_81230/eval-groups?includeConditionException=true"⟩,
          fun _ => none, none, none⟩ ∧
    ((Exec groupsLib
        (fixedSession false (.ok ⟨200, ⟨.json (.array [.string "SQL", .string "XSS",
          .string "SQL"]), none⟩⟩))
        ⟨"GET", ⟨"", "",
          "/appsec/v1/configs/43253/versions/15/security-policies/AAAA_81230/eval-groups?includeConditionException=true"⟩,
          fun _ => none, none, none⟩ (some ⟨[]⟩) []).out.map
        (fun res => res.AttackGroups.map (fun val => val.Group))) = some ["SQL", "XSS", "SQL"] ∧
    (GetEvalGroups plainEnv groupsLib
      (fixedSession false (.ok ⟨200, ⟨.json (.array [.string "SQL", .string "XSS",
        .string "SQL"]), none⟩⟩)) ⟨43253, 15, "AAAA_81230", "SQL"⟩).built
      = [("GET",
          "/appsec/v1/configs/43253/versions/15/security-policies/AAAA_81230/eval-groups?includeConditionException=true")] ∧
    (GetEvalGroups plainEnv groupsLib
      (fixedSession false (.ok ⟨200, ⟨.json (.array [.string "SQL", .string "XSS",
        .string "SQL"]), none⟩⟩)) ⟨43253, 15, "AAAA_81230", "SQL"⟩).err = none ∧
    ((GetEvalGroups plainEnv groupsLib
      (fixedSession false (.ok ⟨200, ⟨.json (.array [.string "SQL", .string "XSS",
        .string "SQL"]), none⟩⟩)) ⟨43253, 15, "AAAA_81230", "SQL"⟩).result.map
        (fun res => res.AttackGroups.map (fun val => val.Group))) = some ["SQL", "SQL"] := by
  refine ⟨rfl, rfl, ?_, rfl, rfl⟩
  decide

/-- C22, amended: for each appsec operation in src, given parameters that
validate, a request that is built and a call of `Exec` that returns a response
with a nil error: the update operations (`UpdateEvalGroup`, `UpdateEvalRule`,
`UpdateIPGeoProtection`) return what `Exec` decoded into `result` and a nil
error exactly when the status is 200 or 201, the get operations
(`GetEvalGroup`, `GetEvalRule`, `GetIPGeoProtection`, `GetIPGeoProtections`,
`GetApiHostnameCoverage`) exactly when it is 200, and `GetEvalGroups` and
`GetEvalRules` return, exactly when it is 200, the decoded response after
their filter (unchanged when no filter is requested); for every other status
each returns a nil result and the error that the client's `Error` method
builds from the response. -/
theorem appsec_status_dispatch {α β ρ : Type} (env : Env) (lib : Lib α β)
    (libGroups : Lib α (GetAttackGroupsResponse ρ)) (libRules : Lib α (GetEvalRulesResponse ρ))
    (libUG : Lib UpdateAttackGroupRequest β) (libUR : Lib UpdateEvalRuleRequest β)
    (libUI : Lib UpdateIPGeoProtectionRequest β) (s : Session) (zero : β)
    (g : GetAttackGroupRequest) (gs : GetAttackGroupsRequest) (ug : UpdateAttackGroupRequest)
    (r : GetEvalRuleRequest) (rs : GetEvalRulesRequest) (ur : UpdateEvalRuleRequest)
    (p : GetIPGeoProtectionRequest) (ps : GetIPGeoProtectionsRequest)
    (up : UpdateIPGeoProtectionRequest) (hc : GetApiHostnameCoverageRequest) :
    (∀ req resp, env.ValidateGetAttackGroup g = none →
      env.NewRequestWithContext "GET"
        ("/appsec/v1/configs/" ++ toString g.ConfigID ++ "/versions/" ++
          toString g.Version ++ "/security-policies/" ++ g.PolicyID ++
          "/eval-groups/" ++ g.Group ++ "?includeConditionException=true") = .ok req →
      (Exec lib s req (some zero) []).err = none →
      (Exec lib s req (some zero) []).resp = some resp →
      ((resp.StatusCode = 200) →
        (GetEvalGroup env lib s zero g).result = (Exec lib s req (some zero) []).out ∧
        (GetEvalGroup env lib s zero g).result ≠ none ∧ (GetEvalGroup env lib s zero g).err = none) ∧
      (¬ (resp.StatusCode = 200) →
        (GetEvalGroup env lib s zero g).result = none ∧
        (GetEvalGroup env lib s zero g).err = some (env.Error resp))) ∧
    (∀ req resp, env.ValidateUpdateAttackGroup ug = none →
      env.NewRequestWithContext "PUT"
        ("/appsec/v1/configs/" ++ toString ug.ConfigID ++ "/versions/" ++
          toString ug.Version ++ "/security-policies/" ++ ug.PolicyID ++
          "/eval-groups/" ++ ug.Group ++ "/action-condition-exception") = .ok req →
      (Exec libUG s req (some zero) [ug]).err = none →
      (Exec libUG s req (some zero) [ug]).resp = some resp →
      ((resp.StatusCode = 200 ∨ resp.StatusCode = 201) →
        (UpdateEvalGroup env libUG s zero ug).result = (Exec libUG s req (some zero) [ug]).out ∧
        (UpdateEvalGroup env libUG s zero ug).result ≠ none ∧ (UpdateEvalGroup env libUG s zero ug).err = none) ∧
      (¬ (resp.StatusCode = 200 ∨ resp.StatusCode = 201) →
        (UpdateEvalGroup env libUG s zero ug).result = none ∧
        (UpdateEvalGroup env libUG s zero ug).err = some (env.Error resp))) ∧
    (∀ req resp, GetEvalRuleRequest.Validate r = none →
      env.NewRequestWithContext "GET"
        ("/appsec/v1/configs/" ++ toString r.ConfigID ++ "/versions/" ++
          toString r.Version ++ "/security-policies/" ++ r.PolicyID ++
          "/eval-rules/" ++ toString r.RuleID ++ "?includeConditionException=true") = .ok req →
      (Exec lib s req (some zero) []).err = none →
      (Exec lib s req (some zero) []).resp = some resp →
      ((resp.StatusCode = 200) →
        (GetEvalRule env lib s zero r).result = (Exec lib s req (some zero) []).out ∧
        (GetEvalRule env lib s zero r).result ≠ none ∧ (GetEvalRule env lib s zero r).err = none) ∧
      (¬ (resp.StatusCode = 200) →
        (GetEvalRule env lib s zero r).result = none ∧
        (GetEvalRule env lib s zero r).err = some (env.Error resp))) ∧
    (∀ req resp, UpdateEvalRuleRequest.Validate ur = none →
      env.NewRequestWithContext "PUT"
        ("/appsec/v1/configs/" ++ toString ur.ConfigID ++ "/versions/" ++
          toString ur.Version ++ "/security-policies/" ++ ur.PolicyID ++
          "/eval-rules/" ++ toString ur.RuleID ++ "/action-condition-exception") = .ok req →
      (Exec libUR s
          { req with Header := Header.Set req.Header "Content-Type" "application/json" }
          (some zero) [ur]).err = none →
      (Exec libUR s
          { req with Header := Header.Set req.Header "Content-Type" "application/json" }
          (some zero) [ur]).resp = some resp →
      ((resp.StatusCode = 200 ∨ resp.StatusCode = 201) →
        (UpdateEvalRule env libUR s zero ur).result = (Exec libUR s
          { req with Header := Header.Set req.Header "Content-Type" "application/json" }
          (some zero) [ur]).out ∧
        (UpdateEvalRule env libUR s zero ur).result ≠ none ∧ (UpdateEvalRule env libUR s zero ur).err = none) ∧
      (¬ (resp.StatusCode = 200 ∨ resp.StatusCode = 201) →
        (UpdateEvalRule env libUR s zero ur).result = none ∧
        (UpdateEvalRule env libUR s zero ur).err = some (env.Error resp))) ∧
    (∀ req resp, GetIPGeoProtectionRequest.Validate p = none →
      env.NewRequestWithContext "GET"
        ("/appsec/v1/configs/" ++ toString p.ConfigID ++ "/versions/" ++
          toString p.Version ++ "/security-policies/" ++ p.PolicyID ++ "/protections") = .ok req →
      (Exec lib s req (some zero) []).err = none →
      (Exec lib s req (some zero) []).resp = some resp →
      ((resp.StatusCode = 200) →
        (GetIPGeoProtection env lib s zero p).result = (Exec lib s req (some zero) []).out ∧
        (GetIPGeoProtection env lib s zero p).result ≠ none ∧ (GetIPGeoProtection env lib s zero p).err = none) ∧
      (¬ (resp.StatusCode = 200) →
        (GetIPGeoProtection env lib s zero p).result = none ∧
        (GetIPGeoProtection env lib s zero p).err = some (env.Error resp))) ∧
    (∀ req resp, GetIPGeoProtectionsRequest.Validate ps = none →
      env.NewRequestWithContext "GET"
        ("/appsec/v1/configs/" ++ toString ps.ConfigID ++ "/versions/" ++
          toString ps.Version ++ "/security-policies/" ++ ps.PolicyID ++ "/protections") = .ok req →
      (Exec lib s req (some zero) []).err = none →
      (Exec lib s req (some zero) []).resp = some resp →
      ((resp.StatusCode = 200) →
        (GetIPGeoProtections env lib s zero ps).result = (Exec lib s req (some zero) []).out ∧
        (GetIPGeoProtections env lib s zero ps).result ≠ none ∧ (GetIPGeoProtections env lib s zero ps).err = none) ∧
      (¬ (resp.StatusCode = 200) →
        (GetIPGeoProtections env lib s zero ps).result = none ∧
        (GetIPGeoProtections env lib s zero ps).err = some (env.Error resp))) ∧
    (∀ req resp, UpdateIPGeoProtectionRequest.Validate up = none →
      env.NewRequestWithContext "PUT"
        ("/appsec/v1/configs/" ++ toString up.ConfigID ++ "/versions/" ++
          toString up.Version ++ "/security-policies/" ++ up.PolicyID ++ "/protections") = .ok req →
      (Exec libUI s req (some zero) [up]).err = none →
      (Exec libUI s req (some zero) [up]).resp = some resp →
      ((resp.StatusCode = 200 ∨ resp.StatusCode = 201) →
        (UpdateIPGeoProtection env libUI s zero up).result = (Exec libUI s req (some zero) [up]).out ∧
        (UpdateIPGeoProtection env libUI s zero up).result ≠ none ∧ (UpdateIPGeoProtection env libUI s zero up).err = none) ∧
      (¬ (resp.StatusCode = 200 ∨ resp.StatusCode = 201) →
        (UpdateIPGeoProtection env libUI s zero up).result = none ∧
        (UpdateIPGeoProtection env libUI s zero up).err = some (env.Error resp))) ∧
    (∀ req resp decoded, env.ValidateGetAttackGroups gs = none →
      env.NewRequestWithContext "GET"
        ("/appsec/v1/configs/" ++ toString gs.ConfigID ++ "/versions/" ++
          toString gs.Version ++ "/security-policies/" ++ gs.PolicyID ++
          "/eval-groups?includeConditionException=true") = .ok req →
      (Exec libGroups s req (some ⟨[]⟩) []).err = none →
      (Exec libGroups s req (some ⟨[]⟩) []).resp = some resp →
      (Exec libGroups s req (some ⟨[]⟩) []).out = some decoded →
      (resp.StatusCode = 200 →
        (GetEvalGroups env libGroups s gs).result =
          some (if gs.Group = "" then decoded
              else ⟨decoded.AttackGroups.filter (fun val => decide (val.Group = gs.Group))⟩) ∧
        (GetEvalGroups env libGroups s gs).err = none) ∧
      (¬ resp.StatusCode = 200 →
        (GetEvalGroups env libGroups s gs).result = none ∧
        (GetEvalGroups env libGroups s gs).err = some (env.Error resp))) ∧
    (∀ req resp decoded, GetEvalRulesRequest.Validate rs = none →
      env.NewRequestWithContext "GET"
        ("/appsec/v1/configs/" ++ toString rs.ConfigID ++ "/versions/" ++
          toString rs.Version ++ "/security-policies/" ++ rs.PolicyID ++
          "/eval-rules?includeConditionException=true") = .ok req →
      (Exec libRules s req (some ⟨[]⟩) []).err = none →
      (Exec libRules s req (some ⟨[]⟩) []).resp = some resp →
      (Exec libRules s req (some ⟨[]⟩) []).out = some decoded →
      (resp.StatusCode = 200 →
        (GetEvalRules env libRules s rs).result =
          some (if rs.RuleID = 0 then decoded
              else ⟨decoded.Rules.filter (fun val => decide (val.ID = rs.RuleID))⟩) ∧
        (GetEvalRules env libRules s rs).err = none) ∧
      (¬ resp.StatusCode = 200 →
        (GetEvalRules env libRules s rs).result = none ∧
        (GetEvalRules env libRules s rs).err = some (env.Error resp))) ∧
    (∀ req resp, env.NewRequestWithContext "GET" "/appsec/v1/hostname-coverage" = .ok req →
      (Exec lib s req (some zero) []).err = none →
      (Exec lib s req (some zero) []).resp = some resp →
      (resp.StatusCode = 200 →
        (GetApiHostnameCoverage env lib s zero hc).result = (Exec lib s req (some zero) []).out ∧
        (GetApiHostnameCoverage env lib s zero hc).result ≠ none ∧ (GetApiHostnameCoverage env lib s zero hc).err = none) ∧
      (¬ resp.StatusCode = 200 →
        (GetApiHostnameCoverage env lib s zero hc).result = none ∧
        (GetApiHostnameCoverage env lib s zero hc).err = some (env.Error resp))) := by
  refine ⟨?_, ?_, ?_, ?_, ?_, ?_, ?_, ?_, ?_, ?_⟩
  · intro req resp hvalid hreq herr hresp
    obtain ⟨d, hd⟩ := Exec_out_some lib s (req) zero []
    unfold GetEvalGroup
    simp only [hvalid, Option.map_none', hreq, herr, hresp, hd, Option.getD_some]
    by_cases h200 : resp.StatusCode = 200 <;> simp [h200]
  · intro req resp hvalid hreq herr hresp
    obtain ⟨d, hd⟩ := Exec_out_some libUG s (req) zero [ug]
    unfold UpdateEvalGroup
    simp only [hvalid, Option.map_none', hreq, herr, hresp, hd, Option.getD_some]
    by_cases h200 : resp.StatusCode = 200 <;> by_cases h201 : resp.StatusCode = 201 <;>
      simp [h200, h201]
  · intro req resp hvalid hreq herr hresp
    obtain ⟨d, hd⟩ := Exec_out_some lib s (req) zero []
    unfold GetEvalRule
    simp only [hvalid, Option.map_none', hreq, herr, hresp, hd, Option.getD_some]
    by_cases h200 : resp.StatusCode = 200 <;> simp [h200]
  · intro req resp hvalid hreq herr hresp
    obtain ⟨d, hd⟩ := Exec_out_some libUR s ({ req with Header := Header.Set req.Header "Content-Type" "application/json" }) zero [ur]
    unfold UpdateEvalRule
    simp only [hvalid, Option.map_none', hreq, herr, hresp, hd, Option.getD_some]
    by_cases h200 : resp.StatusCode = 200 <;> by_cases h201 : resp.StatusCode = 201 <;>
      simp [h200, h201]
  · intro req resp hvalid hreq herr hresp
    obtain ⟨d, hd⟩ := Exec_out_some lib s (req) zero []
    unfold GetIPGeoProtection
    simp only [hvalid, Option.map_none', hreq, herr, hresp, hd, Option.getD_some]
    by_cases h200 : resp.StatusCode = 200 <;> simp [h200]
  · intro req resp hvalid hreq herr hresp
    obtain ⟨d, hd⟩ := Exec_out_some lib s (req) zero []
    unfold GetIPGeoProtections
    simp only [hvalid, Option.map_none', hreq, herr, hresp, hd, Option.getD_some]
    by_cases h200 : resp.StatusCode = 200 <;> simp [h200]
  · intro req resp hvalid hreq herr hresp
    obtain ⟨d, hd⟩ := Exec_out_some libUI s (req) zero [up]
    unfold UpdateIPGeoProtection
    simp only [hvalid, Option.map_none', hreq, herr, hresp, hd, Option.getD_some]
    by_cases h200 : resp.StatusCode = 200 <;> by_cases h201 : resp.StatusCode = 201 <;>
      simp [h200, h201]
  · intro req resp decoded hvalid hreq herr hresp hd
    unfold GetEvalGroups
    simp only [hvalid, Option.map_none', hreq, herr, hresp, hd, Option.getD_some, filterGroups_eq_filter]
    by_cases h200 : resp.StatusCode = 200 <;> by_cases hc : gs.Group = "" <;> simp [h200, hc]
  · intro req resp decoded hvalid hreq herr hresp hd
    unfold GetEvalRules
    simp only [hvalid, Option.map_none', hreq, herr, hresp, hd, Option.getD_some, filterRules_eq_filter]
    by_cases h200 : resp.StatusCode = 200 <;> by_cases hc : rs.RuleID = 0 <;> simp [h200, hc]
  · intro req resp hreq herr hresp
    obtain ⟨d, hd⟩ := Exec_out_some lib s req zero []
    unfold GetApiHostnameCoverage
    simp only [hreq, herr, hresp, hd, Option.getD_some]
    by_cases h200 : resp.StatusCode = 200 <;> simp [h200]

/-- C22, amended, at a `201` response carrying the number 7: `UpdateEvalRule` returns the
decoded result, `GetEvalRule` returns the error built from the response. -/
theorem appsec_status_dispatch_witness :
    (UpdateEvalRule plainEnv paramsLib
      (fixedSession false (.ok ⟨201, ⟨.json (.number 7), none⟩⟩)) 0
      ⟨43253, 15, "AAAA_81230", 699989, "alert", ""⟩).result = some 7 ∧
    (UpdateEvalRule plainEnv paramsLib
      (fixedSession false (.ok ⟨201, ⟨.json (.number 7), none⟩⟩)) 0
      ⟨43253, 15, "AAAA_81230", 699989, "alert", ""⟩).err = none ∧
    (GetEvalRule plainEnv (paramsLib : Lib Unit Int)
      (fixedSession false (.ok ⟨201, ⟨.json (.number 7), none⟩⟩)) 0
      ⟨43253, 15, "AAAA_81230", 699989⟩).result = none ∧
    (GetEvalRule plainEnv (paramsLib : Lib Unit Int)
      (fixedSession false (.ok ⟨201, ⟨.json (.number 7), none⟩⟩)) 0
      ⟨43253, 15, "AAAA_81230", 699989⟩).err
      = some (plainEnv.Error ⟨201, ⟨.json (.number 7), none⟩⟩) :=
  have h := appsec_status_dispatch plainEnv (paramsLib : Lib Unit Int) groupsLib rulesLib
    paramsLib paramsLib paramsLib (fixedSession false (.ok ⟨201, ⟨.json (.number 7), none⟩⟩)) 0
    ⟨43253, 15, "AAAA_81230", "SQL"⟩ ⟨43253, 15, "AAAA_81230", ""⟩
    ⟨43253, 15, "AAAA_81230", "SQL"⟩ ⟨43253, 15, "AAAA_81230", 699989⟩
    ⟨43253, 15, "AAAA_81230", 0⟩ ⟨43253, 15, "AAAA_81230", 699989, "alert", ""⟩
    ⟨43253, 15, "AAAA_81230", false⟩ ⟨43253, 15, "AAAA_81230", false⟩
    ⟨43253, 15, "AAAA_81230", false⟩ ⟨43253, 15, "www.example.com"⟩
  have hu := (h.2.2.2.1 _ ⟨201, ⟨.json (.number 7), none⟩⟩ rfl rfl rfl rfl).1 (Or.inr rfl)
  have hg := (h.2.2.1 _ ⟨201, ⟨.json (.number 7), none⟩⟩ rfl rfl rfl rfl).2 (by decide)
  ⟨rfl, hu.2.2, hg.1, hg.2⟩

end appsec
